import Mathlib

/-!
# Web client detection and verification bot

A shallow embedding of `src/index.js` (the verification-challenge and
restricted-role lifecycle engine) together with theorems about it.

Conventions of the embedding:

* Asynchronous handlers are run to completion, one after the other: an `await`
  is sequencing.  Every handler is a function from the environment and the
  current world to an outcome (a value or a thrown JavaScript value) and the
  next world.
* Every call that leaves the process (platform API, console, timers, the action
  queue) is appended to `World.trace`, oldest first.
* Whether a platform call rejects is decided by `Env.outcome`, which may depend
  on the position of the call in the trace and on the call itself.
* The role cache of a member (`member.roles.cache`) lives in `World.roles`.  No
  statement of index.js writes to it: `member.roles.add` and
  `member.roles.remove` only send the request, and the cache changes when the
  platform reports the change, outside the handlers.
* The values of `Math.random()` and `Date.now()` are arguments of the handlers.
  A draw is a double `mant / 2 ^ exp`; the product with an integer is rounded as
  IEEE 754 doubles are.
* JavaScript strings are modelled by `String`; the `length` of a string is its
  number of UTF-16 code units (`jsLength`).
* The interactive setup is the `collect` handler of its collector
  (`setupCollect`), with the variable `selected` of the session passed in and
  returned.
* Two handlers overlap only at their `await`s: `overlap` runs two `verify_modal`
  handlers piece by piece under a schedule, each piece from a suspension to the
  next.
* The action queue is an instance of the class `PQueue` of the library
  `p-queue`, which is not part of the repository: the queue and the resumption
  of its tasks by the event loop (`ActionQueue`, `Machine`) are modelled from
  the spec, and the tasks handed to it (`Job`) are translated from index.js.
-/

set_option maxRecDepth 100000
set_option maxHeartbeats 400000

namespace WebClientDetector

/-! ## JavaScript values -/

/-- A thrown JavaScript value, reduced to what `withRetries` inspects: either a
falsy value, or a truthy value with its `code` and `errno` properties. -/
inductive JsError where
  | falsy
  | object (code : Option String) (errno : Option String)
  deriving DecidableEq, Repr, Inhabited

/-- The test `err && (err.code === "UND_ERR_CONNECT_TIMEOUT" || err.code === "ETIMEDOUT"
|| err.errno === "ETIMEDOUT")` of `withRetries`. -/
def isTimeout : JsError → Bool
  | .falsy => false
  | .object code errno =>
      code == some "UND_ERR_CONNECT_TIMEOUT" || code == some "ETIMEDOUT"
        || errno == some "ETIMEDOUT"

/-- Truthiness of a string-or-null value: `null`, `undefined` and the empty
string are falsy. -/
def truthy : Option String → Bool
  | none => false
  | some s => s != ""

/-- The operator `a || b` on string-or-null values with a string fallback. -/
def orElseStr (a : Option String) (b : String) : String :=
  match a with
  | some s => if s != "" then s else b
  | none => b

/-- The characters removed by `String.prototype.trim`: ECMAScript WhiteSpace and
LineTerminator code points. -/
def isJsWhiteSpace (c : Char) : Bool :=
  c.toNat ∈ [0x09, 0x0A, 0x0B, 0x0C, 0x0D, 0x20, 0xA0, 0x1680, 0x2028, 0x2029,
    0x202F, 0x205F, 0x3000, 0xFEFF] || (0x2000 ≤ c.toNat && c.toNat ≤ 0x200A)

/-- The method `String.prototype.trim`. -/
def jsTrim (s : String) : String :=
  ⟨((s.data.dropWhile isJsWhiteSpace).reverse.dropWhile isJsWhiteSpace).reverse⟩

/-- The method `Array.prototype.join` on strings. -/
def jsJoin (sep : String) : List String → String
  | [] => ""
  | [x] => x
  | x :: y :: rest => x ++ sep ++ jsJoin sep (y :: rest)

/-! ## Platform objects -/

/-- A channel as far as the code looks at it. -/
structure Channel where
  id : String
  textBased : Bool
  deriving DecidableEq, Repr

/-- The `user` of a guild member. -/
structure User where
  id : String
  tag : Option String
  username : String
  discriminator : Option String
  bot : Bool
  deriving DecidableEq, Repr

/-- A guild member: the profile data the code reads.  The role cache
`member.roles.cache` is mutable and lives in `World.roles`. -/
structure Member where
  user : User
  displayName : Option String
  nickname : Option String
  /-- The keys of `presence.clientStatus`; `none` when there is no presence or no
  client status. -/
  clientStatus : Option (List String)
  /-- The value of `joinedAt.getTime()`, `none` when `joinedAt` is null. -/
  joinedAt : Option Nat
  deriving DecidableEq, Repr

/-- The getter `member.id`. -/
def Member.id (m : Member) : String := m.user.id

/-- The record written to `config.json`. -/
structure Config where
  susRoleId : Option String
  verifyMessageId : Option String
  adminPromptMessageId : Option String
  /-- The value `none` stands for a null or missing `verificationMethods`. -/
  verificationMethods : Option (List String)
  autoscanEnabled : Bool
  processDelayMs : Nat
  dailyScanCron : String
  logChannelId : Option String
  periodicNotifyEnabled : Bool
  periodicNotifyCron : String
  periodicNotifyMaxPerRun : Int
  periodicNotifyPaceMs : Nat
  periodicMentionDeleteSeconds : Int
  deriving DecidableEq, Repr

/-- The `defaults` object of `loadConfig`, for given environment constants. -/
def Config.defaults (processDelayMs : Nat) (envLogChannelId : Option String) : Config where
  susRoleId := none
  verifyMessageId := none
  adminPromptMessageId := none
  verificationMethods := some ["button"]
  autoscanEnabled := false
  processDelayMs := processDelayMs
  dailyScanCron := "0 0 * * *"
  logChannelId := envLogChannelId
  periodicNotifyEnabled := true
  periodicNotifyCron := "0,30 * * * *"
  periodicNotifyMaxPerRun := 2000
  periodicNotifyPaceMs := 1200
  periodicMentionDeleteSeconds := 30

/-- An entry of `challengeStore`. -/
structure Challenge where
  type : String
  answer : String
  prompt : Option String
  expiresAt : Nat
  deriving DecidableEq, Repr

/-! ## Effects -/

/-- The calls that leave the process, as recorded in the trace. -/
inductive Event where
  /-- The call `member.roles.add(roleId, reason)`. -/
  | rolesAdd (memberId roleId reason : String)
  /-- The call `member.roles.remove(roleId, reason)`. -/
  | rolesRemove (memberId roleId reason : String)
  /-- The call `client.guilds.fetch(guildId)`. -/
  | guildsFetch (guildId : String)
  /-- The call `guild.members.fetch(userId)`. -/
  | membersFetch (userId : String)
  /-- The call `guild.channels.fetch(channelId)`. -/
  | channelsFetch (channelId : String)
  /-- The call `ch.send` with a text content. -/
  | send (channelId content : String)
  /-- The call `ch.send` with a file attachment. -/
  | sendFiles (channelId path : String)
  /-- The timer `setTimeout(() => sent.delete(), ms)` for a message sent before. -/
  | setTimeoutDelete (channelId content : String) (ms : Int)
  /-- The pause `await new Promise(r => setTimeout(r, ms))`. -/
  | sleep (ms : Nat)
  /-- The call `queue.add(task)`: the task is handed to the action queue. -/
  | queueAdd
  /-- The call `console.log("[LOG]", text)`. -/
  | consoleLog (text : String)
  /-- The call `console.warn(text)`. -/
  | consoleWarn (text : String)
  /-- The call `console.error(text, e)`. -/
  | consoleError (text : String)
  /-- The call `interaction.deferReply`. -/
  | deferReply
  /-- The call `safeInteractionReply(interaction, options)` with the content of the
  options and whether components are attached; it never throws. -/
  | safeInteractionReply (content : String) (components : Bool)
  /-- The call `guild.members.fetch({ withPresences: true })`. -/
  | membersFetchAll
  /-- The call `guild.roles.fetch(roleId)`. -/
  | rolesFetch (roleId : String)
  /-- The call `guild.roles.create` for a role of the given name. -/
  | rolesCreate (name : String)
  /-- The call `ch.permissionOverwrites.edit(role, perms)`: the value of
  `ViewChannel`, and whether `SendMessages: true` is part of `perms`. -/
  | permissionOverwritesEdit (channelId roleId : String) (viewChannel sendMessages : Bool)
  /-- The call `ch.messages.fetch({ limit: 100, before })`. -/
  | messagesFetch (channelId : String) (before : Option String)
  /-- The call `m.delete()` on a message. -/
  | messageDelete (messageId : String)
  /-- The call `fs.writeJson(CONFIG_PATH, c, { spaces: 2 })`; `none` stands for a
  null `c`. -/
  | writeJson (c : Option Config)
  /-- The call `ch.send` with a text content and rows of components. -/
  | sendComponents (channelId content : String)
  /-- The call `i.update` of a component interaction. -/
  | interactionUpdate (content : String)
  /-- The call `collector.stop(reason)`. -/
  | collectorStop (reason : String)
  /-- The call `message.reply(content)` on a chat message. -/
  | messageReply (content : String)
  deriving DecidableEq, Repr

/-- A role of the guild. -/
structure Role where
  id : String
  name : String
  deriving DecidableEq, Repr

/-- An entry of `guild.channels.cache`. -/
structure GuildChannel where
  id : String
  /-- Whether `ch.permissionOverwrites` is present. -/
  permissionOverwrites : Bool
  /-- The value of `ch.isTextBased && ch.isTextBased()`. -/
  textBased : Bool
  deriving DecidableEq, Repr

/-- A message of a channel: its id and the id of its author, if it has one. -/
structure Message where
  id : String
  authorId : Option String
  deriving DecidableEq, Repr

/-- The constants read from the process environment and the behaviour of the
platform. -/
structure Env where
  GUILD_ID : String
  VERIFY_CHANNEL_ID : String
  ENV_SUS_LOG_CHANNEL_ID : Option String
  /-- The rejection, if any, of the platform call that becomes entry number `n`
  of the trace. -/
  outcome : Nat → Event → Option JsError
  /-- The value a successful `channels.fetch` resolves to. -/
  channel : String → Option Channel
  /-- The id of the bot, `client.user.id`. -/
  CLIENT_USER_ID : String
  SUS_ROLE_NAME : String
  SUS_CHAT_CHANNEL_ID : String
  /-- The value of `new Date(s).getTime()`; `none` stands for `NaN`. -/
  dateValue : String → Option Int
  /-- The value a successful `guild.roles.fetch` resolves to. -/
  role : String → Option Role
  /-- The roles in `guild.roles.cache`. -/
  rolesCache : List Role
  /-- The id the platform gives to a role created by `guild.roles.create`. -/
  createdRoleId : String
  /-- The channels in `guild.channels.cache`. -/
  channelsCache : List GuildChannel
  /-- The page a successful `ch.messages.fetch({ limit: 100, before })` resolves
  to, newest first. -/
  messagesPage : Option String → List Message
  /-- The id the platform gives to the message sent by the call that becomes entry
  number `n` of the trace. -/
  sentId : Nat → String
  /-- The constant `ADMIN_ROLE_IDS`, taken to be an array of role ids. -/
  ADMIN_ROLE_IDS : List String
  PROCESS_DELAY_MS : Nat

/-- The mutable state of the process and of the platform. -/
structure World where
  config : Option Config
  SUS_ROLE_ID : Option String
  /-- The `Map` named `challengeStore`, in insertion order. -/
  challengeStore : List (String × Challenge)
  /-- The ids in `member.roles.cache`, by member id. -/
  roles : String → List String
  /-- The members `guild.members.fetch` can resolve. -/
  guildMembers : List Member
  trace : List Event

/-- A handler: it reads the environment, transforms the world, and either
returns a value or throws. -/
def Act (α : Type) : Type := Env → World → Except JsError α × World

namespace Act

/-- Return a value. -/
def ret {α : Type} (a : α) : Act α := fun _ w => (.ok a, w)

/-- Sequencing; a throw skips the continuation and keeps the world reached. -/
def andThen {α β : Type} (x : Act α) (f : α → Act β) : Act β := fun env w =>
  match x env w with
  | (.ok a, w1) => f a env w1
  | (.error e, w1) => (.error e, w1)

instance : Monad Act where
  pure := ret
  bind := andThen

/-- The statement `throw e`. -/
def throw {α : Type} (e : JsError) : Act α := fun _ w => (.error e, w)

/-- The statement `try { x } catch (e) { h e }`. -/
def tryCatch {α : Type} (x : Act α) (h : JsError → Act α) : Act α := fun env w =>
  match x env w with
  | (.ok a, w1) => (.ok a, w1)
  | (.error e, w1) => h e env w1

/-- The idiom `promise.catch(() => null)`. -/
def catchNull {α : Type} (x : Act α) : Act (Option α) := fun env w =>
  match x env w with
  | (.ok a, w1) => (.ok (some a), w1)
  | (.error _, w1) => (.ok none, w1)

/-- Read the world. -/
def world : Act World := fun _ w => (.ok w, w)

/-- Read the environment. -/
def env : Act Env := fun e w => (.ok e, w)

/-- Replace the world. -/
def update (f : World → World) : Act Unit := fun _ w => (.ok (), f w)

/-- Record a call that cannot reject. -/
def emit (e : Event) : Act Unit := fun _ w => (.ok (), { w with trace := w.trace ++ [e] })

/-- Record a platform call and reject when the platform says so. -/
def call (e : Event) : Act Unit := fun env w =>
  let w1 := { w with trace := w.trace ++ [e] }
  match env.outcome w.trace.length e with
  | none => (.ok (), w1)
  | some err => (.error err, w1)

end Act

/-! ## Helpers -/

/-- The value `Math.round(baseDelayMs * Math.pow(1.6, i))`, computed on exact
rationals: `baseDelayMs * 16 ^ i / 10 ^ i` rounded to the nearest integer, halves
up. -/
def retryDelay (baseDelayMs i : Nat) : Nat :=
  (2 * baseDelayMs * 16 ^ i + 10 ^ i) / (2 * 10 ^ i)

/-- The loop of `withRetries` from iteration `i` on, with `n` iterations left. -/
def withRetriesFrom {α : Type} (fn : Act α) (baseDelayMs : Nat) :
    Nat → Nat → JsError → Act α
  | 0, _, lastErr => Act.throw lastErr
  | n + 1, i, _ =>
      Act.tryCatch fn (fun err => do
        if !isTimeout err then Act.throw err else
        Act.emit (.consoleWarn ("Transient error (attempt " ++ toString (i + 1)
          ++ "). Retrying in " ++ toString (retryDelay baseDelayMs i) ++ "ms..."))
        Act.emit (.sleep (retryDelay baseDelayMs i))
        withRetriesFrom fn baseDelayMs n (i + 1) err)

/-- The function `withRetries(fn, attempts, baseDelayMs)`. -/
def withRetries {α : Type} (fn : Act α) (attempts : Nat) (baseDelayMs : Nat) : Act α :=
  withRetriesFrom fn baseDelayMs attempts 0 .falsy

/-- The function `getLogChannelId`. -/
def getLogChannelId (env : Env) (w : World) : Option String :=
  match w.config with
  | some c => if truthy c.logChannelId then c.logChannelId else env.ENV_SUS_LOG_CHANNEL_ID
  | none => env.ENV_SUS_LOG_CHANNEL_ID

/-- The function `getMemberPlatforms`. -/
def getMemberPlatforms (member : Member) : List String :=
  match member.clientStatus with
  | none => []
  | some keys => keys

/-- The function `formatUserBlock`. -/
def formatUserBlock (member : Member) (platforms : List String) : String :=
  let tag := orElseStr member.user.tag
    (member.user.username ++ "#" ++ orElseStr member.user.discriminator "0000")
  let display := orElseStr member.displayName (orElseStr member.nickname member.user.username)
  let pf := if platforms.length != 0 then jsJoin ", " platforms else "offline"
  jsJoin "\n" [
    "User: " ++ tag,
    "Server Nickname: " ++ display,
    "ID: " ++ member.id,
    "Mention: <@" ++ member.id ++ ">",
    "Platform(s): " ++ pf]

/-- The call `guild.channels.fetch(id)`. -/
def channelsFetch (id : String) : Act (Option Channel) := do
  Act.call (.channelsFetch id)
  let env ← Act.env
  pure (env.channel id)

/-- The call `ch.send` with a text content; it resolves to the message sent. -/
def channelSend (ch : Channel) (content : String) : Act Unit :=
  Act.call (.send ch.id content)

/-- The function `logToChannel(guild, text, options)`. -/
def logToChannel (text : String) (csvPath : Option String) : Act Unit := do
  let env ← Act.env
  let w ← Act.world
  let logChannelId := getLogChannelId env w
  match logChannelId with
  | none => Act.emit (.consoleLog text)
  | some id =>
    if !truthy logChannelId then Act.emit (.consoleLog text) else
    Act.tryCatch (do
      let ch ← withRetries (channelsFetch id) 3 1000
      match ch with
      | none => Act.emit (.consoleLog text)
      | some ch =>
        if !ch.textBased then Act.emit (.consoleLog text) else
        withRetries (channelSend ch text) 3 1000
        match csvPath with
        | none => pure ()
        | some p =>
          if !truthy csvPath then pure () else
          Act.tryCatch (withRetries (Act.call (.sendFiles ch.id p)) 3 1000) (fun _ => pure ()))
      (fun _ => Act.emit (.consoleError "logToChannel failed"))

/-- The text of the mention sent by `sendImmediateMention`. -/
def mentionText (userId : String) : String :=
  "<@" ++ userId ++ "> Please complete verification to regain access. Click **Verify** below."

/-- The function `sendImmediateMention(guild, userId)`. -/
def sendImmediateMention (userId : String) : Act Unit := do
  let env ← Act.env
  let w ← Act.world
  let ttl : Int :=
    match w.config with
    | some c => if c.periodicMentionDeleteSeconds != 0 then c.periodicMentionDeleteSeconds else 30
    | none => 30
  if ttl == 0 || ttl ≤ 0 then pure () else
  Act.tryCatch (do
    let ch ← withRetries (channelsFetch env.VERIFY_CHANNEL_ID) 3 1000
    match ch with
    | none => pure ()
    | some ch =>
      if !ch.textBased then pure () else
      let content := mentionText userId
      let sent ← Act.catchNull (withRetries (channelSend ch content) 3 1000)
      match sent with
      | none => pure ()
      | some _ => Act.emit (.setTimeoutDelete ch.id content (ttl * 1000)))
    (fun _ => Act.emit (.consoleError "sendImmediateMention error"))

/-- The call `queue.add(task)` on an idle queue: the task is recorded as queued
and run; what it throws rejects the promise the caller awaits. -/
def queueAdd {α : Type} (task : Act α) : Act α := do
  Act.emit .queueAdd
  task

/-- The call `member.roles.add(roleId, reason)`: a request to the platform.  The
cache `member.roles.cache` of the member at hand is left as it is. -/
def rolesAdd (member : Member) (roleId reason : String) : Act Unit :=
  Act.call (.rolesAdd member.id roleId reason)

/-- The call `member.roles.remove(roleId, reason)`: a request to the platform,
as `rolesAdd`. -/
def rolesRemove (member : Member) (roleId reason : String) : Act Unit :=
  Act.call (.rolesRemove member.id roleId reason)

/-- The task `addSusRoleToMember` hands to the queue. -/
def addSusTask (member : Member) (roleId reason : String) : Act Unit :=
  Act.tryCatch (do
    let _ ← Act.catchNull (withRetries (rolesAdd member roleId reason) 3 1000)
    logToChannel (formatUserBlock member (getMemberPlatforms member)) none
    sendImmediateMention member.id)
    (fun _ => Act.emit (.consoleError "addSusRoleToMember error"))

/-- The function `addSusRoleToMember(member, reason)`. -/
def addSusRoleToMember (member : Member) (reason : String) : Act Unit := do
  let w ← Act.world
  match w.SUS_ROLE_ID with
  | none => pure ()
  | some roleId =>
    if !truthy w.SUS_ROLE_ID then pure () else
    if (w.roles member.id).contains roleId then
      logToChannel (formatUserBlock member (getMemberPlatforms member)) none
    else
      queueAdd (addSusTask member roleId reason)

/-- The `user` argument `byUser` of `removeSusRoleFromMember`. -/
structure Actor where
  id : String
  tag : String
  deriving DecidableEq, Repr

/-- The task `removeSusRoleFromMember` hands to the queue. -/
def removeSusTask (member : Member) (roleId : String) (byUser : Option Actor)
    (reason : String) : Act Unit :=
  Act.tryCatch (do
    let _ ← Act.catchNull (withRetries (rolesRemove member roleId
      (reason ++ " by " ++ (match byUser with | some u => u.tag | none => "system"))) 3 1000)
    logToChannel ("âœ…\n" ++ formatUserBlock member (getMemberPlatforms member)
      ++ "\nAction: " ++ reason ++ " by "
      ++ (match byUser with | some u => "<@" ++ u.id ++ ">" | none => "system")) none)
    (fun _ => Act.emit (.consoleError "removeSusRoleFromMember error"))

/-- The function `removeSusRoleFromMember(member, byUser, reason)`. -/
def removeSusRoleFromMember (member : Member) (byUser : Option Actor)
    (reason : String) : Act Unit := do
  let w ← Act.world
  match w.SUS_ROLE_ID with
  | none => pure ()
  | some roleId =>
    if !truthy w.SUS_ROLE_ID then pure () else
    if !(w.roles member.id).contains roleId then pure () else
    queueAdd (removeSusTask member roleId byUser reason)

/-! ## Random draws -/

/-- A value of `Math.random()`: the double `mant / 2 ^ exp`. -/
structure Draw where
  mant : Nat
  exp : Nat
  deriving DecidableEq, Repr

/-- The doubles in the interval [0,1): a significand of at most 53 bits, an
exponent no finer than the smallest subnormal, and a value below one. -/
def Draw.inUnit (d : Draw) : Prop :=
  d.mant < 2 ^ 53 ∧ d.mant < 2 ^ d.exp ∧ d.exp ≤ 1074

instance (d : Draw) : Decidable d.inUnit := by
  unfold Draw.inUnit; exact inferInstance

/-- Rounding of a natural number to 53 significant bits, ties to even: the
rounding of IEEE 754 double arithmetic. -/
def roundSig53 (a : Nat) : Nat :=
  if a < 2 ^ 53 then a else
    let s := Nat.log2 a - 52
    let q := a / 2 ^ s
    let r := a % 2 ^ s
    if r < 2 ^ (s - 1) then q * 2 ^ s
    else if r = 2 ^ (s - 1) ∧ q % 2 = 0 then q * 2 ^ s
    else (q + 1) * 2 ^ s

/-- The value `Math.floor(d * n)` for a draw `d` and an array or string length
`n`: the exact product is `d.mant * n / 2 ^ d.exp`; its numerator is rounded to
53 significant bits, which is the rounding of the double product, and the
result is floored. -/
def floorMul (d : Draw) (n : Nat) : Nat :=
  roundSig53 (d.mant * n) / 2 ^ d.exp

/-- The test `d < 0.6`; the literal `0.6` is the double
`5404319552844595 / 2 ^ 53`. -/
def ltPoint6 (d : Draw) : Bool :=
  decide (d.mant * 2 ^ 53 < 5404319552844595 * 2 ^ d.exp)

/-! ## Challenge store -/

/-- The method `Map.prototype.get`. -/
def storeGet (s : List (String × Challenge)) (k : String) : Option Challenge :=
  (s.find? (fun e => e.1 == k)).map (fun e => e.2)

/-- The method `Map.prototype.set`: an existing key keeps its position. -/
def storeSet (s : List (String × Challenge)) (k : String) (v : Challenge) :
    List (String × Challenge) :=
  if s.any (fun e => e.1 == k) then s.map (fun e => if e.1 == k then (k, v) else e)
  else s ++ [(k, v)]

/-- The method `Map.prototype.delete`. -/
def storeDelete (s : List (String × Challenge)) (k : String) : List (String × Challenge) :=
  s.filter (fun e => e.1 != k)

/-! ## Interaction handlers -/

/-- The parts of an interaction the verify handlers read. -/
structure Interaction where
  guildId : String
  userId : String
  deriving DecidableEq, Repr

/-- The key of the challenge store for an interaction. -/
def challengeKey (interaction : Interaction) : String :=
  interaction.guildId ++ "-" ++ interaction.userId

/-- The call `safeInteractionReply(interaction, { content, ephemeral: true })`. -/
def reply (content : String) : Act Unit :=
  Act.emit (.safeInteractionReply content false)

/-- The call `guild.members.fetch(userId)`; an unknown member rejects. -/
def membersFetch (userId : String) : Act Member := do
  Act.call (.membersFetch userId)
  let w ← Act.world
  match w.guildMembers.find? (fun m => m.id == userId) with
  | some m => pure m
  | none => Act.throw (.object none none)

/-- The string `letters` of the word challenge. -/
def letters : String := "abcdefghijklmnopqrstuvwxyz"

/-- The expression `letters[i]` appended to a string: an index out of range
yields `undefined`, which `+=` appends as text. -/
def charAt (s : String) (i : Nat) : String :=
  match s.data.get? i with
  | some c => String.singleton c
  | none => "undefined"

/-- The loop `for (let i = 0; i < n; i++) w += letters[Math.floor(Math.random() *
letters.length)]`, the draws being `rand k`, `rand (k + 1)`, and so on. -/
def wordLoop (rand : Nat → Draw) (k : Nat) : Nat → String
  | 0 => ""
  | n + 1 => wordLoop rand k n ++ charAt letters (floorMul (rand (k + n)) letters.length)

/-- The word branch of the challenge generation; the draws start at `rand k`. -/
def wordChallenge (rand : Nat → Draw) (k : Nat) (now : Nat) : Challenge where
  type := "word"
  answer := wordLoop rand k 6
  prompt := none
  expiresAt := now + 5 * 60 * 1000

/-- The math branch of the challenge generation; the draws start at `rand k`. -/
def mathChallenge (rand : Nat → Draw) (k : Nat) (now : Nat) : Challenge :=
  let a := floorMul (rand k) 12 + 1
  let b := floorMul (rand (k + 1)) 12 + 1
  let op := if ltPoint6 (rand (k + 2)) then "+" else "*"
  let expr := toString a ++ " " ++ op ++ " " ++ toString b
  let ans := if op == "+" then a + b else a * b
  { type := "math", answer := toString ans, prompt := some expr,
    expiresAt := now + 5 * 60 * 1000 }

/-- The challenge built by the `verify_button` branch from the enabled challenge
methods: `rand 0` picks the method, the later draws build the challenge. -/
def makeChallenge (enabledChallenges : List String) (rand : Nat → Draw) (now : Nat) :
    Challenge :=
  let chosen := enabledChallenges.get? (floorMul (rand 0) enabledChallenges.length)
  if chosen == some "word" then wordChallenge rand 1 now else mathChallenge rand 1 now

/-- The text shown for a challenge. -/
def promptText (challenge : Challenge) : String :=
  if challenge.type == "word" then
    "ðŸ”’ **Private challenge** â€” Type this exact word (private): **" ++ challenge.answer
      ++ "**\n\nClick **Submit Answer** to open the secure answer dialog. Your answer will be private and visible only to you."
  else
    "ðŸ”’ **Private challenge** â€” Solve this math problem (private): **"
      ++ (match challenge.prompt with | some p => p | none => "undefined")
      ++ "**\n\nClick **Submit Answer** to open the secure answer dialog. Your answer will be private and visible only to you."

/-- The branch `interaction.customId === "verify_button"` of the
`interactionCreate` handler, with the top-level `catch` of the handler.  The
draws of `Math.random()` are `rand 0`, `rand 1`, ... and `now` is `Date.now()`. -/
def verify_button (interaction : Interaction) (rand : Nat → Draw) (now : Nat) : Act Unit :=
  Act.tryCatch (do
    Act.emit .deferReply
    let w ← Act.world
    match w.config with
    | none => Act.throw (.object none none)
    | some config =>
      let methods := match config.verificationMethods with
        | some ms => ms
        | none => ["button"]
      let hasChallenge := methods.contains "word" || methods.contains "math"
      if !hasChallenge && methods.length == 1 && methods.get? 0 == some "button" then
        let member ← Act.catchNull (membersFetch interaction.userId)
        match member with
        | none => reply "Could not fetch your member record."
        | some member =>
          let w ← Act.world
          match w.SUS_ROLE_ID with
          | none => reply "You are not marked for verification."
          | some roleId =>
            if !truthy w.SUS_ROLE_ID || !(w.roles member.id).contains roleId then
              reply "You are not marked for verification."
            else
              queueAdd (withRetries
                (rolesRemove member roleId "Verified via instant button") 3 1000)
              logToChannel ("âœ…\n" ++ formatUserBlock member (getMemberPlatforms member)
                ++ "\nAction: verified via button") none
              reply "You have been verified. âœ…"
      else
        let enabledChallenges := methods.filter (fun m => m == "word" || m == "math")
        if enabledChallenges.length == 0 then
          reply "No verification methods are enabled; contact an admin."
        else
          let challenge := makeChallenge enabledChallenges rand now
          Act.update (fun w => { w with
            challengeStore := storeSet w.challengeStore (challengeKey interaction) challenge })
          Act.emit (.safeInteractionReply (promptText challenge) true))
    (fun _ => do
      Act.emit (.consoleError "interactionCreate handler top-level error")
      reply "Temporary error occurred handling this interaction. Please try again.")

/-- The end of the `verify_modal` branch, once the answer has been accepted and
the member found marked: the queued removal, the audit record, the deletion of
the challenge and the reply. -/
def verify_modal_tail (interaction : Interaction) (member : Member) (roleId : String) :
    Act Unit := do
  queueAdd (withRetries (rolesRemove member roleId "Verified via challenge") 3 1000)
  logToChannel ("âœ…\n" ++ formatUserBlock member (getMemberPlatforms member)
    ++ "\nAction: verified via challenge") none
  Act.update (fun w => { w with
    challengeStore := storeDelete w.challengeStore (challengeKey interaction) })
  reply "âœ… Correct â€” you are verified and can now access the server."

/-- The branch `interaction.customId === "verify_modal"` of the
`interactionCreate` handler; `input` is the value of the text field
`verify_answer` and `now` is `Date.now()`. -/
def verify_modal (interaction : Interaction) (input : String) (now : Nat) : Act Unit :=
  Act.tryCatch (do
    let key := challengeKey interaction
    let w ← Act.world
    match storeGet w.challengeStore key with
    | none =>
      reply "No active challenge found or it expired. Click Verify again to start a new challenge."
    | some ch =>
      if now > ch.expiresAt then
        Act.update (fun w => { w with challengeStore := storeDelete w.challengeStore key })
        reply "Challenge expired. Click Verify again to start a new one."
      else
        let answer := jsTrim input
        if answer == ch.answer then
          let guild ← Act.catchNull (Act.call (.guildsFetch interaction.guildId))
          match guild with
          | none => reply "Guild not found."
          | some _ =>
            let member ← Act.catchNull (membersFetch interaction.userId)
            match member with
            | none => reply "Member not found in guild."
            | some member =>
              let w ← Act.world
              let notMarked : Act Unit := do
                Act.update (fun w => { w with challengeStore := storeDelete w.challengeStore key })
                reply "You are not currently marked Sus or are already verified."
              match w.SUS_ROLE_ID with
              | none => notMarked
              | some roleId =>
                if !truthy w.SUS_ROLE_ID || !(w.roles member.id).contains roleId then notMarked
                else
                  Act.emit .deferReply
                  verify_modal_tail interaction member roleId
        else
          reply "âŒ Incorrect answer. Click Verify again to try another challenge.")
    (fun _ => do
      Act.emit (.consoleError "verify_modal handling error")
      reply "An error occurred while processing your answer. Try again.")

/-! ## Reading the trace -/

/-- The test for a `member.roles.add` call. -/
def Event.isRolesAdd : Event → Bool
  | .rolesAdd _ _ _ => true
  | _ => false

/-- The test for a `member.roles.remove` call. -/
def Event.isRolesRemove : Event → Bool
  | .rolesRemove _ _ _ => true
  | _ => false

/-- The calls `logToChannel` and `sendImmediateMention` can make. -/
def Event.isNotice : Event → Bool
  | .channelsFetch _ => true
  | .send _ _ => true
  | .sendFiles _ _ => true
  | .setTimeoutDelete _ _ _ => true
  | .sleep _ => true
  | .consoleLog _ => true
  | .consoleWarn _ => true
  | .consoleError _ => true
  | _ => false

/-- The calls `withRetries` makes on its own account: the warning and the pause
before a retry. -/
def Event.isRetryNoise : Event → Bool
  | .sleep _ => true
  | .consoleWarn _ => true
  | _ => false

/-- The test for the delivery of an audit text: written to the console, or sent
to a channel. -/
def Event.isAudit (text : String) : Event → Bool
  | .consoleLog t => t == text
  | .send _ t => t == text
  | _ => false

/-- The value a handler has thrown, if it has thrown. -/
def thrown {α : Type} : Except JsError α → Option JsError
  | .error e => some e
  | .ok _ => none

/-- The calls added to the trace between the world `w` and a later world `w1`. -/
def newEvents (w w1 : World) : List Event := w1.trace.drop w.trace.length

/-- The world after one more call has been recorded. -/
def World.push (w : World) (e : Event) : World := { w with trace := w.trace ++ [e] }

/-- The calls of `logToChannel(guild, text)` when the platform accepts every
one of them. -/
def auditEvents (env : Env) (w : World) (text : String) : List Event :=
  match getLogChannelId env w with
  | none => [.consoleLog text]
  | some id =>
    if !truthy (some id) then [.consoleLog text] else
    match env.channel id with
    | none => [.channelsFetch id, .consoleLog text]
    | some ch =>
      if !ch.textBased then [.channelsFetch id, .consoleLog text]
      else [.channelsFetch id, .send ch.id text]

/-- A relation between the world before and the world after which every step of
a handler keeps. -/
structure Frame where
  rel : World → World → Prop
  refl : ∀ w, rel w w
  trans : ∀ {a b c}, rel a b → rel b c → rel a c

/-- Every run of the handler stays within the frame. -/
def Act.Keeps {α : Type} (F : Frame) (x : Act α) : Prop := ∀ env w, F.rel w (x env w).2

/-- The frame of handlers that only append calls satisfying `P` to the trace and
leave the process state alone; with `keep` the role caches are untouched too. -/
def ext (P : Event → Prop) (keep : Bool) : Frame where
  rel w w1 := (∃ evs, w1.trace = w.trace ++ evs ∧ ∀ e ∈ evs, P e) ∧ w1.config = w.config
    ∧ w1.SUS_ROLE_ID = w.SUS_ROLE_ID ∧ w1.challengeStore = w.challengeStore
    ∧ w1.guildMembers = w.guildMembers ∧ (keep = true → w1.roles = w.roles)
  refl w := ⟨⟨[], by simp⟩, rfl, rfl, rfl, rfl, fun _ => rfl⟩
  trans := by
    rintro a b c ⟨⟨e1, h1, p1⟩, c1, s1, t1, g1, r1⟩ ⟨⟨e2, h2, p2⟩, c2, s2, t2, g2, r2⟩
    refine ⟨⟨e1 ++ e2, by rw [h2, h1, List.append_assoc], ?_⟩, c2.trans c1, s2.trans s1,
      t2.trans t1, g2.trans g1, fun k => (r2 k).trans (r1 k)⟩
    intro e he
    rcases List.mem_append.1 he with h | h
    · exact p1 e h
    · exact p2 e h

/-! ## Sample data -/

/-- A platform that accepts every call and resolves every channel id to a text
channel. -/
def sampleEnv : Env where
  GUILD_ID := "g"
  VERIFY_CHANNEL_ID := "v"
  ENV_SUS_LOG_CHANNEL_ID := none
  outcome := fun _ _ => none
  channel := fun id => some { id := id, textBased := true }
  CLIENT_USER_ID := "bot"
  SUS_ROLE_NAME := "Sus"
  SUS_CHAT_CHANNEL_ID := "c"
  dateValue := fun s =>
    if s = "2025-11-01T00:00:00Z" then some 1761955200000
    else if s = "2025-11-03T00:00:00Z" then some 1762128000000 else none
  role := fun id => if id = "r" then some { id := "r", name := "Sus" } else none
  rolesCache := [{ id := "r", name := "Sus" }]
  createdRoleId := "r2"
  channelsCache := []
  messagesPage := fun _ => []
  sentId := fun n => "m" ++ toString n
  ADMIN_ROLE_IDS := ["admin"]
  PROCESS_DELAY_MS := 800

/-- The platform of `sampleEnv`, except that every `member.roles.add` is rejected
with a non-transient error (missing permissions). -/
def rejectingEnv : Env :=
  { sampleEnv with
    outcome := fun _ e => if e.isRolesAdd then some (.object (some "50013") none) else none }

/-- The platform of `sampleEnv`, except that every `member.roles.add` times out. -/
def timeoutEnv : Env :=
  { sampleEnv with
    outcome := fun _ e => if e.isRolesAdd then some (.object (some "ETIMEDOUT") none) else none }

/-- The platform of `sampleEnv`, except that the call recorded at position 1 of
the trace times out. -/
def flakyEnv : Env :=
  { sampleEnv with
    outcome := fun n _ => if n = 1 then some (.object (some "ETIMEDOUT") none) else none }

/-- A member with id `u`, connected through the web client only. -/
def alice : Member where
  user := { id := "u", tag := some "alice#0001", username := "alice", discriminator := none,
            bot := false }
  displayName := some "Alice"
  nickname := none
  clientStatus := some ["web"]
  joinedAt := some 5

/-- A world with the marker role `r`, the given verification methods, the given
roles held by `alice`, the given challenge store and the given
`periodicMentionDeleteSeconds`. -/
def sampleWorld (methods held : List String) (store : List (String × Challenge))
    (ttl : Int) : World where
  config := some { Config.defaults 800 none with
    verificationMethods := some methods, periodicMentionDeleteSeconds := ttl }
  SUS_ROLE_ID := some "r"
  challengeStore := store
  roles := fun id => if id = "u" then held else []
  guildMembers := [alice]
  trace := []

/-- The draws of a `Math.random()` that always returns zero. -/
def zeroDraws : Nat → Draw := fun _ => { mant := 0, exp := 1 }

/-- The draws of a `Math.random()` that always returns one half. -/
def halfDraws : Nat → Draw := fun _ => { mant := 1, exp := 1 }

/-- A stored word challenge expecting `abcdef`, expiring at time 5000. -/
def sampleChallenge : Challenge :=
  { type := "word", answer := "abcdef", prompt := none, expiresAt := 5000 }

/-! ## Counting invocations -/

/-- The world after the warning and the pause that `withRetries` makes after
iteration `i` has failed with a transient error. -/
def backoff (w : World) (baseDelayMs i : Nat) : World :=
  { w with trace := w.trace ++
      [.consoleWarn ("Transient error (attempt " ++ toString (i + 1)
          ++ "). Retrying in " ++ toString (retryDelay baseDelayMs i) ++ "ms..."),
       .sleep (retryDelay baseDelayMs i)] }

/-- Every invocation of the task records exactly one call recognised by `P`, so
that the calls recognised by `P` count the invocations. -/
def Act.Ticks {α : Type} (P : Event → Bool) (fn : Act α) : Prop :=
  ∀ env w, ∃ evs, (fn env w).2.trace = w.trace ++ evs ∧ evs.countP P = 1


/-! ## Platform lists and the web-only rule -/

/-- The value of `r.platforms` as the suspects filter looks at it: missing, a
string, or an array. -/
inductive PlatformsValue where
  | missing
  | text (s : String)
  | array (l : List String)
  deriving DecidableEq, Repr

/-- The callback of `rows.filter` that selects the matched suspects after a bulk
scan. -/
def suspectsFilter : PlatformsValue → Bool
  | .missing => false
  | .text s => if s.length == 0 then false else s == "web"
  | .array l => if l.length == 0 then false else l.length == 1 && l.get? 0 == some "web"

/-- The test `webOnly` of the `guildMemberAdd` handler, on the result of
`getMemberPlatforms`. -/
def webOnly (platforms : List String) : Bool :=
  platforms.length == 1 && platforms.get? 0 == some "web"

/-! ## The background sweep -/

/-- The loop of the sweep over the entries of `challengeStore`, in iteration
order. -/
def sweepLoop (now : Nat) : List (String × Challenge) → List (String × Challenge) →
    List (String × Challenge)
  | [], store => store
  | (k, v) :: rest, store =>
    if v.expiresAt != 0 && now > v.expiresAt then sweepLoop now rest (storeDelete store k)
    else sweepLoop now rest store

/-- The callback of the `setInterval` that cleans `challengeStore`; `now` is
`Date.now()`. -/
def sweep (now : Nat) : Act Unit :=
  Act.update (fun w => { w with challengeStore := sweepLoop now w.challengeStore w.challengeStore })


/-! ## The scan helper -/

/-- The argument `options` of `performScan`. -/
structure ScanOptions where
  member : Option Member
  duration : Option String
  startIso : Option String
  endIso : Option String
  deriving DecidableEq, Repr

/-- The options of a bulk scan: no member, and the three filters. -/
def ScanOptions.bulk (duration startIso endIso : Option String) : ScanOptions where
  member := none
  duration := duration
  startIso := startIso
  endIso := endIso

/-- A row of a scan.  The field `joinedAt` holds the instant that
`toISOString` renders; `none` stands for the `null` of the single-member mode
and for the empty string of the bulk mode. -/
structure BulkScanRow where
  userId : String
  tag : Option String
  displayName : Option String
  platforms : List String
  joinedAt : Option Nat
  deriving DecidableEq, Repr

/-- The row pushed for a member. -/
def rowOf (m : Member) : BulkScanRow where
  userId := m.id
  tag := m.user.tag
  displayName := m.displayName
  platforms := getMemberPlatforms m
  joinedAt := m.joinedAt

/-- The `switch (duration)` of `performScan`. -/
def msBackOf (duration : String) : Nat :=
  if duration == "last_hour" then 1000 * 60 * 60
  else if duration == "last_day" then 1000 * 60 * 60 * 24
  else if duration == "last_week" then 1000 * 60 * 60 * 24 * 7
  else if duration == "last_month" then 1000 * 60 * 60 * 24 * 30
  else 0

/-- The value of `include` after the three filters of `performScan`, for a member
who joined at `joined`, `now` being `Date.now()`. -/
def scanInclude (env : Env) (options : ScanOptions) (now : Nat) (joined : Nat) : Bool :=
  let incl := true
  let incl :=
    match options.duration with
    | none => incl
    | some duration =>
      if !truthy options.duration then incl else
      let msBack := msBackOf duration
      if msBack != 0 && decide ((joined : Int) < (now : Int) - (msBack : Int)) then false
      else incl
  let incl :=
    match options.startIso with
    | none => incl
    | some startIso =>
      if !truthy options.startIso then incl else
      match env.dateValue startIso with
      | none => incl
      | some t => if (joined : Int) < t then false else incl
  let incl :=
    match options.endIso with
    | none => incl
    | some endIso =>
      if !truthy options.endIso then incl else
      match env.dateValue endIso with
      | none => incl
      | some t => if (joined : Int) > t then false else incl
  incl

/-- The test of one member in the loop of `performScan`: whether a row is pushed.
The time `now` is the value `Date.now()` has while this member is examined. -/
def scanKeeps (env : Env) (options : ScanOptions) (now : Nat) (m : Member) : Bool :=
  if m.user.bot then false
  else if truthy options.duration || truthy options.startIso || truthy options.endIso then
    match m.joinedAt with
    | none => false
    | some joined => scanInclude env options now joined
  else true

/-- The loop `for (const m of fetched.values())` of `performScan` from the member
at position `i` on; `now i` is the value of `Date.now()` while the member at
position `i` is examined. -/
def scanLoop (env : Env) (options : ScanOptions) (now : Nat → Nat) :
    Nat → List Member → List BulkScanRow
  | _, [] => []
  | i, m :: rest =>
    if scanKeeps env options (now i) m then rowOf m :: scanLoop env options now (i + 1) rest
    else scanLoop env options now (i + 1) rest

/-- The function `performScan(guild, options)`. -/
def performScan (options : ScanOptions) (now : Nat → Nat) : Act (List BulkScanRow) := do
  match options.member with
  | some member =>
    Act.tryCatch (Act.call (.membersFetch member.id)) (fun _ => pure ())
    pure [rowOf member]
  | none =>
    let fetched ← Act.tryCatch (do
        Act.call .membersFetchAll
        let w ← Act.world
        pure (some w.guildMembers))
      (fun _ => do
        Act.emit (.consoleError "performScan fetch error")
        pure none)
    match fetched with
    | none => pure []
    | some members =>
      let env ← Act.env
      pure (scanLoop env options now 0 members)

/-- A member with id `x` who joined at the given instant. -/
def memberJoined (id : String) (bot : Bool) (joinedAt : Option Nat) : Member where
  user := { id := id, tag := some (id ++ "#0001"), username := id, discriminator := none,
            bot := bot }
  displayName := none
  nickname := none
  clientStatus := none
  joinedAt := joinedAt


/-! ## The periodic notifier -/

/-- The method `Array.prototype.slice(0, end)` for an integer `end`: a negative
`end` counts from the end of the array. -/
def jsSliceFromZero {α : Type} (xs : List α) (e : Int) : List α :=
  if e < 0 then xs.take (max ((xs.length : Int) + e) 0).toNat
  else xs.take (min e (xs.length : Int)).toNat

/-- The value `Math.min(total, config.periodicNotifyMaxPerRun || 2000)`. -/
def notifierLimit (total : Nat) (periodicNotifyMaxPerRun : Int) : Int :=
  min (total : Int) (if periodicNotifyMaxPerRun ≠ 0 then periodicNotifyMaxPerRun else 2000)

/-- The members mentioned in one run of `runPeriodicNotifier`:
`suspects.slice(0, limit)`. -/
def notifierTargets (suspects : List Member) (periodicNotifyMaxPerRun : Int) : List Member :=
  jsSliceFromZero suspects (notifierLimit suspects.length periodicNotifyMaxPerRun)

/-- The array `mentions` of `runPeriodicNotifier`. -/
def notifierMentions (suspects : List Member) (periodicNotifyMaxPerRun : Int) : List String :=
  (notifierTargets suspects periodicNotifyMaxPerRun).map (fun m => "<@" ++ m.id ++ ">")

/-- The property `length` of a string: the number of UTF-16 code units. -/
def jsLength (s : String) : Nat :=
  (s.data.map (fun c => if c.toNat < 0x10000 then 1 else 2)).sum

/-- The constant `safeLimit` of `runPeriodicNotifier`. -/
def safeLimit : Nat := 1900

/-- One turn of the packing loop of `runPeriodicNotifier` on the pair
`(current, messages)`. -/
def packStep (st : String × List String) (mention : String) : String × List String :=
  if jsLength (jsTrim (st.1 ++ " " ++ mention)) > safeLimit then
    (mention, if jsLength (jsTrim st.1) > 0 then st.2 ++ [jsTrim st.1] else st.2)
  else
    (jsTrim (st.1 ++ " " ++ mention), st.2)

/-- The statement after the packing loop: the last buffer is pushed when it is
not blank. -/
def packFlush (st : String × List String) : List String :=
  if jsLength (jsTrim st.1) > 0 then st.2 ++ [jsTrim st.1] else st.2

/-- The array `messages` of `runPeriodicNotifier` for given `mentions`. -/
def packMentions (mentions : List String) : List String :=
  packFlush (mentions.foldl packStep ("", []))

/-- A mention as the claims take it: not empty and without whitespace. -/
def Clean (m : String) : Prop :=
  m.data ≠ [] ∧ ∀ c ∈ m.data, isJsWhiteSpace c = false

instance (m : String) : Decidable (Clean m) := by
  unfold Clean
  infer_instance

/-- The grouping behind the packing loop: the groups of mentions the loop still
produces from the group `cur` in the buffer and the mentions `ms` to come. -/
def packFrom (cur : List String) : List String → List (List String)
  | [] => if cur = [] then [] else [cur]
  | m :: ms =>
    if jsLength (jsJoin " " (cur ++ [m])) > safeLimit then
      (if cur = [] then [] else [cur]) ++ packFrom [m] ms
    else packFrom (cur ++ [m]) ms

/-- A string that `trim` leaves as it is: not empty, and with no whitespace at
either end. -/
def Edged (s : String) : Prop :=
  s.data ≠ [] ∧ (∀ c, s.data.head? = some c → isJsWhiteSpace c = false) ∧
    (∀ c, s.data.getLast? = some c → isJsWhiteSpace c = false)


/-! ## The interactive setup -/

/-- The call `guild.roles.fetch(id)`. -/
def rolesFetch (id : String) : Act (Option Role) := do
  Act.call (.rolesFetch id)
  let env ← Act.env
  pure (env.role id)

/-- The call `guild.roles.create` for the role named `SUS_ROLE_NAME`. -/
def rolesCreate : Act Role := do
  let env ← Act.env
  Act.call (.rolesCreate env.SUS_ROLE_NAME)
  pure { id := env.createdRoleId, name := env.SUS_ROLE_NAME }

/-- An assignment to a property of `config`; it throws a `TypeError` when
`config` is null. -/
def setConfig (f : Config → Config) : Act Unit := do
  let w ← Act.world
  match w.config with
  | none => Act.throw (.object none none)
  | some c => Act.update (fun w => { w with config := some (f c) })

/-- The function `saveConfig(c)`. -/
def saveConfig (c : Option Config) : Act Unit :=
  Act.tryCatch (Act.call (.writeJson c))
    (fun _ => Act.emit (.consoleError "Failed to save config.json"))

/-- The loop of `ensureSusRoleAndOverwrites` over `guild.channels.cache`. -/
def overwritesLoop (role : Role) : List GuildChannel → Act Unit
  | [] => pure ()
  | ch :: rest => do
    let env ← Act.env
    Act.tryCatch (do
      if !ch.permissionOverwrites then pure () else
      if !(ch.id == env.VERIFY_CHANNEL_ID || ch.id == env.SUS_CHAT_CHANNEL_ID) then do
        let _ ← Act.catchNull (Act.call (.permissionOverwritesEdit ch.id role.id false false))
        pure ()
      else do
        let _ ← Act.catchNull
          (Act.call (.permissionOverwritesEdit ch.id role.id true ch.textBased))
        pure ())
      (fun _ => pure ())
    overwritesLoop role rest

/-- The function `ensureSusRoleAndOverwrites(guild)`. -/
def ensureSusRoleAndOverwrites : Act Unit :=
  Act.tryCatch (do
    let env ← Act.env
    let w ← Act.world
    let susRoleId ← (match w.config with
      | none => Act.throw (.object none none)
      | some c => pure c.susRoleId)
    let fetched ← (match susRoleId with
      | none => pure none
      | some id =>
        if !truthy (some id) then pure none else do
          let r ← Act.catchNull (rolesFetch id)
          pure r.join)
    let cached : Option Role :=
      match fetched with
      | some r => some r
      | none => env.rolesCache.find? (fun r => r.name == env.SUS_ROLE_NAME)
    let role ← (match cached with
      | some r => pure (some r)
      | none => Act.catchNull rolesCreate)
    match role with
    | none => pure ()
    | some role =>
      Act.update (fun w => { w with SUS_ROLE_ID := some role.id })
      let w1 ← Act.world
      match w1.config with
      | none => Act.throw (.object none none)
      | some c =>
        if c.susRoleId != some role.id then do
          setConfig (fun c => { c with susRoleId := some role.id })
          let w2 ← Act.world
          saveConfig w2.config
          overwritesLoop role env.channelsCache
        else
          overwritesLoop role env.channelsCache)
    (fun _ => Act.emit (.consoleError "ensureSusRoleAndOverwrites error"))

/-- The call `ch.messages.fetch(opts)`. -/
def messagesFetch (ch : Channel) (before : Option String) : Act (List Message) := do
  Act.call (.messagesFetch ch.id before)
  let env ← Act.env
  pure (env.messagesPage before)

/-- The loop of `deleteAllBotMessagesInVerifyChannel` over one page of
messages. -/
def deleteLoop : List Message → Act Unit
  | [] => pure ()
  | m :: rest => do
    let env ← Act.env
    if m.authorId == some env.CLIENT_USER_ID then do
      Act.tryCatch (withRetries (Act.call (.messageDelete m.id)) 3 1000) (fun _ => pure ())
      Act.emit (.sleep 120)
      deleteLoop rest
    else
      deleteLoop rest

/-- The loop of `deleteAllBotMessagesInVerifyChannel` over the passes, with
`n` passes left. -/
def deletePasses (ch : Channel) : Nat → Option String → Act Unit
  | 0, _ => pure ()
  | n + 1, lastId => do
    let before := if truthy lastId then lastId else none
    let messages ← Act.catchNull (withRetries (messagesFetch ch before) 3 1000)
    match messages with
    | none => pure ()
    | some messages =>
      if messages.length == 0 then pure () else do
        deleteLoop messages
        if messages.length < 100 then pure ()
        else deletePasses ch n (messages.getLast?.map (fun m => m.id))

/-- The function `deleteAllBotMessagesInVerifyChannel(guild)`. -/
def deleteAllBotMessagesInVerifyChannel : Act Unit :=
  Act.tryCatch (do
    let env ← Act.env
    let ch ← withRetries (channelsFetch env.VERIFY_CHANNEL_ID) 3 1000
    match ch with
    | none => pure ()
    | some ch =>
      if !ch.textBased then pure () else
      deletePasses ch 5 none)
    (fun _ => Act.emit (.consoleError "deleteAllBotMessagesInVerifyChannel failed"))

/-- The text of `buildPersistentVerifyText` for given `config.verificationMethods`. -/
def persistentVerifyText (verificationMethods : List String) : String :=
  jsJoin "\n" [
    "**Server Verification â€” click Verify below to begin**",
    "",
    "You were placed into verification. Donâ€™t worry â€” verifying will restore access if this was a mistake.",
    "",
    "Please click **Verify** in this channel and follow the private instructions to regain access.",
    "",
    "Methods enabled: " ++ jsJoin ", " verificationMethods]

/-- The function `buildPersistentVerifyText()`; it throws a `TypeError` when
`config` or `config.verificationMethods` is null. -/
def buildPersistentVerifyText : Act String := do
  let w ← Act.world
  match w.config with
  | none => Act.throw (.object none none)
  | some c =>
    match c.verificationMethods with
    | none => Act.throw (.object none none)
    | some methods => pure (persistentVerifyText methods)

/-- The call `ch.send` with a content and components; it resolves to the
message sent, of which the id is kept. -/
def channelSendComponents (ch : Channel) (content : String) : Act String := do
  let w ← Act.world
  let env ← Act.env
  Act.call (.sendComponents ch.id content)
  pure (env.sentId w.trace.length)

/-- The closure `() => verifyChannel.send({ content: buildPersistentVerifyText(),
components: [...] })` of the `setup_confirm` branch. -/
def sendVerifyPrompt (verifyChannel : Channel) : Act String := do
  let content ← buildPersistentVerifyText
  channelSendComponents verifyChannel content

/-- The state of one setup session: the variable `selected`, the id of the
message `sent`, and whether `collector.stop` has been called. -/
structure SetupSession where
  selected : Option (List String)
  sentId : String
  ended : Bool
  deriving DecidableEq, Repr

/-- A component interaction as the collector reads it. -/
inductive Component where
  /-- A string select menu with its `customId` and `values`. -/
  | selectMenu (customId : String) (values : List String)
  /-- A button with its `customId`. -/
  | button (customId : String)
  /-- Any other component. -/
  | other
  deriving DecidableEq, Repr

/-- The statements of the `setup_confirm` branch that post the persistent verify
message and record its id in `config.verifyMessageId`. -/
def postVerifyPrompt : Act Unit := do
  let env ← Act.env
  let verifyChannel ← Act.catchNull (withRetries (channelsFetch env.VERIFY_CHANNEL_ID) 3 1000)
  match verifyChannel.join with
  | none => pure ()
  | some verifyChannel =>
    if !verifyChannel.textBased then pure () else do
      let msg ← Act.catchNull (withRetries (sendVerifyPrompt verifyChannel) 3 1000)
      match msg with
      | none => pure ()
      | some id => setConfig (fun c => { c with verifyMessageId := some id })

/-- The `setup_confirm` branch of the collector of `startInteractiveSetup` once
a selection is there. -/
def applySetup (s : SetupSession) (selected : List String) : Act SetupSession := do
  setConfig (fun c => { c with verificationMethods := some selected })
  deleteAllBotMessagesInVerifyChannel
  setConfig (fun c => { c with verifyMessageId := none })
  setConfig (fun c => { c with adminPromptMessageId := none })
  ensureSusRoleAndOverwrites
  postVerifyPrompt
  let w ← Act.world
  saveConfig w.config
  Act.tryCatch (do
    let _ ← Act.catchNull (Act.call (.messageDelete s.sentId))
    pure ()) (fun _ => pure ())
  reply "Verification configured and previous bot messages removed. New persistent verify message created."
  Act.emit (.collectorStop "done")
  pure { s with ended := true }

/-- The `setup_confirm` branch of the collector of `startInteractiveSetup`. -/
def setupConfirm (s : SetupSession) : Act SetupSession := do
  reply "Applying settings..."
  match s.selected with
  | none =>
    reply "Please choose at least one method before confirming."
    pure s
  | some selected =>
    if selected.length == 0 then do
      reply "Please choose at least one method before confirming."
      pure s
    else applySetup s selected

/-- The `setup_cancel` branch of the collector of `startInteractiveSetup`. -/
def setupCancel (s : SetupSession) : Act SetupSession := do
  reply "Setup cancelled."
  Act.tryCatch (do
    let _ ← Act.catchNull (Act.call (.messageDelete s.sentId))
    pure ()) (fun _ => pure ())
  Act.emit (.collectorStop "cancelled")
  pure { s with ended := true }

/-- The `collect` handler of the collector of `startInteractiveSetup`: it
returns the state of the session after the interaction `i`.  The assignment
`selected = i.values` precedes the awaited `i.update`, so it stays when the
update rejects. -/
def setupCollect (s : SetupSession) (i : Component) : Act SetupSession :=
  match i with
  | .selectMenu customId values =>
    if customId == "setup_select_methods" then
      Act.tryCatch (do
        Act.call (.interactionUpdate
          ("Selected: " ++ jsJoin ", " values ++ ". Click Confirm to apply."))
        pure { s with selected := some values })
        (fun _ => do
          Act.emit (.consoleError "setup collector error")
          pure { s with selected := some values })
    else pure s
  | .button customId =>
    Act.tryCatch (
      if customId == "setup_confirm" then setupConfirm s
      else if customId == "setup_cancel" then setupCancel s
      else pure s)
      (fun _ => do
        Act.emit (.consoleError "setup collector error")
        pure s)
  | .other => pure s

/-- A handler that never throws. -/
def Act.Total {α : Type} (x : Act α) : Prop := ∀ env w, ∃ a, (x env w).1 = .ok a

/-- The test for a `ch.send` call with components. -/
def Event.isSendComponents : Event → Bool
  | .sendComponents _ _ => true
  | _ => false

/-- The frame of the steps of a confirmed setup other than its own assignments
and the posting of the prompt: the trace is extended by calls other than a
`ch.send` with components, and a loaded `config` stays loaded with the same
`verificationMethods`, `verifyMessageId` and `adminPromptMessageId`. -/
def cfgFrame : Frame where
  rel w w1 := (∃ evs, w1.trace = w.trace ++ evs ∧ ∀ e ∈ evs, e.isSendComponents = false) ∧
    ∀ c, w.config = some c → ∃ c1, w1.config = some c1 ∧
      c1.verificationMethods = c.verificationMethods ∧
      c1.verifyMessageId = c.verifyMessageId ∧
      c1.adminPromptMessageId = c.adminPromptMessageId
  refl w := ⟨⟨[], by simp⟩, fun c h => ⟨c, h, rfl, rfl, rfl⟩⟩
  trans := by
    rintro a b c ⟨⟨e1, h1, p1⟩, k1⟩ ⟨⟨e2, h2, p2⟩, k2⟩
    refine ⟨⟨e1 ++ e2, by rw [h2, h1, List.append_assoc], ?_⟩, ?_⟩
    · intro e he
      rcases List.mem_append.1 he with h | h
      · exact p1 e h
      · exact p2 e h
    · intro ca hca
      obtain ⟨cb, hcb, x1, x2, x3⟩ := k1 ca hca
      obtain ⟨cc, hcc, y1, y2, y3⟩ := k2 cb hcb
      exact ⟨cc, hcc, y1.trans x1, y2.trans x2, y3.trans x3⟩

/-- No `ch.send` with components recorded in the trace `tr` at an index from `l`
on has been accepted by the platform. -/
def NoPromptPosted (env : Env) (l : Nat) (tr : List Event) : Prop :=
  ∀ k e, l ≤ k → tr[k]? = some e → e.isSendComponents = true → env.outcome k e ≠ none

/-! ## The admin check -/

/-- The value `isAdmin` of the handlers: `ADMIN_ROLE_IDS.length === 0 ? false :
invoker.roles.cache.some(r => ADMIN_ROLE_IDS.includes(r.id))`, for the ids of
the roles the invoker holds. -/
def isAdmin (ADMIN_ROLE_IDS : List String) (invokerRoles : List String) : Bool :=
  if ADMIN_ROLE_IDS.length == 0 then false
  else invokerRoles.any (fun r => ADMIN_ROLE_IDS.contains r)

/-- The admin check of the branch `interaction.customId === "init_setup"`; the
statements that follow the check are `body`. -/
def init_setup (invokerId : String) (body : Act Unit) : Act Unit := do
  let env ← Act.env
  let w ← Act.world
  let isAdmin := isAdmin env.ADMIN_ROLE_IDS (w.roles invokerId)
  if !isAdmin then reply "You are not allowed to configure verification." else body

/-- The admin checks of the chat input commands of the `interactionCreate`
handler; the statements that follow the check of the command are `body`. -/
def chatInputCommand (commandName : String) (invokerId : String) (body : Act Unit) :
    Act Unit := do
  let env ← Act.env
  let w ← Act.world
  let isAdmin := isAdmin env.ADMIN_ROLE_IDS (w.roles invokerId)
  if commandName == "setlog" then
    if !isAdmin then reply "Only configured admins can run this command." else body
  else if commandName == "scan" then
    if !isAdmin then reply "Only configured admins can run this." else body
  else if commandName == "autoscan" then
    if !isAdmin then reply "Only configured admins can run this command." else body
  else if commandName == "verifyuser" then
    if !isAdmin then reply "Only configured admins can run this command." else body
  else if commandName == "setupverify" then
    if !isAdmin then reply "Only configured admins can run setup." else body
  else pure ()

/-- The admin checks of the prefix commands of the `messageCreate` handler, for
the command word `cmd`; the statements that follow the check of the command are
`body`. -/
def prefixCommand (cmd : String) (invokerId : String) (body : Act Unit) : Act Unit := do
  let env ← Act.env
  let w ← Act.world
  let isAdmin := isAdmin env.ADMIN_ROLE_IDS (w.roles invokerId)
  if cmd == "setlog" then
    if !isAdmin then Act.call (.messageReply "Only configured admin roles may run this command.")
    else body
  else if cmd == "unsus" || cmd == "verifyuser" then
    if !isAdmin then Act.call (.messageReply "Only configured admin roles may run this command.")
    else body
  else if cmd == "scan" then
    if !isAdmin then Act.call (.messageReply "Only configured admin roles may run this command.")
    else body
  else if cmd == "setupverify" then
    if !isAdmin then Act.call (.messageReply "Only configured admin roles may run this command.")
    else body
  else if cmd == "autoscan" then
    if !isAdmin then Act.call (.messageReply "Only configured admin roles may run this command.")
    else body
  else pure ()

/-- The loop behind `splitOnSpaces`: the characters still to read and, in
reverse, the piece read so far. -/
def splitLoop : List Char → List Char → List String
  | [], acc => [⟨acc.reverse⟩]
  | c :: cs, acc => if c = ' ' then ⟨acc.reverse⟩ :: splitLoop cs [] else splitLoop cs (c :: acc)

/-- The pieces of a text between its spaces, as `text.split(" ")` gives them. -/
def splitOnSpaces (s : String) : List String := splitLoop s.data []

/-- The platform of `sampleEnv`, except that every `member.roles.remove` is
rejected with a non-transient error (missing permissions). -/
def removeRejectingEnv : Env :=
  { sampleEnv with
    outcome := fun _ e =>
      if e.isRolesRemove then some (.object (some "50013") none) else none }


/-! ## Overlapping submissions -/

/-- Where a `verify_modal` handler stands between two of its runs: not yet
invoked; suspended at `await interaction.deferReply(...)` with the member it has
fetched and the marker role it has found on the member; or returned. -/
inductive ModalStage where
  | start
  | deferred (member : Member) (roleId : String)
  | returned
  deriving DecidableEq, Repr

/-- The `verify_modal` branch from its invocation to its
`await interaction.deferReply(...)`: the statements of `verify_modal` before
`verify_modal_tail`, with the stage at which the handler stops. -/
def verify_modal_head (interaction : Interaction) (input : String) (now : Nat) :
    Act ModalStage :=
  Act.tryCatch (do
    let key := challengeKey interaction
    let w ← Act.world
    match storeGet w.challengeStore key with
    | none =>
      reply "No active challenge found or it expired. Click Verify again to start a new challenge."
      pure .returned
    | some ch =>
      if now > ch.expiresAt then
        Act.update (fun w => { w with challengeStore := storeDelete w.challengeStore key })
        reply "Challenge expired. Click Verify again to start a new one."
        pure .returned
      else
        let answer := jsTrim input
        if answer == ch.answer then
          let guild ← Act.catchNull (Act.call (.guildsFetch interaction.guildId))
          match guild with
          | none =>
            reply "Guild not found."
            pure .returned
          | some _ =>
            let member ← Act.catchNull (membersFetch interaction.userId)
            match member with
            | none =>
              reply "Member not found in guild."
              pure .returned
            | some member =>
              let w ← Act.world
              let notMarked : Act ModalStage := do
                Act.update (fun w => { w with challengeStore := storeDelete w.challengeStore key })
                reply "You are not currently marked Sus or are already verified."
                pure .returned
              match w.SUS_ROLE_ID with
              | none => notMarked
              | some roleId =>
                if !truthy w.SUS_ROLE_ID || !(w.roles member.id).contains roleId then notMarked
                else
                  Act.emit .deferReply
                  pure (.deferred member roleId)
        else
          reply "âŒ Incorrect answer. Click Verify again to try another challenge."
          pure .returned)
    (fun _ => do
      Act.emit (.consoleError "verify_modal handling error")
      reply "An error occurred while processing your answer. Try again."
      pure .returned)

/-- One run of a `verify_modal` handler, from the stage it stands at to its
next suspension or its return. -/
def verify_modal_run (interaction : Interaction) (input : String) (now : Nat) :
    ModalStage → Act ModalStage
  | .start => verify_modal_head interaction input now
  | .deferred member roleId =>
    Act.tryCatch (do
      verify_modal_tail interaction member roleId
      pure .returned)
      (fun _ => do
        Act.emit (.consoleError "verify_modal handling error")
        reply "An error occurred while processing your answer. Try again."
        pure .returned)
  | .returned => pure .returned

/-- Two `verify_modal` handlers invoked for the same submission: the schedule
says which of the two runs next (`false` the first, `true` the second), each from
where it stands to its next suspension; `now1` and `now2` are the values of
`Date.now()` the handlers read. -/
def overlap (interaction : Interaction) (input : String) (now1 now2 : Nat) :
    List Bool → ModalStage × ModalStage → Act (ModalStage × ModalStage)
  | [], st => pure st
  | false :: rest, (s1, s2) => do
    let s ← verify_modal_run interaction input now1 s1
    overlap interaction input now1 now2 rest (s, s2)
  | true :: rest, (s1, s2) => do
    let s ← verify_modal_run interaction input now2 s2
    overlap interaction input now1 now2 rest (s1, s)

/-! ## The action queue -/

/-- What remains to run of an asynchronous function that may use the action
queue: it has returned; or it runs the calls of `a` up to its next use of the
queue and goes on with their result (a throw rejects the function); or it is at
`await queue.add(task)`; or it is suspended on the promise of the queued task
`id`. -/
inductive Job : Type 1 where
  | done : Job
  | seg {α : Type} (a : Act α) (next : α → Job) : Job
  | enqueue (task : Job) (next : Job) : Job
  | waitFor (id : Nat) (next : Job) : Job

/-- Modelled from the spec: the state of the action queue, an instance of the
class `PQueue` of the library `p-queue`, which is not part of the repository.
The tasks are numbered in the order of their submission; `waiting` holds the
tasks submitted and not yet dispatched, oldest first, `running` the tasks in
flight, `settled` the tasks that have returned (`true`) or rejected (`false`),
`started` the numbers of the dispatched tasks in the order of dispatch, and
`intervalCount` the number of tasks dispatched in the current interval. -/
structure ActionQueue where
  concurrency : Nat
  intervalCap : Nat
  nextId : Nat
  waiting : List (Nat × Job)
  running : List (Nat × Job)
  settled : List (Nat × Bool)
  started : List Nat
  intervalCount : Nat

/-- The queue `new PQueue({ concurrency: 1, interval: 1000, intervalCap: 1 })` of
index.js. -/
def ActionQueue.create : ActionQueue where
  concurrency := 1
  intervalCap := 1
  nextId := 0
  waiting := []
  running := []
  settled := []
  started := []
  intervalCount := 0

/-- Modelled from the spec: the call `queue.add(task)`, which puts the task
behind the tasks submitted before. -/
def ActionQueue.add (q : ActionQueue) (task : Job) : ActionQueue :=
  { q with nextId := q.nextId + 1, waiting := q.waiting ++ [(q.nextId, task)] }

/-- Modelled from the spec: the dispatch of the oldest waiting task, which
takes place only while fewer than `concurrency` tasks are in flight and fewer
than `intervalCap` tasks have been dispatched in the current interval. -/
def ActionQueue.dispatch (q : ActionQueue) : ActionQueue :=
  match q.waiting with
  | [] => q
  | t :: rest =>
    if q.running.length < q.concurrency && q.intervalCount < q.intervalCap then
      { q with waiting := rest, running := q.running ++ [t], started := q.started ++ [t.1],
               intervalCount := q.intervalCount + 1 }
    else q

/-- Modelled from the spec: the start of a new interval. -/
def ActionQueue.interval (q : ActionQueue) : ActionQueue :=
  { q with intervalCount := 0 }

/-- Modelled from the spec: the task `id` in flight settles and leaves the
queue. -/
def ActionQueue.settle (q : ActionQueue) (id : Nat) (ok : Bool) : ActionQueue :=
  { q with running := q.running.filter (fun t => t.1 != id),
           settled := q.settled ++ [(id, ok)] }

/-- The task `id` in flight has run up to its next suspension and `job` remains
of it. -/
def ActionQueue.setJob (q : ActionQueue) (id : Nat) (job : Job) : ActionQueue :=
  { q with running := q.running.map (fun t => if t.1 == id then (id, job) else t) }

/-- The process: the world and the action queue. -/
structure Machine where
  world : World
  queue : ActionQueue

/-- Modelled from the spec: the event loop resumes the task `id` in flight,
which runs to its next suspension.  A task that has returned settles; a task at
`await queue.add(task)` submits the task and is suspended on its promise; a task
suspended on a promise goes on once the promise has settled, and rejects when the
promise has rejected. -/
def Machine.resume (env : Env) (m : Machine) (id : Nat) : Machine :=
  match m.queue.running.find? (fun t => t.1 == id) with
  | none => m
  | some (_, job) =>
    match job with
    | .done => { m with queue := m.queue.settle id true }
    | .seg a next =>
      match a env m.world with
      | (.ok x, w1) => { world := w1, queue := m.queue.setJob id (next x) }
      | (.error _, w1) => { world := w1, queue := m.queue.settle id false }
    | .enqueue task next =>
      { m with queue := (m.queue.add task).setJob id (.waitFor m.queue.nextId next) }
    | .waitFor k next =>
      match m.queue.settled.find? (fun s => s.1 == k) with
      | none => m
      | some (_, true) => { m with queue := m.queue.setJob id next }
      | some (_, false) => { m with queue := m.queue.settle id false }

/-- What can happen next in the process: a handler outside the queue submits a
task, the queue dispatches, the event loop resumes a task in flight, or a new
interval starts. -/
inductive Move : Type 1 where
  | submit (task : Job)
  | dispatch
  | resume (id : Nat)
  | interval

/-- One move of the process. -/
def Machine.move (env : Env) (m : Machine) : Move → Machine
  | .submit task => { m with queue := m.queue.add task }
  | .dispatch => { m with queue := m.queue.dispatch }
  | .resume id => m.resume env id
  | .interval => { m with queue := m.queue.interval }

/-- The process after a sequence of moves. -/
def Machine.run (env : Env) (m : Machine) (moves : List Move) : Machine :=
  moves.foldl (Machine.move env) m

/-- The invariant of the action queue: its concurrency is one, at most one task
is in flight, and the dispatched tasks followed by the waiting tasks are the
submitted tasks in the order of their submission. -/
def ActionQueue.Ordered (q : ActionQueue) : Prop :=
  q.concurrency = 1 ∧ q.running.length ≤ 1 ∧
    q.started ++ q.waiting.map Prod.fst = List.range q.nextId

/-! ## The bulk apply -/

/-- The function `addSusRoleToMember(member, reason)` as an asynchronous function
on the action queue, followed by `next`: the statements of `addSusRoleToMember`,
with its `await queue.add(...)` going through the queue. -/
def addSusJob (member : Member) (reason : String) (next : Job) : Job :=
  .seg Act.world fun w =>
    match w.SUS_ROLE_ID with
    | none => next
    | some roleId =>
      if !truthy w.SUS_ROLE_ID then next else
      if (w.roles member.id).contains roleId then
        .seg (logToChannel (formatUserBlock member (getMemberPlatforms member)) none)
          fun _ => next
      else
        .enqueue (.seg (addSusTask member roleId reason) fun _ => .done) next

/-- The pause `await new Promise(r => setTimeout(r, config.processDelayMs ||
PROCESS_DELAY_MS))`. -/
def processDelay : Act Unit := do
  let env ← Act.env
  let w ← Act.world
  match w.config with
  | none => Act.throw (.object none none)
  | some c =>
    Act.emit (.sleep (if c.processDelayMs != 0 then c.processDelayMs else env.PROCESS_DELAY_MS))

/-- The task that the `apply_sus_confirm` branch of the scan collector hands to
the queue for the suspect `userId`. -/
def bulkJob (userId : String) : Job :=
  .seg (Act.catchNull (membersFetch userId)) fun m =>
    match m with
    | none => .done
    | some m => addSusJob m "Marked via scan applySus" (.seg processDelay fun _ => .done)

/-- The `apply_sus_confirm` branch of the scan collector for the user ids of the
matched suspects: the reply, then one `queue.add` per suspect, none of them
awaited. -/
def applySusConfirm (suspects : List String) (m : Machine) : Machine :=
  suspects.foldl (fun m s => { m with queue := m.queue.add (bulkJob s) })
    ⟨m.world.push (.safeInteractionReply "Applying Sus role to matched users (queued)." false),
      m.queue⟩

/-- The stages of the bulk task of the suspect `uid`, found as `member` without
the marker role `r`, from its dispatch on: the fetch of the member, the test of
the marker role, the `await queue.add` of the role-add task, and the wait for
that task. -/
inductive BulkStage (uid : String) (member : Member) (r : String) : Job → Prop
  | fetch : BulkStage uid member r (bulkJob uid)
  | check : BulkStage uid member r
      (addSusJob member "Marked via scan applySus" (.seg processDelay fun _ => .done))
  | submit : BulkStage uid member r
      (.enqueue (.seg (addSusTask member r "Marked via scan applySus") fun _ => .done)
        (.seg processDelay fun _ => .done))
  | wait (k : Nat) : BulkStage uid member r (.waitFor k (.seg processDelay fun _ => .done))

/-- The states of the process after the bulk apply for the one suspect `uid` has
been confirmed in the world `w`: the bulk task is the first task of the queue,
waiting or in flight at one of its stages; no task has settled; and the world
differs from `w` by calls other than `member.roles.add`. -/
def Stuck (w : World) (uid : String) (member : Member) (r : String) (m : Machine) : Prop :=
  m.world.SUS_ROLE_ID = some r ∧ m.world.roles = w.roles ∧
  m.world.guildMembers = w.guildMembers ∧
  (∃ evs, m.world.trace = w.trace ++ evs ∧ ∀ e ∈ evs, e.isRolesAdd = false) ∧
  m.queue.settled = [] ∧ m.queue.concurrency = 1 ∧
  ((m.queue.running = [] ∧ m.queue.started = [] ∧
      ∃ rest, m.queue.waiting = (0, bulkJob uid) :: rest) ∨
    (∃ j, BulkStage uid member r j ∧ m.queue.running = [(0, j)] ∧ m.queue.started = [0]))

/-- The contents `challengeStore` can have.  The map starts empty
(`new Map()`); the only `challengeStore.set` of the program is the one of
`verify_button`, which stores a challenge whose `expiresAt` is
`Date.now() + 5 * 60 * 1000`; every other write is a `challengeStore.delete`. -/
inductive Reachable : List (String × Challenge) → Prop
  | empty : Reachable []
  | set (s : List (String × Challenge)) (k : String) (v : Challenge) (now : Nat) :
      Reachable s → v.expiresAt = now + 5 * 60 * 1000 → Reachable (storeSet s k v)
  | delete (s : List (String × Challenge)) (k : String) :
      Reachable s → Reachable (storeDelete s k)

/-- The frame of handlers that take a reachable `challengeStore` to a reachable
one. -/
def storeFrame : Frame where
  rel w w1 := Reachable w.challengeStore → Reachable w1.challengeStore
  refl _ h := h
  trans h1 h2 h := h2 (h1 h)


/-! # Theorems -/

/-! ## Rounding of the random draws -/
theorem roundSig53_lt (m n : Nat) (hm : m < 2 ^ 53) (hn : 0 < n) :
    roundSig53 (m * n) < (m + 1) * n := by
  have hmn : m * n < (m + 1) * n := by nlinarith
  unfold roundSig53
  split
  · exact hmn
  · rename_i hge
    have hge : 2 ^ 53 ≤ m * n := Nat.le_of_not_lt hge
    have hne : m * n ≠ 0 := by omega
    have hlog : 2 ^ Nat.log2 (m * n) ≤ m * n := Nat.log2_self_le hne
    have h53 : 53 ≤ Nat.log2 (m * n) := (Nat.le_log2 hne).2 hge
    obtain ⟨s, hs⟩ : ∃ s, Nat.log2 (m * n) = s + 53 := ⟨Nat.log2 (m * n) - 53, by omega⟩
    have e1 : Nat.log2 (m * n) - 52 = s + 1 := by omega
    simp only [e1, Nat.add_sub_cancel]
    have hp : 2 ^ (s + 1) = 2 * 2 ^ s := by rw [pow_succ]; ring
    have hdm := Nat.div_add_mod (m * n) (2 ^ (s + 1))
    have hr : m * n % 2 ^ (s + 1) < 2 ^ (s + 1) := Nat.mod_lt _ (by positivity)
    have hsn : 2 ^ s < n := by
      rw [hs, pow_add] at hlog
      have : 2 ^ s * 2 ^ 53 < n * 2 ^ 53 := by
        calc 2 ^ s * 2 ^ 53 ≤ m * n := hlog
          _ < 2 ^ 53 * n := by nlinarith
          _ = n * 2 ^ 53 := by ring
      exact Nat.lt_of_mul_lt_mul_right this
    have hq : m * n / 2 ^ (s + 1) * 2 ^ (s + 1) ≤ m * n := Nat.div_mul_le_self _ _
    split
    · omega
    · split
      · omega
      · rename_i h1 h2
        have h1 : 2 ^ s ≤ m * n % 2 ^ (s + 1) := Nat.le_of_not_lt h1
        have : (m * n / 2 ^ (s + 1) + 1) * 2 ^ (s + 1)
            = 2 ^ (s + 1) * (m * n / 2 ^ (s + 1)) + 2 ^ (s + 1) := by ring
        rw [this]
        have : (m + 1) * n = m * n + n := by ring
        rw [this]
        omega

theorem floorMul_lt (d : Draw) (n : Nat) (hd : d.inUnit) (hn : 0 < n) : floorMul d n < n := by
  obtain ⟨h53, hexp, _⟩ := hd
  unfold floorMul
  rw [Nat.div_lt_iff_lt_mul (by positivity)]
  calc roundSig53 (d.mant * n) < (d.mant + 1) * n := roundSig53_lt _ _ h53 hn
    _ ≤ 2 ^ d.exp * n := Nat.mul_le_mul_right _ hexp
    _ = n * 2 ^ d.exp := by ring

/-! ## Running handlers -/

@[simp]
theorem Act.pure_run {α : Type} (a : α) (env : Env) (w : World) :
    (pure a : Act α) env w = (.ok a, w) := rfl

@[simp]
theorem Act.bind_run {α β : Type} (x : Act α) (f : α → Act β) (env : Env) (w : World) :
    (x >>= f) env w = Act.andThen x f env w := rfl

theorem Act.andThen_ok {α β : Type} {x : Act α} {f : α → Act β} {env : Env} {w w1 : World}
    {a : α} (h : x env w = (.ok a, w1)) : Act.andThen x f env w = f a env w1 := by
  simp [Act.andThen, h]

@[simp]
theorem Act.emit_run (e : Event) (env : Env) (w : World) :
    Act.emit e env w = (.ok (), { w with trace := w.trace ++ [e] }) := rfl

@[simp]
theorem Act.world_run (env : Env) (w : World) : Act.world env w = (.ok w, w) := rfl

@[simp]
theorem Act.env_run (env : Env) (w : World) : Act.env env w = (.ok env, w) := rfl

@[simp]
theorem Act.update_run (f : World → World) (env : Env) (w : World) :
    Act.update f env w = (.ok (), f w) := rfl

@[simp]
theorem Act.throw_run {α : Type} (e : JsError) (env : Env) (w : World) :
    (Act.throw e : Act α) env w = (.error e, w) := rfl

/-! ## Frame rules -/

theorem keeps_pure {F : Frame} {α : Type} (a : α) : Act.Keeps F (Pure.pure a : Act α) :=
  fun _ w => F.refl w

theorem keeps_throw {F : Frame} {α : Type} (e : JsError) : Act.Keeps F (Act.throw e : Act α) :=
  fun _ w => F.refl w

theorem keeps_world {F : Frame} : Act.Keeps F Act.world := fun _ w => F.refl w

theorem keeps_env {F : Frame} : Act.Keeps F Act.env := fun _ w => F.refl w

theorem keeps_bind {F : Frame} {α β : Type} {x : Act α} {f : α → Act β}
    (hx : Act.Keeps F x) (hf : ∀ a, Act.Keeps F (f a)) : Act.Keeps F (x >>= f) := by
  intro env w
  have h1 := hx env w
  show F.rel w (Act.andThen x f env w).2
  unfold Act.andThen
  rcases h : x env w with ⟨r, w1⟩
  rw [h] at h1
  cases r with
  | error e => exact h1
  | ok a => exact F.trans h1 (hf a env w1)

theorem keeps_tryCatch {F : Frame} {α : Type} {x : Act α} {h : JsError → Act α}
    (hx : Act.Keeps F x) (hh : ∀ e, Act.Keeps F (h e)) : Act.Keeps F (Act.tryCatch x h) := by
  intro env w
  have h1 := hx env w
  unfold Act.tryCatch
  rcases hr : x env w with ⟨r, w1⟩
  rw [hr] at h1
  cases r with
  | error e => exact F.trans h1 (hh e env w1)
  | ok a => exact h1

theorem keeps_catchNull {F : Frame} {α : Type} {x : Act α} (hx : Act.Keeps F x) :
    Act.Keeps F (Act.catchNull x) := by
  intro env w
  have h1 := hx env w
  unfold Act.catchNull
  rcases hr : x env w with ⟨r, w1⟩
  rw [hr] at h1
  cases r with
  | error e => exact h1
  | ok a => exact h1

theorem keeps_withRetriesFrom {F : Frame} {α : Type} {fn : Act α} (hfn : Act.Keeps F fn)
    (base : Nat) (hw : ∀ t, Act.Keeps F (Act.emit (.consoleWarn t)))
    (hs : ∀ ms, Act.Keeps F (Act.emit (.sleep ms))) :
    ∀ n i last, Act.Keeps F (withRetriesFrom fn base n i last)
  | 0, _, last => keeps_throw last
  | n + 1, i, _ => by
    unfold withRetriesFrom
    refine keeps_tryCatch hfn (fun err => ?_)
    split
    · exact keeps_throw err
    · exact keeps_bind (hw _) (fun _ => keeps_bind (hs _)
        (fun _ => keeps_withRetriesFrom hfn base hw hs n (i + 1) err))

theorem keeps_withRetries {F : Frame} {α : Type} {fn : Act α} (hfn : Act.Keeps F fn)
    (attempts base : Nat) (hw : ∀ t, Act.Keeps F (Act.emit (.consoleWarn t)))
    (hs : ∀ ms, Act.Keeps F (Act.emit (.sleep ms))) :
    Act.Keeps F (withRetries fn attempts base) :=
  keeps_withRetriesFrom hfn base hw hs attempts 0 .falsy

theorem ext_emit {P : Event → Prop} {keep : Bool} {e : Event} (h : P e) :
    Act.Keeps (ext P keep) (Act.emit e) := by
  intro env w
  exact ⟨⟨[e], rfl, by simpa using h⟩, rfl, rfl, rfl, rfl, fun _ => rfl⟩

theorem ext_call {P : Event → Prop} {keep : Bool} {e : Event} (h : P e) :
    Act.Keeps (ext P keep) (Act.call e) := by
  intro env w
  unfold Act.call
  cases env.outcome w.trace.length e <;>
    exact ⟨⟨[e], rfl, by simpa using h⟩, rfl, rfl, rfl, rfl, fun _ => rfl⟩

theorem logToChannel_keeps {P : Event → Prop} (hP : ∀ e, e.isNotice = true → P e)
    (text : String) (csvPath : Option String) :
    Act.Keeps (ext P true) (logToChannel text csvPath) := by
  have hw : ∀ t, Act.Keeps (ext P true) (Act.emit (.consoleWarn t)) :=
    fun t => ext_emit (by exact hP _ rfl)
  have hs : ∀ ms, Act.Keeps (ext P true) (Act.emit (.sleep ms)) :=
    fun t => ext_emit (by exact hP _ rfl)
  unfold logToChannel
  refine keeps_bind keeps_env (fun env => keeps_bind keeps_world (fun w => ?_))
  dsimp only
  split
  · exact ext_emit (by exact hP _ rfl)
  · split
    · exact ext_emit (by exact hP _ rfl)
    · refine keeps_tryCatch ?_ (fun _ => ext_emit (by exact hP _ rfl))
      refine keeps_bind (keeps_withRetries (keeps_bind (ext_call (by exact hP _ rfl)) (fun _ => keeps_bind keeps_env (fun _ => keeps_pure _))) _ _ hw hs) (fun ch => ?_)
      split
      · exact ext_emit (by exact hP _ rfl)
      · split
        · exact ext_emit (by exact hP _ rfl)
        · refine keeps_bind (keeps_withRetries (ext_call (by exact hP _ rfl)) _ _ hw hs) (fun _ => ?_)
          split
          · exact keeps_pure _
          · split
            · exact keeps_pure _
            · exact keeps_tryCatch (keeps_withRetries (ext_call (by exact hP _ rfl)) _ _ hw hs) (fun _ => keeps_pure _)

/-! ## The restriction helpers -/

theorem sendImmediateMention_keeps {P : Event → Prop} (hP : ∀ e, e.isNotice = true → P e)
    (userId : String) : Act.Keeps (ext P true) (sendImmediateMention userId) := by
  have hw : ∀ t, Act.Keeps (ext P true) (Act.emit (.consoleWarn t)) :=
    fun t => ext_emit (by exact hP _ rfl)
  have hs : ∀ ms, Act.Keeps (ext P true) (Act.emit (.sleep ms)) :=
    fun t => ext_emit (by exact hP _ rfl)
  unfold sendImmediateMention
  refine keeps_bind keeps_env (fun env => keeps_bind keeps_world (fun w => ?_))
  dsimp only
  split
  · exact keeps_pure _
  · refine keeps_tryCatch ?_ (fun _ => ext_emit (by exact hP _ rfl))
    refine keeps_bind (keeps_withRetries (keeps_bind (ext_call (by exact hP _ rfl))
      (fun _ => keeps_bind keeps_env (fun _ => keeps_pure _))) _ _ hw hs) (fun ch => ?_)
    split
    · exact keeps_pure _
    · split
      · exact keeps_pure _
      · refine keeps_bind (keeps_catchNull (keeps_withRetries (ext_call (by exact hP _ rfl)) _ _ hw hs))
          (fun sent => ?_)
        split
        · exact keeps_pure _
        · exact ext_emit (by exact hP _ rfl)

theorem withRetries_ok {α : Type} {fn : Act α} {env : Env} {w w1 : World} {a : α}
    (n base : Nat) (h : fn env w = (.ok a, w1)) :
    withRetries fn (n + 1) base env w = (.ok a, w1) := by
  simp [withRetries, withRetriesFrom, Act.tryCatch, h]

theorem tryCatch_emit_ok (x : Act Unit) (e : Event) (env : Env) (w : World) :
    (Act.tryCatch x (fun _ => Act.emit e) env w).1 = .ok () := by
  unfold Act.tryCatch
  rcases x env w with ⟨r, w1⟩
  cases r <;> rfl


theorem addSus_unmarked (env : Env) (w : World) (member : Member) (reason r : String)
    (hr : w.SUS_ROLE_ID = some r) (ht : r ≠ "") (hno : r ∉ w.roles member.id) :
    addSusRoleToMember member reason env w = addSusTask member r reason env (w.push .queueAdd) := by
  unfold addSusRoleToMember
  simp only [Act.bind_run, Act.andThen, Act.world_run, hr]
  simp [truthy, ht, hno, queueAdd, Act.andThen, World.push]

theorem addSus_marked (env : Env) (w : World) (member : Member) (reason r : String)
    (hr : w.SUS_ROLE_ID = some r) (ht : r ≠ "") (hyes : r ∈ w.roles member.id) :
    addSusRoleToMember member reason env w
      = logToChannel (formatUserBlock member (getMemberPlatforms member)) none env w := by
  unfold addSusRoleToMember
  simp only [Act.bind_run, Act.andThen, Act.world_run, hr]
  simp [truthy, ht, hyes]

theorem addSusTask_run (env : Env) (w : World) (member : Member) (reason r : String) :
    addSusTask member r reason env w
      = Act.tryCatch
          (logToChannel (formatUserBlock member (getMemberPlatforms member)) none
            >>= fun _ => sendImmediateMention member.id)
          (fun _ => Act.emit (.consoleError "addSusRoleToMember error")) env
          (withRetries (rolesAdd member r reason) 3 1000 env w).2 := by
  unfold addSusTask
  simp only [Act.tryCatch, Act.bind_run, Act.andThen, Act.catchNull]
  rcases withRetries (rolesAdd member r reason) 3 1000 env w with ⟨res, w1⟩
  cases res <;> rfl

theorem rolesAdd_accepted (env : Env) (w : World) (member : Member) (r reason : String)
    (hok : env.outcome w.trace.length (.rolesAdd member.id r reason) = none) :
    withRetries (rolesAdd member r reason) 3 1000 env w
      = (.ok (), { w with trace := w.trace ++ [.rolesAdd member.id r reason] }) := by
  apply withRetries_ok
  simp [rolesAdd, Act.call, hok]

theorem afterAdd_keeps (member : Member) :
    Act.Keeps (ext (fun e => e.isRolesAdd = false) true)
      (Act.tryCatch
        (logToChannel (formatUserBlock member (getMemberPlatforms member)) none
          >>= fun _ => sendImmediateMention member.id)
        (fun _ => Act.emit (.consoleError "addSusRoleToMember error"))) := by
  have hP : ∀ e : Event, e.isNotice = true → e.isRolesAdd = false := by
    intro e; cases e <;> simp [Event.isNotice, Event.isRolesAdd]
  exact keeps_tryCatch (keeps_bind (logToChannel_keeps hP _ _) (fun _ => sendImmediateMention_keeps hP _))
    (fun _ => ext_emit rfl)

theorem newEvents_append (w w1 : World) (evs : List Event) (h : w1.trace = w.trace ++ evs) :
    newEvents w w1 = evs := by
  simp [newEvents, h]

theorem retry_channelsFetch (env : Env) (w : World) (id : String)
    (h : env.outcome w.trace.length (.channelsFetch id) = none) :
    withRetries (channelsFetch id) 3 1000 env w
      = (.ok (env.channel id), { w with trace := w.trace ++ [.channelsFetch id] }) := by
  apply withRetries_ok
  simp [channelsFetch, Act.call, Act.andThen, h]

theorem retry_channelSend (env : Env) (w : World) (ch : Channel) (content : String)
    (h : env.outcome w.trace.length (.send ch.id content) = none) :
    withRetries (channelSend ch content) 3 1000 env w
      = (.ok (), { w with trace := w.trace ++ [.send ch.id content] }) := by
  apply withRetries_ok
  simp [channelSend, Act.call, h]

theorem logToChannel_accepted (env : Env) (w : World) (text : String)
    (hacc : ∀ n e, e.isRolesAdd = false → env.outcome n e = none) :
    logToChannel text none env w
      = (.ok (), { w with trace := w.trace ++ auditEvents env w text }) := by
  have hf : ∀ id (w : World), withRetries (channelsFetch id) 3 1000 env w = _ :=
    fun id w => retry_channelsFetch env w id (hacc _ _ rfl)
  have hs : ∀ ch content (w : World), withRetries (channelSend ch content) 3 1000 env w = _ :=
    fun ch content w => retry_channelSend env w ch content (hacc _ _ rfl)
  unfold logToChannel auditEvents
  simp only [Act.bind_run, Act.andThen, Act.env_run, Act.world_run]
  cases hid : getLogChannelId env w with
  | none => simp
  | some id =>
    by_cases ht : truthy (some id) = true
    · cases hc : env.channel id with
      | none => simp [ht, Act.tryCatch, Act.andThen, hf, hc]
      | some ch =>
        by_cases hb : ch.textBased = true
        · simp [ht, Act.tryCatch, Act.andThen, hf, hs, hc, hb]
        · simp [ht, Act.tryCatch, Act.andThen, hf, hc, hb]
    · simp [ht]

theorem sendImmediateMention_accepted (env : Env) (w : World) (userId : String) (cfg : Config)
    (vch : Channel) (hcfg : w.config = some cfg) (httl : 0 < cfg.periodicMentionDeleteSeconds)
    (hacc : ∀ n e, e.isRolesAdd = false → env.outcome n e = none)
    (hv : env.channel env.VERIFY_CHANNEL_ID = some vch) (hvt : vch.textBased = true) :
    sendImmediateMention userId env w
      = (.ok (), { w with trace := w.trace ++ [.channelsFetch env.VERIFY_CHANNEL_ID,
          .send vch.id (mentionText userId),
          .setTimeoutDelete vch.id (mentionText userId) (cfg.periodicMentionDeleteSeconds * 1000)] }) := by
  have hf : ∀ id (w : World), withRetries (channelsFetch id) 3 1000 env w = _ :=
    fun id w => retry_channelsFetch env w id (hacc _ _ rfl)
  have hs : ∀ ch content (w : World), withRetries (channelSend ch content) 3 1000 env w = _ :=
    fun ch content w => retry_channelSend env w ch content (hacc _ _ rfl)
  have hne : cfg.periodicMentionDeleteSeconds ≠ 0 := by omega
  have hnle : ¬ cfg.periodicMentionDeleteSeconds ≤ 0 := by omega
  unfold sendImmediateMention
  simp [Act.andThen, Act.tryCatch, Act.catchNull, hcfg, hne, hnle, hf, hs, hv, hvt, mentionText]

theorem rolesAdd_retry_keeps (member : Member) (r reason : String) (attempts base : Nat) :
    Act.Keeps (ext (fun e => e.isRolesAdd = true ∨ e.isRetryNoise = true) false)
      (withRetries (rolesAdd member r reason) attempts base) := by
  refine keeps_withRetries ?_ _ _ (fun _ => ext_emit (Or.inr rfl)) (fun _ => ext_emit (Or.inr rfl))
  unfold rolesAdd
  exact ext_call (Or.inl rfl)

theorem auditEvents_has_audit (env : Env) (w : World) (text : String) :
    ∃ e ∈ auditEvents env w text, e.isAudit text = true := by
  unfold auditEvents
  split
  · exact ⟨_, List.mem_singleton_self _, by simp [Event.isAudit]⟩
  · split
    · exact ⟨_, List.mem_singleton_self _, by simp [Event.isAudit]⟩
    · split
      · exact ⟨.consoleLog text, by simp, by simp [Event.isAudit]⟩
      · split
        · exact ⟨.consoleLog text, by simp, by simp [Event.isAudit]⟩
        · exact ⟨_, List.mem_cons_of_mem _ (List.mem_singleton_self _), by simp [Event.isAudit]⟩


theorem rolesRemove_accepted (env : Env) (w : World) (member : Member) (r reason : String)
    (hok : env.outcome w.trace.length (.rolesRemove member.id r reason) = none) :
    withRetries (rolesRemove member r reason) 3 1000 env w
      = (.ok (), { w with trace := w.trace ++ [.rolesRemove member.id r reason] }) := by
  apply withRetries_ok
  simp [rolesRemove, Act.call, hok]

theorem rolesRemove_retry_first (env : Env) (w : World) (member : Member) (r reason : String) :
    ∃ evs, (withRetries (rolesRemove member r reason) 3 1000 env w).2.trace
      = w.trace ++ Event.rolesRemove member.id r reason :: evs := by
  have hk : ∀ err, Act.Keeps (ext (fun _ => True) false)
      (Act.emit (.consoleWarn ("Transient error (attempt " ++ toString (0 + 1)
          ++ "). Retrying in " ++ toString (retryDelay 1000 0) ++ "ms...")) >>= fun _ =>
        Act.emit (.sleep (retryDelay 1000 0)) >>= fun _ =>
        withRetriesFrom (rolesRemove member r reason) 1000 2 (0 + 1) err) := fun err =>
    keeps_bind (ext_emit trivial) (fun _ => keeps_bind (ext_emit trivial) (fun _ =>
      keeps_withRetriesFrom (by
        unfold rolesRemove
        exact ext_call trivial) _
        (fun _ => ext_emit trivial) (fun _ => ext_emit trivial) _ _ _))
  unfold withRetries withRetriesFrom
  cases ho : env.outcome w.trace.length (.rolesRemove member.id r reason) with
  | none => exact ⟨[], by simp [Act.tryCatch, rolesRemove, Act.call, Act.andThen, ho]⟩
  | some err =>
    have hfn : rolesRemove member r reason env w
        = (.error err, { w with trace := w.trace ++ [.rolesRemove member.id r reason] }) := by
      simp [rolesRemove, Act.call, Act.andThen, ho]
    by_cases hto : isTimeout err = true
    · obtain ⟨⟨evs, hevs, -⟩, -⟩ := hk err env { w with
        trace := w.trace ++ [.rolesRemove member.id r reason] }
      refine ⟨evs, ?_⟩
      simp only [Act.tryCatch, hfn, hto, Bool.not_true, Bool.false_eq_true, ↓reduceIte]
      rw [hevs]
      simp
    · exact ⟨[], by simp [Act.tryCatch, hfn, hto]⟩

/-! ## The challenge store and the verify handlers -/

theorem storeGet_storeDelete (s : List (String × Challenge)) (k : String) :
    storeGet (storeDelete s k) k = none := by
  simp [storeGet, storeDelete]


theorem storeGet_storeSet (s : List (String × Challenge)) (k : String) (v : Challenge) :
    storeGet (storeSet s k v) k = some v := by
  unfold storeSet
  split
  · rename_i h
    induction s with
    | nil => simp at h
    | cons e s ih =>
      by_cases he : e.1 = k
      · simp [storeGet, he]
      · have h2 : s.any (fun e => e.1 == k) = true := by simpa [he] using h
        have := ih h2
        simp [storeGet, List.find?_cons, he] at this ⊢
        exact this
  · rename_i h
    simp only [storeGet, List.find?_append]
    have : List.find? (fun e => e.1 == k) s = none := by
      rw [List.find?_eq_none]
      intro e he hp
      exact h (List.any_eq_true.2 ⟨e, he, hp⟩)
    simp [this]

theorem verifyButton_challenge_path (env : Env) (w : World) (interaction : Interaction)
    (rand : Nat → Draw) (now : Nat) (cfg : Config) (ms : List String)
    (hcfg : w.config = some cfg) (hms : cfg.verificationMethods = some ms)
    (hch : "word" ∈ ms ∨ "math" ∈ ms) :
    verify_button interaction rand now env w = (.ok (), { w with
      challengeStore := storeSet w.challengeStore (challengeKey interaction)
        (makeChallenge (ms.filter (fun m => m == "word" || m == "math")) rand now)
      trace := w.trace ++ [.deferReply, .safeInteractionReply (promptText
        (makeChallenge (ms.filter (fun m => m == "word" || m == "math")) rand now)) true] }) := by
  have h1 : (ms.contains "word" || ms.contains "math") = true := by
    rcases hch with h | h <;> simp [h]
  have h2 : ¬ (ms.filter (fun m => m == "word" || m == "math")).length = 0 := by
    intro h0
    have hnil := List.length_eq_zero.1 h0
    rcases hch with h | h
    · have : "word" ∈ ms.filter (fun m => m == "word" || m == "math") :=
        List.mem_filter.2 ⟨h, by simp⟩
      rw [hnil] at this
      simp at this
    · have : "math" ∈ ms.filter (fun m => m == "word" || m == "math") :=
        List.mem_filter.2 ⟨h, by simp⟩
      rw [hnil] at this
      simp at this
  unfold verify_button
  simp only [Act.tryCatch, Act.bind_run, Act.andThen, Act.emit_run, Act.world_run, hcfg, hms]
  simp only [h1, Bool.not_true, Bool.false_and, Bool.false_eq_true, ↓reduceIte, beq_iff_eq, h2,
    Act.bind_run, Act.andThen, Act.update_run, Act.emit_run, List.append_assoc,
    List.singleton_append]

theorem logToChannel_ok (env : Env) (w : World) (text : String) (csvPath : Option String) :
    (logToChannel text csvPath env w).1 = .ok () := by
  unfold logToChannel
  simp only [Act.bind_run, Act.andThen, Act.env_run, Act.world_run]
  cases h : getLogChannelId env w with
  | none => rfl
  | some id =>
    dsimp only
    by_cases ht : (!truthy (some id)) = true
    · rw [if_pos ht]; rfl
    · rw [if_neg ht]; exact tryCatch_emit_ok _ _ _ _

theorem verifyModal_marked (env : Env) (w : World) (interaction : Interaction)
    (input : String) (now : Nat) (ch : Challenge) (member : Member) (r : String)
    (hch : storeGet w.challengeStore (challengeKey interaction) = some ch)
    (hexp : ¬ now > ch.expiresAt) (hans : jsTrim input = ch.answer)
    (hg : ∀ n, env.outcome n (.guildsFetch interaction.guildId) = none)
    (hmf : ∀ n, env.outcome n (.membersFetch interaction.userId) = none)
    (hm : w.guildMembers.find? (fun m => m.id == interaction.userId) = some member)
    (hr : w.SUS_ROLE_ID = some r) (ht : r ≠ "") (hyes : r ∈ w.roles member.id) :
    verify_modal interaction input now env w
      = Act.tryCatch (verify_modal_tail interaction member r)
          (fun _ => do
            Act.emit (.consoleError "verify_modal handling error")
            reply "An error occurred while processing your answer. Try again.") env
          { w with trace := w.trace ++ [.guildsFetch interaction.guildId,
              .membersFetch interaction.userId, .deferReply] } := by
  unfold verify_modal verify_modal_tail
  simp [Act.tryCatch, Act.andThen, Act.catchNull, Act.call, membersFetch, hch, hexp, hans, hg,
    hmf, hm, hr, ht, hyes, truthy]

theorem verifyModalTail_trace (env : Env) (w : World) (interaction : Interaction)
    (member : Member) (r : String) :
    w.trace ++ [Event.queueAdd, Event.rolesRemove member.id r "Verified via challenge"]
      <+: (Act.tryCatch (verify_modal_tail interaction member r)
        (fun _ => do
          Act.emit (.consoleError "verify_modal handling error")
          reply "An error occurred while processing your answer. Try again.") env w).2.trace := by
  obtain ⟨evs, hevs⟩ := rolesRemove_retry_first env (w.push .queueAdd) member r
    "Verified via challenge"
  unfold verify_modal_tail queueAdd
  simp only [Act.tryCatch, Act.bind_run, Act.andThen, Act.emit_run, reply]
  rcases hq : withRetries (rolesRemove member r "Verified via challenge") 3 1000 env
    (w.push .queueAdd) with ⟨res, w5⟩
  rw [hq] at hevs
  simp only [World.push] at hq hevs
  rw [hq]
  cases res with
  | error e => simp [hevs]
  | ok u =>
    obtain ⟨⟨e2, he2, -⟩, -⟩ := logToChannel_keeps (P := fun _ => True) (fun _ _ => trivial)
      ("âœ…\n" ++ formatUserBlock member (getMemberPlatforms member)
        ++ "\nAction: verified via challenge") none env w5
    rcases hl : logToChannel ("âœ…\n" ++ formatUserBlock member (getMemberPlatforms member)
        ++ "\nAction: verified via challenge") none env w5 with ⟨res2, w6⟩
    rw [hl] at he2
    dsimp only at he2
    cases res2 with
    | error e => simp [hl, he2, hevs]
    | ok u => simp [hl, he2, hevs]

theorem verifyModalTail_accepted (env : Env) (w : World) (interaction : Interaction)
    (member : Member) (r : String)
    (hacc : ∀ n, env.outcome n (.rolesRemove member.id r "Verified via challenge") = none) :
    storeGet (Act.tryCatch (verify_modal_tail interaction member r)
        (fun _ => do
          Act.emit (.consoleError "verify_modal handling error")
          reply "An error occurred while processing your answer. Try again.") env w).2.challengeStore
      (challengeKey interaction) = none := by
  have hrm := rolesRemove_accepted env (w.push .queueAdd) member r "Verified via challenge"
    (hacc _)
  unfold verify_modal_tail queueAdd
  simp only [Act.tryCatch, Act.bind_run, Act.andThen, Act.emit_run, reply]
  simp only [World.push] at hrm
  rw [hrm]
  dsimp only
  have hok := logToChannel_ok env { w with
      trace := w.trace ++ [.queueAdd] ++ [.rolesRemove member.id r "Verified via challenge"] }
    ("âœ…\n" ++ formatUserBlock member (getMemberPlatforms member)
        ++ "\nAction: verified via challenge") none
  rcases hl : logToChannel ("âœ…\n" ++ formatUserBlock member (getMemberPlatforms member)
        ++ "\nAction: verified via challenge") none env { w with
      trace := w.trace ++ [.queueAdd] ++ [.rolesRemove member.id r "Verified via challenge"] } with ⟨res2, w6⟩
  rw [hl] at hok
  dsimp only at hok
  subst hok
  exact storeGet_storeDelete _ _

theorem verifyModal_unmarked (env : Env) (w : World) (interaction : Interaction)
    (input : String) (now : Nat)
    (hno : ∀ r, w.SUS_ROLE_ID = some r → r ∉ w.roles interaction.userId) :
    (∃ evs, (verify_modal interaction input now env w).2.trace = w.trace ++ evs)
      ∧ ∀ e ∈ newEvents w (verify_modal interaction input now env w).2,
          e.isRolesRemove = false := by
  unfold verify_modal newEvents
  cases hg : storeGet w.challengeStore (challengeKey interaction) with
  | none => simp [Act.tryCatch, Act.andThen, reply, hg, Event.isRolesRemove]
  | some ch =>
    by_cases hexp : now > ch.expiresAt
    · simp [Act.tryCatch, Act.andThen, reply, hg, hexp, Event.isRolesRemove]
    · by_cases hans : jsTrim input = ch.answer
      · cases ho1 : env.outcome w.trace.length (Event.guildsFetch interaction.guildId) with
        | some err =>
          simp [Act.tryCatch, Act.andThen, Act.catchNull, Act.call, reply, hg, hexp, hans, ho1,
            Event.isRolesRemove]
        | none =>
          cases ho2 : env.outcome (w.trace.length + 1)
              (Event.membersFetch interaction.userId) with
          | some err =>
            simp [Act.tryCatch, Act.andThen, Act.catchNull, Act.call, membersFetch, reply, hg, hexp,
              hans, ho1, ho2, Event.isRolesRemove]
          | none =>
            cases hm : List.find? (fun m => m.id == interaction.userId) w.guildMembers with
            | none =>
              simp [Act.tryCatch, Act.andThen, Act.catchNull, Act.call, membersFetch, reply, hg,
                hexp, hans, ho1, ho2, hm, Event.isRolesRemove]
            | some m =>
              have hid : m.id = interaction.userId := by
                simpa using List.find?_some hm
              cases hr : w.SUS_ROLE_ID with
              | none =>
                simp [Act.tryCatch, Act.andThen, Act.catchNull, Act.call, membersFetch, reply, hg,
                  hexp, hans, ho1, ho2, hm, hr, Event.isRolesRemove]
              | some r =>
                have := hno r hr
                simp [Act.tryCatch, Act.andThen, Act.catchNull, Act.call, membersFetch, reply, hg,
                  hexp, hans, ho1, ho2, hm, hr, hid, this, Event.isRolesRemove]
      · simp [Act.tryCatch, Act.andThen, reply, hg, hexp, hans, Event.isRolesRemove]

/-! ## Challenge generation -/
theorem letters_length : letters.length = 26 := by decide

theorem charAt_letters (i : Nat) (h : i < 26) :
    ∃ c, charAt letters i = String.singleton c ∧ c ∈ letters.data := by
  have hl : i < letters.data.length := by
    have : letters.data.length = 26 := by decide
    omega
  refine ⟨letters.data[i], ?_, List.getElem_mem hl⟩
  unfold charAt
  rw [List.get?_eq_getElem?, List.getElem?_eq_getElem hl]

theorem wordLoop_spec (rand : Nat → Draw) (k : Nat) (h : ∀ i, (rand i).inUnit) (n : Nat) :
    (wordLoop rand k n).length = n ∧ ∀ c ∈ (wordLoop rand k n).data, c ∈ letters.data := by
  induction n with
  | zero => exact ⟨rfl, by simp [wordLoop]⟩
  | succ n ih =>
    obtain ⟨c, hc, hmem⟩ := charAt_letters (floorMul (rand (k + n)) letters.length)
      (by rw [letters_length]; exact floorMul_lt _ _ (h _) (by decide))
    unfold wordLoop
    rw [hc]
    refine ⟨by rw [String.length_append, ih.1]; rfl, ?_⟩
    intro x hx
    rw [String.data_append] at hx
    rcases List.mem_append.1 hx with hx | hx
    · exact ih.2 x hx
    · have : x = c := by simpa [String.singleton] using hx
      exact this ▸ hmem


theorem removeSus_noop (env : Env) (w : World) (member : Member) (byUser : Option Actor)
    (reason : String) (h : ∀ r, w.SUS_ROLE_ID = some r → r ∉ w.roles member.id) :
    removeSusRoleFromMember member byUser reason env w = (.ok (), w) := by
  unfold removeSusRoleFromMember
  simp only [Act.bind_run, Act.andThen, Act.world_run]
  cases hr : w.SUS_ROLE_ID with
  | none => simp
  | some r =>
    by_cases ht : truthy (some r) = true <;> simp [h r hr, ht]

theorem verifyModal_expired (env : Env) (w : World) (interaction : Interaction) (input : String)
    (now : Nat) (ch : Challenge)
    (hch : storeGet w.challengeStore (challengeKey interaction) = some ch)
    (hexp : now > ch.expiresAt) :
    (verify_modal interaction input now env w).2.trace = w.trace ++
        [Event.safeInteractionReply "Challenge expired. Click Verify again to start a new one." false]
      ∧ storeGet (verify_modal interaction input now env w).2.challengeStore
          (challengeKey interaction) = none := by
  unfold verify_modal
  simp [Act.tryCatch, Act.andThen, hch, hexp, reply, storeGet_storeDelete]

theorem verifyModal_wrong (env : Env) (w : World) (interaction : Interaction) (input : String)
    (now : Nat) (ch : Challenge)
    (hch : storeGet w.challengeStore (challengeKey interaction) = some ch)
    (hexp : ¬ now > ch.expiresAt) (hne : jsTrim input ≠ ch.answer) :
    (verify_modal interaction input now env w).2.trace = w.trace ++
        [Event.safeInteractionReply "âŒ Incorrect answer. Click Verify again to try another challenge." false]
      ∧ (verify_modal interaction input now env w).2.challengeStore = w.challengeStore := by
  unfold verify_modal
  simp [Act.tryCatch, Act.andThen, hch, hexp, reply, hne]


/-! ## Claims -/

theorem mem_newEvents_of_prefix (w w1 : World) (l : List Event) (e : Event)
    (h : w.trace ++ l <+: w1.trace) (he : e ∈ l) : e ∈ newEvents w w1 := by
  obtain ⟨s, hs⟩ := h
  rw [newEvents_append w w1 (l ++ s) (by rw [← hs, List.append_assoc])]
  exact List.mem_append_left _ he

/-- Claim C1, counterexample: with the word method enabled, a verify-button click
by a member who does not hold the marker role is not refused: a challenge is
stored under the key of the member and the challenge prompt is the reply. -/
theorem verify_button_issues_to_unmarked :
    "r" ∉ (sampleWorld ["word"] [] [] 30).roles "u" ∧
    storeGet (verify_button ⟨"g", "u"⟩ zeroDraws 1000 sampleEnv
        (sampleWorld ["word"] [] [] 30)).2.challengeStore "g-u"
      = some { type := "word", answer := "aaaaaa", prompt := none, expiresAt := 301000 } ∧
    (verify_button ⟨"g", "u"⟩ zeroDraws 1000 sampleEnv (sampleWorld ["word"] [] [] 30)).2.trace
      = [.deferReply, .safeInteractionReply (promptText
          { type := "word", answer := "aaaaaa", prompt := none, expiresAt := 301000 }) true] := by
  decide

/-- Claim C1, amended: while a challenge method (word or math) is enabled, the
verify-button handler does not look at the marker role: also for a member who
does not hold it a challenge is stored under the (guild, member) key.  The
refusal comes with the submission: whatever such a member then submits to
`verify_modal`, and whenever, no role removal is requested. -/
theorem verify_button_role_checked_on_submit (env : Env) (w : World)
    (interaction : Interaction) (rand : Nat → Draw) (now : Nat) (cfg : Config)
    (ms : List String) (hcfg : w.config = some cfg) (hms : cfg.verificationMethods = some ms)
    (hch : "word" ∈ ms ∨ "math" ∈ ms)
    (hno : ∀ r, w.SUS_ROLE_ID = some r → r ∉ w.roles interaction.userId) :
    storeGet (verify_button interaction rand now env w).2.challengeStore (challengeKey interaction)
        = some (makeChallenge (ms.filter (fun m => m == "word" || m == "math")) rand now)
      ∧ ∀ input later, ∀ e ∈ newEvents (verify_button interaction rand now env w).2
            (verify_modal interaction input later env
              (verify_button interaction rand now env w).2).2,
          e.isRolesRemove = false := by
  rw [verifyButton_challenge_path env w interaction rand now cfg ms hcfg hms hch]
  refine ⟨storeGet_storeSet _ _ _, fun input later => ?_⟩
  refine (verifyModal_unmarked env _ interaction input later ?_).2
  exact hno

/-- Witness of C1 amended: the methods button and word are enabled and the member
holds no role; the click stores a word challenge. -/
theorem verify_button_role_checked_on_submit_witness :
    ("word" ∈ ["button", "word"] ∨ "math" ∈ ["button", "word"]) ∧
    storeGet (verify_button ⟨"g", "u"⟩ zeroDraws 1000 sampleEnv
        (sampleWorld ["button", "word"] [] [] 30)).2.challengeStore "g-u"
      = some (makeChallenge ["word"] zeroDraws 1000) ∧
    ∀ e ∈ newEvents (verify_button ⟨"g", "u"⟩ zeroDraws 1000 sampleEnv
          (sampleWorld ["button", "word"] [] [] 30)).2
        (verify_modal ⟨"g", "u"⟩ "aaaaaa" 2000 sampleEnv
          (verify_button ⟨"g", "u"⟩ zeroDraws 1000 sampleEnv
            (sampleWorld ["button", "word"] [] [] 30)).2).2,
      e.isRolesRemove = false :=
  ⟨by decide,
   (verify_button_role_checked_on_submit sampleEnv (sampleWorld ["button", "word"] [] [] 30)
      ⟨"g", "u"⟩ zeroDraws 1000 _ ["button", "word"] rfl rfl (by decide)
      (fun r _ => by simp [sampleWorld])).1,
   (verify_button_role_checked_on_submit sampleEnv (sampleWorld ["button", "word"] [] [] 30)
      ⟨"g", "u"⟩ zeroDraws 1000 _ ["button", "word"] rfl rfl (by decide)
      (fun r _ => by simp [sampleWorld])).2 "aaaaaa" 2000⟩

/-- Claim C2, counterexample: a correct answer submitted at `now = expiresAt` is
accepted (the removal is requested and the challenge deleted) although
`now < expiresAt` fails. -/
theorem verify_modal_accepts_at_expiry :
    ¬ ((Event.rolesRemove "u" "r" "Verified via challenge"
          ∈ newEvents (sampleWorld ["word"] ["r"] [("g-u", sampleChallenge)] 30)
              (verify_modal ⟨"g", "u"⟩ " abcdef " 5000 sampleEnv
                (sampleWorld ["word"] ["r"] [("g-u", sampleChallenge)] 30)).2
        ∧ storeGet (verify_modal ⟨"g", "u"⟩ " abcdef " 5000 sampleEnv
              (sampleWorld ["word"] ["r"] [("g-u", sampleChallenge)] 30)).2.challengeStore "g-u"
            = none)
      ↔ (jsTrim " abcdef " = sampleChallenge.answer ∧ 5000 < sampleChallenge.expiresAt)) := by
  decide

/-- Claim C2, amended: for a stored challenge whose member is found and holds the
marker role, the `verify_modal` submission requests the removal of the marker
role if and only if the trimmed text equals the expected answer exactly and
`now ≤ expiresAt`; and when the platform accepts the removal, it requests the
removal and deletes the challenge if and only if that same condition holds. -/
theorem verify_modal_removal_iff (env : Env) (w : World) (interaction : Interaction)
    (input : String) (now : Nat) (ch : Challenge) (member : Member) (r : String)
    (hch : storeGet w.challengeStore (challengeKey interaction) = some ch)
    (hg : ∀ n, env.outcome n (.guildsFetch interaction.guildId) = none)
    (hmf : ∀ n, env.outcome n (.membersFetch interaction.userId) = none)
    (hm : w.guildMembers.find? (fun m => m.id == interaction.userId) = some member)
    (hr : w.SUS_ROLE_ID = some r) (ht : r ≠ "") (hyes : r ∈ w.roles member.id) :
    (Event.rolesRemove member.id r "Verified via challenge"
          ∈ newEvents w (verify_modal interaction input now env w).2
        ↔ (jsTrim input = ch.answer ∧ now ≤ ch.expiresAt))
      ∧ ((∀ n, env.outcome n (.rolesRemove member.id r "Verified via challenge") = none) →
          ((Event.rolesRemove member.id r "Verified via challenge"
                ∈ newEvents w (verify_modal interaction input now env w).2
              ∧ storeGet (verify_modal interaction input now env w).2.challengeStore
                  (challengeKey interaction) = none)
            ↔ (jsTrim input = ch.answer ∧ now ≤ ch.expiresAt))) := by
  by_cases hexp : now > ch.expiresAt
  · have h1 := (verifyModal_expired env w interaction input now ch hch hexp).1
    have hnot : Event.rolesRemove member.id r "Verified via challenge"
        ∉ newEvents w (verify_modal interaction input now env w).2 := by
      rw [newEvents_append _ _ _ h1]; simp
    have hle : ¬ now ≤ ch.expiresAt := by omega
    exact ⟨by simp [hnot, hle], fun _ => by simp [hnot, hle]⟩
  · by_cases hans : jsTrim input = ch.answer
    · have hrun := verifyModal_marked env w interaction input now ch member r hch hexp hans hg
        hmf hm hr ht hyes
      have hle : now ≤ ch.expiresAt := by omega
      have hreq : Event.rolesRemove member.id r "Verified via challenge"
          ∈ newEvents w (verify_modal interaction input now env w).2 := by
        have hp := verifyModalTail_trace env { w with trace := w.trace ++
          [.guildsFetch interaction.guildId, .membersFetch interaction.userId, .deferReply] }
          interaction member r
        rw [← hrun] at hp
        refine mem_newEvents_of_prefix w _ ([.guildsFetch interaction.guildId,
          .membersFetch interaction.userId, .deferReply] ++ [Event.queueAdd,
            Event.rolesRemove member.id r "Verified via challenge"]) _ ?_ (by simp)
        simpa [List.append_assoc] using hp
      refine ⟨by simp [hreq, hans, hle], fun hacc => ?_⟩
      have hdel := verifyModalTail_accepted env { w with trace := w.trace ++
          [.guildsFetch interaction.guildId, .membersFetch interaction.userId, .deferReply] }
          interaction member r hacc
      rw [← hrun] at hdel
      simp [hreq, hans, hle, hdel]
    · have h1 := (verifyModal_wrong env w interaction input now ch hch hexp hans).1
      have hnot : Event.rolesRemove member.id r "Verified via challenge"
          ∉ newEvents w (verify_modal interaction input now env w).2 := by
        rw [newEvents_append _ _ _ h1]; simp
      exact ⟨by simp [hnot, hans], fun _ => by simp [hnot, hans]⟩

/-- Witness of C2 amended: a correct answer with surrounding blanks, submitted at
`now = expiresAt` by a member who holds the marker role. -/
theorem verify_modal_removal_iff_witness :
    (Event.rolesRemove "u" "r" "Verified via challenge"
          ∈ newEvents (sampleWorld ["word"] ["r"] [("g-u", sampleChallenge)] 30)
              (verify_modal ⟨"g", "u"⟩ " abcdef " 5000 sampleEnv
                (sampleWorld ["word"] ["r"] [("g-u", sampleChallenge)] 30)).2
        ↔ (jsTrim " abcdef " = sampleChallenge.answer ∧ 5000 ≤ sampleChallenge.expiresAt)) ∧
    ((Event.rolesRemove "u" "r" "Verified via challenge"
          ∈ newEvents (sampleWorld ["word"] ["r"] [("g-u", sampleChallenge)] 30)
              (verify_modal ⟨"g", "u"⟩ " abcdef " 5000 sampleEnv
                (sampleWorld ["word"] ["r"] [("g-u", sampleChallenge)] 30)).2
        ∧ storeGet (verify_modal ⟨"g", "u"⟩ " abcdef " 5000 sampleEnv
              (sampleWorld ["word"] ["r"] [("g-u", sampleChallenge)] 30)).2.challengeStore
            (challengeKey ⟨"g", "u"⟩) = none)
      ↔ (jsTrim " abcdef " = sampleChallenge.answer ∧ 5000 ≤ sampleChallenge.expiresAt)) :=
  ⟨(verify_modal_removal_iff sampleEnv
      (sampleWorld ["word"] ["r"] [("g-u", sampleChallenge)] 30)
      ⟨"g", "u"⟩ " abcdef " 5000 sampleChallenge alice "r" (by decide) (fun _ => rfl)
      (fun _ => rfl) (by decide) rfl (by decide) (by decide)).1,
   (verify_modal_removal_iff sampleEnv
      (sampleWorld ["word"] ["r"] [("g-u", sampleChallenge)] 30)
      ⟨"g", "u"⟩ " abcdef " 5000 sampleChallenge alice "r" (by decide) (fun _ => rfl)
      (fun _ => rfl) (by decide) rfl (by decide) (by decide)).2 (fun _ => rfl)⟩

/-- Claim C3: for every stored challenge and every submitted answer, a
`verify_modal` submission made after `expiresAt` is answered with the expired
reply and nothing else (so no role removal is requested), and the store has no
entry for the key afterwards. -/
theorem verify_modal_expired_rejected (env : Env) (w : World) (interaction : Interaction)
    (input : String) (now : Nat) (ch : Challenge)
    (hch : storeGet w.challengeStore (challengeKey interaction) = some ch)
    (hexp : now > ch.expiresAt) :
    (verify_modal interaction input now env w).2.trace = w.trace ++
        [Event.safeInteractionReply "Challenge expired. Click Verify again to start a new one."
          false]
      ∧ storeGet (verify_modal interaction input now env w).2.challengeStore
          (challengeKey interaction) = none :=
  verifyModal_expired env w interaction input now ch hch hexp

/-- Witness of C3: the correct answer, one millisecond after `expiresAt`. -/
theorem verify_modal_expired_rejected_witness :
    5001 > sampleChallenge.expiresAt ∧
    storeGet (verify_modal ⟨"g", "u"⟩ "abcdef" 5001 sampleEnv
        (sampleWorld ["word"] ["r"] [("g-u", sampleChallenge)] 30)).2.challengeStore
      (challengeKey ⟨"g", "u"⟩) = none :=
  ⟨by decide,
   (verify_modal_expired_rejected sampleEnv
      (sampleWorld ["word"] ["r"] [("g-u", sampleChallenge)] 30) ⟨"g", "u"⟩ "abcdef" 5001
      sampleChallenge (by decide) (by decide)).2⟩

/-- Claim C4: for every unexpired stored challenge and every submitted answer
that differs from the expected answer after trimming, the `verify_modal`
submission leaves the challenge store unchanged (the same challenge stays under
the key) and is answered with the incorrect-answer reply and nothing else (so
no role removal is requested). -/
theorem verify_modal_wrong_answer_keeps_challenge (env : Env) (w : World)
    (interaction : Interaction) (input : String) (now : Nat) (ch : Challenge)
    (hch : storeGet w.challengeStore (challengeKey interaction) = some ch)
    (hexp : ¬ now > ch.expiresAt) (hne : jsTrim input ≠ ch.answer) :
    (verify_modal interaction input now env w).2.challengeStore = w.challengeStore
      ∧ storeGet (verify_modal interaction input now env w).2.challengeStore
          (challengeKey interaction) = some ch
      ∧ (verify_modal interaction input now env w).2.trace = w.trace ++
        [Event.safeInteractionReply
          "âŒ Incorrect answer. Click Verify again to try another challenge." false] := by
  have h := verifyModal_wrong env w interaction input now ch hch hexp hne
  exact ⟨h.2, by rw [h.2]; exact hch, h.1⟩

/-- Witness of C4: an answer that differs from the expected one in the case of
its first letter. -/
theorem verify_modal_wrong_answer_keeps_challenge_witness :
    jsTrim " Abcdef " ≠ sampleChallenge.answer ∧
    (verify_modal ⟨"g", "u"⟩ " Abcdef " 5000 sampleEnv
        (sampleWorld ["word"] ["r"] [("g-u", sampleChallenge)] 30)).2.challengeStore
      = [("g-u", sampleChallenge)] :=
  ⟨by decide,
   (verify_modal_wrong_answer_keeps_challenge sampleEnv
      (sampleWorld ["word"] ["r"] [("g-u", sampleChallenge)] 30) ⟨"g", "u"⟩ " Abcdef " 5000
      sampleChallenge (by decide) (by decide) (by decide)).1⟩


/-- Claim C5: for every sequence of draws in [0,1), the expected answer of a
generated word challenge has length exactly 6, each of its characters is one of
the 26 lowercase letters a-z, and every index into the alphabet is in bounds. -/
theorem word_answer_six_lowercase (rand : Nat → Draw) (k now : Nat)
    (h : ∀ i, (rand i).inUnit) :
    (wordChallenge rand k now).answer.length = 6 ∧
      (∀ c ∈ (wordChallenge rand k now).answer.data,
        c ∈ letters.data ∧ 'a' ≤ c ∧ c ≤ 'z') ∧
      ∀ i, floorMul (rand i) letters.length < letters.length := by
  have hs := wordLoop_spec rand k h 6
  refine ⟨hs.1, fun c hc => ⟨hs.2 c hc, ?_⟩, fun i => floorMul_lt _ _ (h i) (by decide)⟩
  have hall : ∀ x ∈ letters.data, 'a' ≤ x ∧ x ≤ 'z' := by decide
  exact hall c (hs.2 c hc)

/-- Witness of C5: every draw is one half, so every letter is the letter with
index 13. -/
theorem word_answer_six_lowercase_witness :
    (∀ i, (halfDraws i).inUnit) ∧
    (wordChallenge halfDraws 1 0).answer = "nnnnnn" ∧
    (wordChallenge halfDraws 1 0).answer.length = 6 :=
  ⟨fun _ => (by decide : (Draw.mk 1 1).inUnit), by decide,
   (word_answer_six_lowercase halfDraws 1 0 (fun _ => (by decide : (Draw.mk 1 1).inUnit))).1⟩

/-- Claim C6: for every sequence of draws in [0,1), a generated math challenge
has both operands in [1,12], its prompt is `a + b` or `a * b` for those
operands, and its expected answer is the decimal rendering of the sum when the
operator is `+` and of the product when the operator is `*`. -/
theorem math_answer_evaluates_prompt (rand : Nat → Draw) (k now : Nat)
    (h : ∀ i, (rand i).inUnit) :
    ∃ a b : Nat, 1 ≤ a ∧ a ≤ 12 ∧ 1 ≤ b ∧ b ≤ 12 ∧
      (((mathChallenge rand k now).prompt = some (toString a ++ " + " ++ toString b) ∧
          (mathChallenge rand k now).answer = toString (a + b)) ∨
        ((mathChallenge rand k now).prompt = some (toString a ++ " * " ++ toString b) ∧
          (mathChallenge rand k now).answer = toString (a * b))) := by
  have ha := floorMul_lt (rand k) 12 (h _) (by decide)
  have hb := floorMul_lt (rand (k + 1)) 12 (h _) (by decide)
  refine ⟨floorMul (rand k) 12 + 1, floorMul (rand (k + 1)) 12 + 1, by omega, by omega,
    by omega, by omega, ?_⟩
  unfold mathChallenge
  cases ltPoint6 (rand (k + 2))
  · right
    simp [String.append_assoc]
  · left
    simp [String.append_assoc]

/-- Witness of C6: every draw is one half, so both operands are 7 and the
operator is `+`. -/
theorem math_answer_evaluates_prompt_witness :
    (∀ i, (halfDraws i).inUnit) ∧
    (mathChallenge halfDraws 1 0).prompt = some "7 + 7" ∧
    (mathChallenge halfDraws 1 0).answer = "14" ∧
    ∃ a b : Nat, 1 ≤ a ∧ a ≤ 12 ∧ 1 ≤ b ∧ b ≤ 12 ∧
      (((mathChallenge halfDraws 1 0).prompt = some (toString a ++ " + " ++ toString b) ∧
          (mathChallenge halfDraws 1 0).answer = toString (a + b)) ∨
        ((mathChallenge halfDraws 1 0).prompt = some (toString a ++ " * " ++ toString b) ∧
          (mathChallenge halfDraws 1 0).answer = toString (a * b))) :=
  ⟨fun _ => (by decide : (Draw.mk 1 1).inUnit), by decide, by decide,
   math_answer_evaluates_prompt halfDraws 1 0 (fun _ => (by decide : (Draw.mk 1 1).inUnit))⟩

theorem restrict_accepted_run (env : Env) (w : World) (member : Member) (reason r : String)
    (hr : w.SUS_ROLE_ID = some r) (ht : r ≠ "") (hno : r ∉ w.roles member.id)
    (hok : env.outcome (w.trace.length + 1) (.rolesAdd member.id r reason) = none) :
    (addSusRoleToMember member reason env w).1 = .ok ()
    ∧ (∃ evs, (addSusRoleToMember member reason env w).2.trace
          = w.trace ++ ([Event.queueAdd, Event.rolesAdd member.id r reason] ++ evs)
        ∧ ∀ e ∈ evs, e.isRolesAdd = false)
    ∧ (addSusRoleToMember member reason env w).2.SUS_ROLE_ID = w.SUS_ROLE_ID
    ∧ (addSusRoleToMember member reason env w).2.roles = w.roles := by
  have hadd := rolesAdd_accepted env (w.push .queueAdd) member r reason
    (by simpa [World.push] using hok)
  have h1 : addSusRoleToMember member reason env w = _ :=
    (addSus_unmarked env w member reason r hr ht hno).trans
      (addSusTask_run env (w.push .queueAdd) member reason r)
  rw [hadd] at h1
  dsimp only at h1
  generalize hw1 : ({ (w.push .queueAdd) with
      trace := (w.push .queueAdd).trace ++ [Event.rolesAdd member.id r reason] } : World)
    = w1 at h1
  have hk := afterAdd_keeps member env w1
  have hres := tryCatch_emit_ok
    (logToChannel (formatUserBlock member (getMemberPlatforms member)) none
      >>= fun _ => sendImmediateMention member.id)
    (.consoleError "addSusRoleToMember error") env w1
  rw [← h1] at hk hres
  obtain ⟨⟨e2, ht2, hp2⟩, -, hs2, -, -, hroles2⟩ := hk
  refine ⟨hres, ⟨e2, ?_, hp2⟩, ?_, ?_⟩
  · rw [ht2, ← hw1]; simp [World.push]
  · rw [hs2, ← hw1]; rfl
  · rw [hroles2 rfl, ← hw1]; rfl

theorem restrict_twice_at_once (env : Env) (w : World) (member : Member) (reason r : String)
    (hr : w.SUS_ROLE_ID = some r) (ht : r ≠ "") (hno : r ∉ w.roles member.id)
    (hacc : ∀ n, env.outcome n (.rolesAdd member.id r reason) = none) :
    (newEvents w ((addSusRoleToMember member reason >>= fun _ =>
        addSusRoleToMember member reason) env w).2).countP Event.isRolesAdd = 2 := by
  obtain ⟨hres, ⟨e1, ht1, hp1⟩, hs1, hroles1⟩ :=
    restrict_accepted_run env w member reason r hr ht hno (hacc _)
  rcases hrun : addSusRoleToMember member reason env w with ⟨res, w2⟩
  rw [hrun] at hres ht1 hs1 hroles1
  dsimp only at hres ht1 hs1 hroles1
  subst hres
  obtain ⟨-, ⟨e2, ht2, hp2⟩, -, -⟩ :=
    restrict_accepted_run env w2 member reason r (hs1.trans hr) ht (by rw [hroles1]; exact hno)
      (hacc _)
  have htrace : ((addSusRoleToMember member reason >>= fun _ =>
      addSusRoleToMember member reason) env w).2.trace
      = w.trace ++ ([Event.queueAdd, Event.rolesAdd member.id r reason] ++ e1
          ++ ([Event.queueAdd, Event.rolesAdd member.id r reason] ++ e2)) := by
    rw [Act.bind_run, Act.andThen_ok hrun, ht2, ht1]
    simp
  rw [newEvents_append _ _ _ htrace]
  simp only [List.countP_append, List.countP_eq_zero.2 (fun e he => by simpa using hp1 e he),
    List.countP_eq_zero.2 (fun e he => by simpa using hp2 e he)]
  rfl

/-- Claim C7, counterexample: the member does not hold the marker role and the
platform accepts every call.  Nothing writes to `member.roles.cache` between the
two calls, so restrict followed at once by restrict makes two role-add calls,
not one.  And when the first `member.roles.add` call times out, it is retried:
two role-add calls are made even if the cache shows the role before the second
restrict. -/
theorem restrict_twice_two_adds :
    "r" ∉ (sampleWorld ["button"] [] [] 30).roles alice.id ∧
    (newEvents (sampleWorld ["button"] [] [] 30)
      ((addSusRoleToMember alice "Marked Sus" >>= fun _ =>
        addSusRoleToMember alice "Marked Sus") sampleEnv
          (sampleWorld ["button"] [] [] 30)).2).countP Event.isRolesAdd = 2 ∧
    (newEvents (sampleWorld ["button"] [] [] 30)
      (addSusRoleToMember alice "Marked Sus" flakyEnv
        { (addSusRoleToMember alice "Marked Sus" flakyEnv
            (sampleWorld ["button"] [] [] 30)).2 with
          roles := fun _ => ["r"] }).2).countP Event.isRolesAdd = 2 :=
  ⟨by decide,
   restrict_twice_at_once sampleEnv (sampleWorld ["button"] [] [] 30) alice "Marked Sus" "r"
     rfl (by decide) (by decide) (fun _ => rfl),
   by decide⟩

/-- Claim C7, amended: for every member who does not hold the marker role, when
the platform accepts the first `member.roles.add` call and
`member.roles.cache` shows the marker role when `addSusRoleToMember` is called
again, the two calls of `addSusRoleToMember` make exactly one
`member.roles.add` call in total. -/
theorem restrict_twice_one_add (env : Env) (w : World) (member : Member) (reason r : String)
    (cache : String → List String)
    (hr : w.SUS_ROLE_ID = some r) (ht : r ≠ "") (hno : r ∉ w.roles member.id)
    (hok : env.outcome (w.trace.length + 1) (.rolesAdd member.id r reason) = none)
    (hyes : r ∈ cache member.id) :
    (newEvents w (addSusRoleToMember member reason env
      { (addSusRoleToMember member reason env w).2 with roles := cache }).2).countP
        Event.isRolesAdd = 1 := by
  have hP : ∀ e : Event, e.isNotice = true → e.isRolesAdd = false := by
    intro e; cases e <;> simp [Event.isNotice, Event.isRolesAdd]
  obtain ⟨-, ⟨e1, ht1, hp1⟩, hs1, -⟩ :=
    restrict_accepted_run env w member reason r hr ht hno hok
  rcases hrun : addSusRoleToMember member reason env w with ⟨res, w2⟩
  rw [hrun] at ht1 hs1
  dsimp only at ht1 hs1 ⊢
  have h3 := logToChannel_keeps hP (formatUserBlock member (getMemberPlatforms member)) none
    env { w2 with roles := cache }
  rw [← addSus_marked env { w2 with roles := cache } member reason r (hs1.trans hr) ht hyes]
    at h3
  obtain ⟨⟨e3, ht3, hp3⟩, -⟩ := h3
  have htrace : (addSusRoleToMember member reason env { w2 with roles := cache }).2.trace
      = w.trace ++ ([Event.queueAdd, Event.rolesAdd member.id r reason] ++ e1 ++ e3) := by
    rw [ht3]
    dsimp only
    rw [ht1]
    simp
  rw [newEvents_append _ _ _ htrace]
  simp only [List.countP_append, List.countP_eq_zero.2 (fun e he => by simpa using hp1 e he),
    List.countP_eq_zero.2 (fun e he => by simpa using hp3 e he)]
  rfl

/-- Witness of C7 amended: a platform that accepts every call, and a cache that
shows the marker role `r` for every member at the second call. -/
theorem restrict_twice_one_add_witness :
    "r" ∉ (sampleWorld ["button"] [] [] 30).roles alice.id ∧
    (newEvents (sampleWorld ["button"] [] [] 30)
      (addSusRoleToMember alice "Marked Sus" sampleEnv
        { (addSusRoleToMember alice "Marked Sus" sampleEnv
            (sampleWorld ["button"] [] [] 30)).2 with
          roles := fun _ => ["r"] }).2).countP Event.isRolesAdd = 1 :=
  ⟨by decide,
   restrict_twice_one_add sampleEnv (sampleWorld ["button"] [] [] 30) alice "Marked Sus" "r"
      (fun _ => ["r"]) rfl (by decide) (by decide) rfl (by decide)⟩

/-- Claim C8: for every member who does not hold the marker role,
`removeSusRoleFromMember` returns with the world unchanged: the trace gets no
new entry, so nothing is enqueued, no role-remove is called and no audit record
is emitted. -/
theorem unrestrict_unmarked_no_calls (env : Env) (w : World) (member : Member)
    (byUser : Option Actor) (reason : String)
    (h : ∀ r, w.SUS_ROLE_ID = some r → r ∉ w.roles member.id) :
    removeSusRoleFromMember member byUser reason env w = (.ok (), w) :=
  removeSus_noop env w member byUser reason h

/-- Witness of C8: a member who holds another role, not the marker role. -/
theorem unrestrict_unmarked_no_calls_witness :
    "r" ∉ (sampleWorld ["button"] ["other"] [] 30).roles alice.id ∧
    (removeSusRoleFromMember alice none "Verified" sampleEnv
      (sampleWorld ["button"] ["other"] [] 30)).2.trace = [] :=
  ⟨by decide,
   congrArg (fun x => x.2.trace)
     (unrestrict_unmarked_no_calls sampleEnv (sampleWorld ["button"] ["other"] [] 30) alice
       none "Verified" (fun r hr => by
         have : r = "r" := (Option.some.inj hr).symm
         subst this
         decide))⟩

/-- Claim C9, the code at the failing input: with `periodicMentionDeleteSeconds`
equal to 0 the default of 30 seconds is taken before the guard is reached, and
`sendImmediateMention` sends the mention and schedules its deletion after
30000 ms; with the value -1 it sends nothing. -/
theorem mention_sent_at_zero_ttl :
    (sendImmediateMention "u" sampleEnv (sampleWorld ["button"] [] [] 0)).2.trace
      = [.channelsFetch "v", .send "v" (mentionText "u"),
         .setTimeoutDelete "v" (mentionText "u") 30000] ∧
    (sendImmediateMention "u" sampleEnv (sampleWorld ["button"] [] [] (-1))).2.trace = [] := by
  decide

/-- Claim C10, which the code departs from: the member does not hold the marker
role and `member.roles.add` is rejected with a non-transient error at the first
attempt, so the role-add has failed; yet the audit record is written and the
mention, which the comment on `sendImmediateMention` announces for "when Sus is
assigned", is sent and scheduled for deletion. -/
theorem restrict_notifies_after_failed_add :
    "r" ∉ (sampleWorld ["button"] [] [] 30).roles alice.id ∧
    thrown (withRetries (rolesAdd alice "r" "Marked Sus") 3 1000 rejectingEnv
        ((sampleWorld ["button"] [] [] 30).push .queueAdd)).1
      = some (.object (some "50013") none) ∧
    (addSusRoleToMember alice "Marked Sus" rejectingEnv (sampleWorld ["button"] [] [] 30)).2.trace
      = [.queueAdd, .rolesAdd "u" "r" "Marked Sus",
         .consoleLog (formatUserBlock alice ["web"]),
         .channelsFetch "v", .send "v" (mentionText "u"),
         .setTimeoutDelete "v" (mentionText "u") 30000] := by
  refine ⟨?_, ?_, ?_⟩ <;> decide

/-- The notices of a restrict do not depend on the role-add: for every restrict
of a member who does not hold the marker role, the audit record and the mention
are emitted after the role-add action whatever its outcome (no assumption is
made on the `member.roles.add` calls: a failure is swallowed).  With a positive TTL, a text prompt channel and
a platform that accepts the other calls, the calls of the restrict are the
enqueueing, then the role-add attempts with their retry warnings and pauses,
then calls among which the audit text is delivered and the mention is sent. -/
theorem restrict_notifies_whatever_the_add (env : Env) (w : World) (member : Member)
    (reason r : String) (cfg : Config) (vch : Channel)
    (hr : w.SUS_ROLE_ID = some r) (ht : r ≠ "") (hno : r ∉ w.roles member.id)
    (hcfg : w.config = some cfg) (httl : 0 < cfg.periodicMentionDeleteSeconds)
    (hacc : ∀ n e, e.isRolesAdd = false → env.outcome n e = none)
    (hv : env.channel env.VERIFY_CHANNEL_ID = some vch) (hvt : vch.textBased = true) :
    ∃ pre post, newEvents w (addSusRoleToMember member reason env w).2
        = Event.queueAdd :: pre ++ post
      ∧ (∀ e ∈ pre, e.isRolesAdd = true ∨ e.isRetryNoise = true)
      ∧ (∃ e ∈ post, e.isAudit (formatUserBlock member (getMemberPlatforms member)) = true)
      ∧ Event.send vch.id (mentionText member.id) ∈ post := by
  have h1 : addSusRoleToMember member reason env w = _ :=
    (addSus_unmarked env w member reason r hr ht hno).trans
      (addSusTask_run env (w.push .queueAdd) member reason r)
  obtain ⟨⟨pre, htr, hpre⟩, hc1, -⟩ := rolesAdd_retry_keeps member r reason 3 1000 env
    (w.push .queueAdd)
  generalize (withRetries (rolesAdd member r reason) 3 1000 env (w.push .queueAdd)).2 = w1
    at h1 htr hc1
  have hcfg1 : w1.config = some cfg := by rw [hc1]; exact hcfg
  have hlog := logToChannel_accepted env w1 (formatUserBlock member (getMemberPlatforms member))
    hacc
  have hrun : addSusRoleToMember member reason env w = (.ok (), { w1 with
      trace := w1.trace ++ auditEvents env w1 (formatUserBlock member (getMemberPlatforms member))
        ++ [.channelsFetch env.VERIFY_CHANNEL_ID, .send vch.id (mentionText member.id),
          .setTimeoutDelete vch.id (mentionText member.id)
            (cfg.periodicMentionDeleteSeconds * 1000)] }) := by
    have hm := sendImmediateMention_accepted env
      { w1 with trace := (w1.trace
          ++ auditEvents env w1 (formatUserBlock member (getMemberPlatforms member))) }
      member.id cfg vch hcfg1 httl hacc hv hvt
    rw [h1]
    unfold Act.tryCatch
    rw [Act.bind_run, Act.andThen_ok hlog, hm]
  refine ⟨pre, auditEvents env w1 (formatUserBlock member (getMemberPlatforms member))
        ++ [.channelsFetch env.VERIFY_CHANNEL_ID, .send vch.id (mentionText member.id),
          .setTimeoutDelete vch.id (mentionText member.id)
            (cfg.periodicMentionDeleteSeconds * 1000)], ?_, hpre, ?_, by simp⟩
  · apply newEvents_append
    rw [hrun]
    simp [htr, World.push]
  · obtain ⟨e, he, ha⟩ := auditEvents_has_audit env w1
      (formatUserBlock member (getMemberPlatforms member))
    exact ⟨e, List.mem_append_left _ he, ha⟩

/-- An instance of the theorem before: a platform on which every `member.roles.add` times
out, so that the role-add fails with transient errors on all attempts. -/
theorem restrict_notifies_whatever_the_add_witness :
    "r" ∉ (sampleWorld ["button"] [] [] 30).roles alice.id ∧
    ∃ pre post, newEvents (sampleWorld ["button"] [] [] 30)
          (addSusRoleToMember alice "Marked Sus" timeoutEnv
            (sampleWorld ["button"] [] [] 30)).2
        = Event.queueAdd :: pre ++ post
      ∧ (∀ e ∈ pre, e.isRolesAdd = true ∨ e.isRetryNoise = true)
      ∧ (∃ e ∈ post, e.isAudit (formatUserBlock alice (getMemberPlatforms alice)) = true)
      ∧ Event.send "v" (mentionText alice.id) ∈ post :=
  ⟨by decide,
   restrict_notifies_whatever_the_add timeoutEnv (sampleWorld ["button"] [] [] 30) alice
      "Marked Sus" "r" _ { id := "v", textBased := true } rfl (by decide) (by decide) rfl
      (by decide) (fun n e h => by simp [timeoutEnv, h]) rfl rfl⟩


/-! ## Retries -/

theorem withRetriesFrom_ok {α : Type} {fn : Act α} {env : Env} {w w1 : World} {a : α}
    (base n i : Nat) (last : JsError) (h : fn env w = (.ok a, w1)) :
    withRetriesFrom fn base (n + 1) i last env w = (.ok a, w1) := by
  simp [withRetriesFrom, Act.tryCatch, h]

theorem withRetriesFrom_fatal {α : Type} {fn : Act α} {env : Env} {w w1 : World} {e : JsError}
    (base n i : Nat) (last : JsError) (h : fn env w = (.error e, w1))
    (he : isTimeout e = false) :
    withRetriesFrom fn base (n + 1) i last env w = (.error e, w1) := by
  simp [withRetriesFrom, Act.tryCatch, h, he]

theorem withRetriesFrom_transient {α : Type} {fn : Act α} {env : Env} {w w1 : World}
    {e : JsError} (base n i : Nat) (last : JsError) (h : fn env w = (.error e, w1))
    (he : isTimeout e = true) :
    withRetriesFrom fn base (n + 1) i last env w
      = withRetriesFrom fn base n (i + 1) e env (backoff w1 base i) := by
  simp [withRetriesFrom, Act.tryCatch, h, he, Act.andThen, backoff]

theorem withRetriesFrom_count {α : Type} (P : Event → Bool) (fn : Act α) (hfn : Act.Ticks P fn)
    (hw : ∀ t, P (.consoleWarn t) = false) (hs : ∀ ms, P (.sleep ms) = false) (base : Nat)
    (env : Env) :
    ∀ n i last w, ∃ evs, (withRetriesFrom fn base n i last env w).2.trace = w.trace ++ evs
      ∧ evs.countP P ≤ n ∧ (0 < n → 0 < evs.countP P)
  | 0, _, last, w => ⟨[], by simp [withRetriesFrom], by simp, by simp⟩
  | n + 1, i, last, w => by
    obtain ⟨evs, htr, hc⟩ := hfn env w
    rcases hrun : fn env w with ⟨res, w1⟩
    rw [hrun] at htr
    dsimp only at htr
    cases res with
    | ok a =>
      rw [withRetriesFrom_ok base n i last hrun]
      exact ⟨evs, htr, by omega, fun _ => by omega⟩
    | error e =>
      by_cases he : isTimeout e = true
      · rw [withRetriesFrom_transient base n i last hrun he]
        obtain ⟨evs2, htr2, hc2, -⟩ := withRetriesFrom_count P fn hfn hw hs base env n (i + 1) e
          (backoff w1 base i)
        refine ⟨evs ++ ([.consoleWarn ("Transient error (attempt " ++ toString (i + 1)
            ++ "). Retrying in " ++ toString (retryDelay base i) ++ "ms..."),
          .sleep (retryDelay base i)] ++ evs2), ?_, ?_, ?_⟩
        · rw [htr2]
          simp [backoff, htr]
        · simp only [List.countP_append, hc]
          simp [List.countP_cons, hw, hs]
          omega
        · intro _
          simp only [List.countP_append, hc]
          omega
      · rw [withRetriesFrom_fatal base n i last hrun (by simpa using he)]
        exact ⟨evs, htr, by omega, fun _ => by omega⟩

/-- Claim C11: for every task and `attempts = 3`, `withRetries` returns the result
of the first invocation that succeeds; a non-transient failure of an invocation
is thrown at once, from the world that invocation left; when all three
invocations fail with transient errors the error of the third is thrown; and
for a task whose invocations can be counted in the trace, the task is invoked
at least once and at most three times. -/
theorem withRetries_three_attempts {α : Type} (fn : Act α) (base : Nat) (env : Env)
    (w : World) :
    (∀ a w1, fn env w = (.ok a, w1) → withRetries fn 3 base env w = (.ok a, w1)) ∧
    (∀ e w1, fn env w = (.error e, w1) → isTimeout e = false →
      withRetries fn 3 base env w = (.error e, w1)) ∧
    (∀ e1 w1, fn env w = (.error e1, w1) → isTimeout e1 = true →
      (∀ a w2, fn env (backoff w1 base 0) = (.ok a, w2) →
        withRetries fn 3 base env w = (.ok a, w2)) ∧
      (∀ e w2, fn env (backoff w1 base 0) = (.error e, w2) → isTimeout e = false →
        withRetries fn 3 base env w = (.error e, w2)) ∧
      (∀ e2 w2, fn env (backoff w1 base 0) = (.error e2, w2) → isTimeout e2 = true →
        (∀ a w3, fn env (backoff w2 base 1) = (.ok a, w3) →
          withRetries fn 3 base env w = (.ok a, w3)) ∧
        (∀ e w3, fn env (backoff w2 base 1) = (.error e, w3) → isTimeout e = false →
          withRetries fn 3 base env w = (.error e, w3)) ∧
        (∀ e3 w3, fn env (backoff w2 base 1) = (.error e3, w3) → isTimeout e3 = true →
          withRetries fn 3 base env w = (.error e3, backoff w3 base 2)))) ∧
    (∀ P : Event → Bool, Act.Ticks P fn → (∀ t, P (.consoleWarn t) = false) →
      (∀ ms, P (.sleep ms) = false) →
      1 ≤ (newEvents w (withRetries fn 3 base env w).2).countP P ∧
      (newEvents w (withRetries fn 3 base env w).2).countP P ≤ 3) := by
  refine ⟨fun a w1 h => withRetriesFrom_ok base 2 0 _ h,
    fun e w1 h he => withRetriesFrom_fatal base 2 0 _ h he, ?_, ?_⟩
  · intro e1 w1 h1 he1
    have s1 : withRetries fn 3 base env w
        = withRetriesFrom fn base 2 1 e1 env (backoff w1 base 0) :=
      withRetriesFrom_transient base 2 0 _ h1 he1
    refine ⟨fun a w2 h => s1.trans (withRetriesFrom_ok base 1 1 _ h),
      fun e w2 h he => s1.trans (withRetriesFrom_fatal base 1 1 _ h he), ?_⟩
    intro e2 w2 h2 he2
    have s2 := s1.trans (withRetriesFrom_transient base 1 1 _ h2 he2)
    refine ⟨fun a w3 h => s2.trans (withRetriesFrom_ok base 0 2 _ h),
      fun e w3 h he => s2.trans (withRetriesFrom_fatal base 0 2 _ h he), ?_⟩
    intro e3 w3 h3 he3
    rw [s2, withRetriesFrom_transient base 0 2 _ h3 he3]
    rfl
  · intro P hfn hw hs
    obtain ⟨evs, htr, hle, hpos⟩ := withRetriesFrom_count P fn hfn hw hs base env 3 0 .falsy w
    have : newEvents w (withRetries fn 3 base env w).2 = evs := newEvents_append _ _ _ htr
    rw [this]
    exact ⟨hpos (by decide), hle⟩

theorem rolesAdd_ticks (member : Member) (r reason : String) :
    Act.Ticks Event.isRolesAdd (rolesAdd member r reason) := by
  intro env w
  refine ⟨[.rolesAdd member.id r reason], ?_, rfl⟩
  unfold rolesAdd
  simp only [Act.bind_run, Act.andThen, Act.call]
  cases env.outcome w.trace.length (.rolesAdd member.id r reason) <;> rfl

/-- Witness of C11: the first `member.roles.add` times out, the second is
accepted; the task has been invoked twice. -/
theorem withRetries_three_attempts_witness :
    (withRetries (rolesAdd alice "r" "Marked Sus") 3 1000 flakyEnv
        ((sampleWorld ["button"] [] [] 30).push .queueAdd)).2.trace
      = [.queueAdd, .rolesAdd "u" "r" "Marked Sus",
         .consoleWarn "Transient error (attempt 1). Retrying in 1000ms...", .sleep 1000,
         .rolesAdd "u" "r" "Marked Sus"] ∧
    (newEvents ((sampleWorld ["button"] [] [] 30).push .queueAdd)
      (withRetries (rolesAdd alice "r" "Marked Sus") 3 1000 flakyEnv
        ((sampleWorld ["button"] [] [] 30).push .queueAdd)).2).countP Event.isRolesAdd ≤ 3 :=
  ⟨congrArg (fun x => x.2.trace)
      (((withRetries_three_attempts (rolesAdd alice "r" "Marked Sus") 1000 flakyEnv
        ((sampleWorld ["button"] [] [] 30).push .queueAdd)).2.2.1 _ _ rfl rfl).1 _ _ rfl),
   ((withRetries_three_attempts (rolesAdd alice "r" "Marked Sus") 1000 flakyEnv
        ((sampleWorld ["button"] [] [] 30).push .queueAdd)).2.2.2 Event.isRolesAdd
      (rolesAdd_ticks _ _ _) (fun _ => rfl) (fun _ => rfl)).2⟩


/-! ## The web-only rule -/

/-- Claim C17: for every platforms array, the matched-suspects filter of the bulk
scan and the `webOnly` test of the join handler both hold if and only if the
array has exactly one entry and that entry is `web`; so they agree on every
array. -/
theorem suspects_filter_agrees_with_web_only (platforms : List String) :
    (suspectsFilter (.array platforms) = true ↔ platforms = ["web"]) ∧
    (webOnly platforms = true ↔ platforms = ["web"]) ∧
    suspectsFilter (.array platforms) = webOnly platforms := by
  have h : webOnly platforms = true ↔ platforms = ["web"] := by
    unfold webOnly
    match platforms with
    | [] => simp
    | [a] => simp
    | a :: b :: l => simp
  have hs : suspectsFilter (.array platforms) = webOnly platforms := by
    unfold suspectsFilter webOnly
    match platforms with
    | [] => simp
    | a :: l => simp
  exact ⟨by rw [hs]; exact h, h, hs⟩

/-! ## The sweep -/

theorem sweepLoop_filter (now : Nat) :
    ∀ (todo store : List (String × Challenge)),
      sweepLoop now todo store = store.filter (fun e =>
        !(todo.any (fun t => t.1 == e.1 && (t.2.expiresAt != 0 && decide (now > t.2.expiresAt)))))
  | [], store => by simp [sweepLoop]
  | (k, v) :: rest, store => by
    unfold sweepLoop
    split
    · rename_i h
      rw [sweepLoop_filter now rest (storeDelete store k)]
      unfold storeDelete
      rw [List.filter_filter]
      apply List.filter_congr
      intro e _
      by_cases hk : k = e.1
      · subst hk
        simp [h]
      · have h3 : (k == e.1) = false := by simpa using hk
        have h4 : (e.1 != k) = true := by simpa using fun h2 : e.1 = k => hk h2.symm
        simp only [List.any_cons, h3, h4, Bool.false_and, Bool.false_or, Bool.and_true]
    · rename_i h
      rw [sweepLoop_filter now rest store]
      apply List.filter_congr
      intro e _
      have h2 : (v.expiresAt != 0 && decide (now > v.expiresAt)) = false := by
        simpa using h
      simp [h2]

theorem nodup_keys_eq (s : List (String × Challenge)) (h : (s.map Prod.fst).Nodup)
    (e t : String × Challenge) (he : e ∈ s) (ht : t ∈ s) (hk : t.1 = e.1) : t = e := by
  induction s with
  | nil => cases he
  | cons x xs ih =>
    rw [List.map_cons, List.nodup_cons] at h
    rcases List.mem_cons.1 he with he | he <;> rcases List.mem_cons.1 ht with ht | ht
    · rw [he, ht]
    · exfalso
      apply h.1
      rw [← he, ← hk]
      exact List.mem_map_of_mem _ ht
    · exfalso
      apply h.1
      rw [← ht, hk]
      exact List.mem_map_of_mem _ he
    · exact ih h.2 he ht

theorem sweepLoop_self (now : Nat) (s : List (String × Challenge))
    (h : (s.map Prod.fst).Nodup) :
    sweepLoop now s s
      = s.filter (fun e => !(e.2.expiresAt != 0 && decide (now > e.2.expiresAt))) := by
  rw [sweepLoop_filter]
  apply List.filter_congr
  intro e he
  congr 1
  by_cases hx : (e.2.expiresAt != 0 && decide (now > e.2.expiresAt)) = true
  · rw [hx, List.any_eq_true]
    exact ⟨e, he, by simp [hx]⟩
  · have hx2 : (e.2.expiresAt != 0 && decide (now > e.2.expiresAt)) = false := by
      simpa using hx
    rw [hx2]
    apply Bool.eq_false_iff.2
    intro hany
    obtain ⟨t, ht, hp⟩ := List.any_eq_true.1 hany
    have hp2 : t.1 = e.1 ∧ (t.2.expiresAt != 0 && decide (now > t.2.expiresAt)) = true := by
      simpa using hp
    have := nodup_keys_eq s h e t he ht hp2.1
    rw [this] at hp2
    exact hx hp2.2

/-- The sweep as a filter, for a store without a repeated key: the test
`v.expiresAt && now > v.expiresAt` decides what is deleted; when no entry has
an `expiresAt` of zero the first half of the test is always passed. -/
theorem sweep_filter (now : Nat) (env : Env) (w : World)
    (h : (w.challengeStore.map Prod.fst).Nodup) :
    (sweep now env w).2.challengeStore
        = w.challengeStore.filter
            (fun e => !(e.2.expiresAt != 0 && decide (now > e.2.expiresAt)))
      ∧ (sweep now env w).2.trace = w.trace
      ∧ ((∀ e ∈ w.challengeStore, e.2.expiresAt ≠ 0) →
          (sweep now env w).2.challengeStore
            = w.challengeStore.filter (fun e => !decide (now > e.2.expiresAt))) := by
  have h1 : (sweep now env w).2.challengeStore
      = w.challengeStore.filter
          (fun e => !(e.2.expiresAt != 0 && decide (now > e.2.expiresAt))) := by
    unfold sweep
    simp only [Act.update_run]
    exact sweepLoop_self now _ h
  refine ⟨h1, rfl, fun hz => ?_⟩
  rw [h1]
  apply List.filter_congr
  intro e he
  have := hz e he
  simp [this]

theorem makeChallenge_expiresAt (enabled : List String) (rand : Nat → Draw) (now : Nat) :
    (makeChallenge enabled rand now).expiresAt = now + 300000 := by
  unfold makeChallenge
  dsimp only
  split <;> rfl


/-! ## The scan helper -/

theorem scanLoop_mem (env : Env) (options : ScanOptions) (now : Nat → Nat) (r : BulkScanRow) :
    ∀ (i : Nat) (ms : List Member),
      r ∈ scanLoop env options now i ms ↔
        ∃ j m, ms[j]? = some m ∧ r = rowOf m ∧ scanKeeps env options (now (i + j)) m = true
  | _, [] => by simp [scanLoop]
  | i, m :: rest => by
    have ih := scanLoop_mem env options now r (i + 1) rest
    unfold scanLoop
    constructor
    · intro h
      have h2 : (scanKeeps env options (now i) m = true ∧ r = rowOf m)
          ∨ r ∈ scanLoop env options now (i + 1) rest := by
        split at h
        · rename_i hk
          rcases List.mem_cons.1 h with h | h
          · exact Or.inl ⟨hk, h⟩
          · exact Or.inr h
        · exact Or.inr h
      rcases h2 with ⟨hk, hr⟩ | h2
      · exact ⟨0, m, by simp, hr, by simpa using hk⟩
      · obtain ⟨j, m2, hj, hr, hk⟩ := ih.1 h2
        refine ⟨j + 1, m2, by simpa using hj, hr, ?_⟩
        rw [show i + (j + 1) = i + 1 + j by omega]
        exact hk
    · rintro ⟨j, m2, hj, hr, hk⟩
      cases j with
      | zero =>
        have hm : m = m2 := by simpa using hj
        subst hm
        rw [Nat.add_zero] at hk
        rw [if_pos hk]
        exact List.mem_cons.2 (Or.inl hr)
      | succ j =>
        have hin : r ∈ scanLoop env options now (i + 1) rest :=
          ih.2 ⟨j, m2, by simpa using hj, hr, by
            rw [show i + 1 + j = i + (j + 1) by omega]
            exact hk⟩
        split
        · exact List.mem_cons_of_mem _ hin
        · exact hin

theorem performScan_bulk (env : Env) (w : World) (options : ScanOptions) (now : Nat → Nat)
    (hm : options.member = none)
    (hok : env.outcome w.trace.length .membersFetchAll = none) :
    performScan options now env w
      = (.ok (scanLoop env options now 0 w.guildMembers), w.push .membersFetchAll) := by
  unfold performScan
  simp [hm, Act.andThen, Act.tryCatch, Act.call, hok, World.push]

/-- Claim C15: for every member enumeration and each named window, the bulk
`performScan` with that duration, when the enumeration is fetched, returns a
row for a member if and only if the member is not a bot, has a join timestamp,
and that timestamp is at least `now` minus the offset of the window; `now` is
the value of `Date.now()` while that member is examined. -/
theorem performScan_named_window (env : Env) (w : World) (now : Nat → Nat) (d : String)
    (off : Nat)
    (hd : (d, off) ∈ [("last_hour", 3600000), ("last_day", 86400000),
      ("last_week", 604800000), ("last_month", 2592000000)])
    (hok : env.outcome w.trace.length .membersFetchAll = none) (r : BulkScanRow) :
    ∃ rows, (performScan (.bulk (some d) none none) now env w).1 = .ok rows ∧
      (r ∈ rows ↔ ∃ j m, w.guildMembers[j]? = some m ∧ r = rowOf m ∧ m.user.bot = false ∧
        ∃ t, m.joinedAt = some t ∧ (now j : Int) - (off : Int) ≤ (t : Int)) := by
  rw [performScan_bulk env w _ now rfl hok]
  refine ⟨_, rfl, ?_⟩
  rw [scanLoop_mem]
  have hkeep : ∀ (n : Nat) (m : Member),
      scanKeeps env (.bulk (some d) none none) n m = true ↔
        (m.user.bot = false ∧ ∃ t, m.joinedAt = some t ∧ (n : Int) - (off : Int) ≤ (t : Int)) := by
    intro n m
    have hcases : (d = "last_hour" ∧ off = 3600000) ∨ (d = "last_day" ∧ off = 86400000)
        ∨ (d = "last_week" ∧ off = 604800000) ∨ (d = "last_month" ∧ off = 2592000000) := by
      simpa using hd
    have hms : truthy (some d) = true ∧ msBackOf d = off := by
      rcases hcases with ⟨h1, h2⟩ | ⟨h1, h2⟩ | ⟨h1, h2⟩ | ⟨h1, h2⟩ <;> subst h1 <;> subst h2 <;>
        exact ⟨by decide, by decide⟩
    have hoff : off ≠ 0 := by
      rcases hcases with ⟨_, h2⟩ | ⟨_, h2⟩ | ⟨_, h2⟩ | ⟨_, h2⟩ <;> omega
    unfold scanKeeps scanInclude ScanOptions.bulk
    cases hb : m.user.bot with
    | true => simp
    | false =>
      cases hj : m.joinedAt with
      | none => simp [hms.1]
      | some t =>
        simp only [hms.1, hms.2, Bool.true_or, Bool.false_eq_true, ↓reduceIte, Bool.not_true,
          true_and, Option.some.injEq, exists_eq_left']
        by_cases hlt : (t : Int) < (n : Int) - (off : Int)
        · simp [hlt, hoff]
          omega
        · simp [hlt, hoff]
          omega
  constructor
  · rintro ⟨j, m, hj, hr, hk⟩
    rw [Nat.zero_add] at hk
    exact ⟨j, m, hj, hr, (hkeep _ m).1 hk⟩
  · rintro ⟨j, m, hj, hr, hk⟩
    exact ⟨j, m, hj, hr, by rw [Nat.zero_add]; exact (hkeep _ m).2 hk⟩

/-- Witness of C15: with `now` at 3600500 and the window `last_hour`, a member
who joined exactly at the threshold 500 is returned. -/
theorem performScan_named_window_witness :
    ∃ rows, (performScan (.bulk (some "last_hour") none none) (fun _ => 3600500) sampleEnv
        { sampleWorld ["button"] [] [] 30 with
          guildMembers := [memberJoined "a" false (some 500), memberJoined "b" false (some 499),
            memberJoined "c" true (some 900), memberJoined "d" false none] }).1 = .ok rows ∧
      (rowOf (memberJoined "a" false (some 500)) ∈ rows ↔ ∃ (j : Nat) (m : Member),
        [memberJoined "a" false (some 500), memberJoined "b" false (some 499),
            memberJoined "c" true (some 900), memberJoined "d" false none][j]? = some m ∧
          rowOf (memberJoined "a" false (some 500)) = rowOf m ∧ m.user.bot = false ∧
          ∃ t, m.joinedAt = some t ∧ ((3600500 : Nat) : Int) - ((3600000 : Nat) : Int) ≤ (t : Int)) :=
  performScan_named_window sampleEnv _ (fun _ => 3600500) "last_hour" 3600000 (by decide) rfl _

/-- Claim C16: for every member enumeration and every valid start and end
timestamps, the bulk `performScan` with an explicit start and end, when the
enumeration is fetched, returns a row for a member if and only if the member is
not a bot, has a join timestamp, and `start ≤ joined ≤ end`; both bounds are
inclusive. -/
theorem performScan_start_end (env : Env) (w : World) (now : Nat → Nat) (s e : String)
    (a b : Int) (hs : s ≠ "") (he : e ≠ "") (ha : env.dateValue s = some a)
    (hb : env.dateValue e = some b)
    (hok : env.outcome w.trace.length .membersFetchAll = none) (r : BulkScanRow) :
    ∃ rows, (performScan (.bulk none (some s) (some e)) now env w).1 = .ok rows ∧
      (r ∈ rows ↔ ∃ (j : Nat) (m : Member), w.guildMembers[j]? = some m ∧ r = rowOf m ∧ m.user.bot = false ∧
        ∃ t, m.joinedAt = some t ∧ a ≤ (t : Int) ∧ (t : Int) ≤ b) := by
  rw [performScan_bulk env w _ now rfl hok]
  refine ⟨_, rfl, ?_⟩
  rw [scanLoop_mem]
  have hkeep : ∀ (n : Nat) (m : Member),
      scanKeeps env (.bulk none (some s) (some e)) n m = true ↔
        (m.user.bot = false ∧ ∃ t, m.joinedAt = some t ∧ a ≤ (t : Int) ∧ (t : Int) ≤ b) := by
    intro n m
    have hts : truthy (some s) = true := by simpa [truthy] using hs
    have hte : truthy (some e) = true := by simpa [truthy] using he
    unfold scanKeeps scanInclude ScanOptions.bulk
    cases hbot : m.user.bot with
    | true => simp
    | false =>
      cases hj : m.joinedAt with
      | none => simp [hts]
      | some t =>
        simp only [hts, hte, ha, hb, Bool.true_or, Bool.or_true, Bool.false_eq_true, ↓reduceIte,
          Bool.not_true, true_and, Option.some.injEq, exists_eq_left']
        by_cases h1 : (t : Int) < a
        · by_cases h2 : (t : Int) > b
          · simp [h1, h2]
          · simp [h1, h2]
        · by_cases h2 : (t : Int) > b
          · simp [h1, h2]
          · simp [h1, h2]
            omega
  constructor
  · rintro ⟨j, m, hj, hr, hk⟩
    rw [Nat.zero_add] at hk
    exact ⟨j, m, hj, hr, (hkeep _ m).1 hk⟩
  · rintro ⟨j, m, hj, hr, hk⟩
    exact ⟨j, m, hj, hr, by rw [Nat.zero_add]; exact (hkeep _ m).2 hk⟩

/-- Witness of C16: the bounds are the first and the third of November 2025. -/
theorem performScan_start_end_witness :
    ∃ rows, (performScan (.bulk none (some "2025-11-01T00:00:00Z")
        (some "2025-11-03T00:00:00Z")) (fun _ => 0) sampleEnv
        { sampleWorld ["button"] [] [] 30 with
          guildMembers := [memberJoined "a" false (some 1761955200000),
            memberJoined "b" false (some 1762128000000),
            memberJoined "c" false (some 1762128000001)] }).1 = .ok rows ∧
      (rowOf (memberJoined "b" false (some 1762128000000)) ∈ rows ↔ ∃ (j : Nat) (m : Member),
        [memberJoined "a" false (some 1761955200000),
            memberJoined "b" false (some 1762128000000),
            memberJoined "c" false (some 1762128000001)][j]? = some m ∧
          rowOf (memberJoined "b" false (some 1762128000000)) = rowOf m ∧ m.user.bot = false ∧
          ∃ t, m.joinedAt = some t ∧ (1761955200000 : Int) ≤ (t : Int)
            ∧ (t : Int) ≤ (1762128000000 : Int)) :=
  performScan_start_end sampleEnv _ (fun _ => 0) "2025-11-01T00:00:00Z" "2025-11-03T00:00:00Z"
    1761955200000 1762128000000 (by decide) (by decide) rfl rfl rfl _


/-! ## The periodic notifier -/

theorem jsSliceFromZero_initial {α : Type} (xs : List α) (e : Int) :
    jsSliceFromZero xs e <+: xs := by
  unfold jsSliceFromZero
  split <;> exact List.take_prefix _ _

theorem jsSliceFromZero_length {α : Type} (xs : List α) (e : Int) :
    ((jsSliceFromZero xs e).length : Int) =
      if e < 0 then max ((xs.length : Int) + e) 0 else min e (xs.length : Int) := by
  unfold jsSliceFromZero
  split
  · rw [List.length_take]
    omega
  · rw [List.length_take]
    omega

/-- Claim C14, counterexample: with `periodicNotifyMaxPerRun = 0` the one
restricted member is mentioned, more than the configured zero; and with
`periodicNotifyMaxPerRun = -1` and two restricted members the first is
mentioned, while no list has a length of at most -1. -/
theorem notifier_mentions_beyond_max :
    notifierTargets [alice] 0 = [alice] ∧
      ¬ (((notifierTargets [alice] 0).length : Int) ≤ 0) ∧
      notifierTargets [alice, memberJoined "b" false none] (-1) = [alice] ∧
      ¬ (((notifierTargets [alice, memberJoined "b" false none] (-1)).length : Int) ≤ -1) := by
  refine ⟨?_, ?_, ?_, ?_⟩ <;> decide

/-- The number of members `suspects.slice(0, limit)` keeps, by the sign of
`periodicNotifyMaxPerRun`. -/
theorem notifierTargets_length (suspects : List Member) (maxPerRun : Int) :
    notifierTargets suspects maxPerRun <+: suspects ∧
      notifierMentions suspects maxPerRun =
        (notifierTargets suspects maxPerRun).map (fun m => "<@" ++ m.id ++ ">") ∧
      (0 < maxPerRun →
        ((notifierTargets suspects maxPerRun).length : Int) = min (suspects.length : Int) maxPerRun ∧
        ((notifierTargets suspects maxPerRun).length : Int) ≤ maxPerRun) ∧
      (maxPerRun = 0 →
        (notifierTargets suspects maxPerRun).length = min suspects.length 2000) ∧
      (maxPerRun < 0 →
        ((notifierTargets suspects maxPerRun).length : Int) = max ((suspects.length : Int) + maxPerRun) 0) := by
  refine ⟨jsSliceFromZero_initial _ _, rfl, ?_, ?_, ?_⟩
  · intro h
    have := jsSliceFromZero_length suspects (notifierLimit suspects.length maxPerRun)
    unfold notifierTargets
    unfold notifierLimit at this ⊢
    rw [if_pos (by omega)] at this ⊢
    rw [this]
    split <;> omega
  · intro h
    have := jsSliceFromZero_length suspects (notifierLimit suspects.length maxPerRun)
    unfold notifierTargets
    unfold notifierLimit at this ⊢
    subst h
    simp only [ne_eq, not_true_eq_false, ↓reduceIte] at this ⊢
    split at this <;> omega
  · intro h
    have := jsSliceFromZero_length suspects (notifierLimit suspects.length maxPerRun)
    unfold notifierTargets
    unfold notifierLimit at this ⊢
    rw [if_pos (by omega)] at this ⊢
    rw [this]
    split <;> omega

/-- Claim C14, amended: for every list of restricted non-bot members and every
positive integer `periodicNotifyMaxPerRun`, the members mentioned in one run
are a prefix of the list, in the same order, the mentions are theirs, and their
number is the smaller of the length of the list and the value, so it is at most
the value. -/
theorem notifier_mentions_at_most_max (suspects : List Member) (maxPerRun : Int)
    (h : 0 < maxPerRun) :
    notifierTargets suspects maxPerRun <+: suspects ∧
      notifierMentions suspects maxPerRun =
        (notifierTargets suspects maxPerRun).map (fun m => "<@" ++ m.id ++ ">") ∧
      ((notifierTargets suspects maxPerRun).length : Int)
        = min (suspects.length : Int) maxPerRun ∧
      ((notifierTargets suspects maxPerRun).length : Int) ≤ maxPerRun :=
  have hl := notifierTargets_length suspects maxPerRun
  ⟨hl.1, hl.2.1, (hl.2.2.1 h).1, (hl.2.2.1 h).2⟩

/-- Witness of C14 amended: with two restricted members and the value one, the
first member is mentioned. -/
theorem notifier_mentions_at_most_max_witness :
    (0 : Int) < 1 ∧
      notifierTargets [alice, memberJoined "b" false none] 1 = [alice] ∧
      ((notifierTargets [alice, memberJoined "b" false none] 1).length : Int) ≤ 1 :=
  ⟨by decide, by decide,
   (notifier_mentions_at_most_max [alice, memberJoined "b" false none] 1 (by decide)).2.2.2⟩

theorem jsLength_append (a b : String) : jsLength (a ++ b) = jsLength a + jsLength b := by
  simp [jsLength, String.data_append]

theorem jsLength_empty : jsLength "" = 0 := rfl

theorem jsLength_space : jsLength " " = 1 := by decide

theorem weight_sum_sublist {l1 l2 : List Char} (h : l1.Sublist l2) :
    (l1.map (fun c => if c.toNat < 0x10000 then 1 else 2)).sum ≤
      (l2.map (fun c => if c.toNat < 0x10000 then 1 else 2)).sum := by
  induction h with
  | slnil => simp
  | cons a _ ih => simp only [List.map_cons, List.sum_cons]; omega
  | cons₂ a _ ih => simp only [List.map_cons, List.sum_cons]; omega

theorem jsLength_trim_le (s : String) : jsLength (jsTrim s) ≤ jsLength s := by
  unfold jsLength jsTrim
  apply weight_sum_sublist
  have h1 : (s.data.dropWhile isJsWhiteSpace).Sublist s.data := List.dropWhile_sublist _
  have h2 : ((s.data.dropWhile isJsWhiteSpace).reverse.dropWhile isJsWhiteSpace).Sublist
      (s.data.dropWhile isJsWhiteSpace).reverse := List.dropWhile_sublist _
  have h3 := h2.reverse
  rw [List.reverse_reverse] at h3
  exact h3.trans h1

theorem packStep_bound (st : String × List String) (m : String) (hm : jsLength m ≤ safeLimit)
    (h1 : jsLength st.1 ≤ safeLimit) (h2 : ∀ t ∈ st.2, jsLength t ≤ safeLimit) :
    jsLength (packStep st m).1 ≤ safeLimit ∧ ∀ t ∈ (packStep st m).2, jsLength t ≤ safeLimit := by
  unfold packStep
  split
  · refine ⟨hm, ?_⟩
    split
    · intro t ht
      rcases List.mem_append.1 ht with ht | ht
      · exact h2 t ht
      · rw [List.mem_singleton.1 ht]
        exact (jsLength_trim_le _).trans h1
    · exact h2
  · rename_i hle
    exact ⟨Nat.le_of_not_gt hle, h2⟩

theorem foldl_packStep_bound (ms : List String) :
    ∀ (st : String × List String), (∀ m ∈ ms, jsLength m ≤ safeLimit) →
      jsLength st.1 ≤ safeLimit → (∀ t ∈ st.2, jsLength t ≤ safeLimit) →
      jsLength (ms.foldl packStep st).1 ≤ safeLimit ∧
        ∀ t ∈ (ms.foldl packStep st).2, jsLength t ≤ safeLimit := by
  induction ms with
  | nil => intro st _ h1 h2; exact ⟨h1, h2⟩
  | cons m ms ih =>
    intro st hm h1 h2
    have hs := packStep_bound st m (hm m (List.mem_cons_self _ _)) h1 h2
    exact ih _ (fun x hx => hm x (List.mem_cons_of_mem _ hx)) hs.1 hs.2

/-- Claim C12: for every list of mentions of at most 1900 characters each (in
particular for non-empty mentions without whitespace of one fixed length), every
text the packing loop of the notifier puts into `messages` has length at most
1900. -/
theorem packMentions_within_budget (mentions : List String)
    (h : ∀ m ∈ mentions, jsLength m ≤ 1900) :
    ∀ t ∈ packMentions mentions, jsLength t ≤ 1900 := by
  have hf := foldl_packStep_bound mentions ("", []) h (by decide) (by simp)
  unfold packMentions packFlush
  split
  · intro t ht
    rcases List.mem_append.1 ht with ht | ht
    · exact hf.2 t ht
    · rw [List.mem_singleton.1 ht]
      exact (jsLength_trim_le _).trans hf.1
  · exact hf.2

/-- Witness of C12: two mentions of one length. -/
theorem packMentions_within_budget_witness :
    (∀ m ∈ ["<@1>", "<@2>"], jsLength m ≤ 1900) ∧
      ∀ t ∈ packMentions ["<@1>", "<@2>"], jsLength t ≤ 1900 :=
  ⟨by decide, packMentions_within_budget ["<@1>", "<@2>"] (by decide)⟩


theorem dropWhile_eq_self_of_head (p : Char → Bool) (l : List Char)
    (h : ∀ c, l.head? = some c → p c = false) : l.dropWhile p = l := by
  cases l with
  | nil => rfl
  | cons a t => simp [List.dropWhile_cons, h a rfl]

theorem Edged.trim {s : String} (h : Edged s) : jsTrim s = s := by
  unfold jsTrim
  rw [dropWhile_eq_self_of_head _ _ h.2.1]
  rw [dropWhile_eq_self_of_head _ s.data.reverse (by simpa using h.2.2)]
  simp

theorem Clean.edged {m : String} (h : Clean m) : Edged m :=
  ⟨h.1, fun c hc => h.2 c (List.mem_of_mem_head? hc),
    fun c hc => h.2 c (List.mem_of_mem_getLast? hc)⟩

theorem Edged.join {a b : String} (ha : Edged a) (hb : Edged b) : Edged (a ++ " " ++ b) := by
  refine ⟨?_, ?_, ?_⟩
  · simp [String.data_append, ha.1]
  · intro c hc
    apply ha.2.1
    simpa [String.data_append, List.head?_append_of_ne_nil _ ha.1] using hc
  · intro c hc
    apply hb.2.2
    have hd : (a ++ " " ++ b).data = (a.data ++ [' ']) ++ b.data := by
      simp [String.data_append]
    rw [hd, List.getLast?_append_of_ne_nil _ hb.1] at hc
    exact hc

theorem Edged.length_pos {s : String} (h : Edged s) : 0 < jsLength s := by
  unfold jsLength
  rcases hd : s.data with _ | ⟨c, t⟩
  · exact absurd hd h.1
  · simp only [List.map_cons, List.sum_cons]
    split <;> omega

theorem jsTrim_space_left (s : String) : jsTrim ("" ++ " " ++ s) = jsTrim s := by
  unfold jsTrim
  have : ("" ++ " " ++ s).data = ' ' :: s.data := by simp [String.data_append]
  rw [this, List.dropWhile_cons, if_pos (by decide)]

theorem jsJoin_snoc (g : List String) (m : String) (hg : g ≠ []) :
    jsJoin " " (g ++ [m]) = jsJoin " " g ++ " " ++ m := by
  induction g with
  | nil => exact absurd rfl hg
  | cons x t ih =>
    cases t with
    | nil => rfl
    | cons y r =>
      have := ih (by simp)
      show x ++ " " ++ jsJoin " " (y :: r ++ [m]) = x ++ " " ++ jsJoin " " (y :: r) ++ " " ++ m
      rw [this]
      simp [String.append_assoc]

theorem jsJoin_edged (g : List String) (hg : g ≠ []) (h : ∀ m ∈ g, Clean m) :
    Edged (jsJoin " " g) := by
  induction g with
  | nil => exact absurd rfl hg
  | cons x t ih =>
    cases t with
    | nil => exact (h x (List.mem_cons_self _ _)).edged
    | cons y r =>
      exact Edged.join (h x (List.mem_cons_self _ _)).edged
        (ih (by simp) (fun m hm => h m (List.mem_cons_of_mem _ hm)))

theorem jsTrim_join_snoc (cur : List String) (m : String) (hc : ∀ x ∈ cur, Clean x)
    (hm : Clean m) : jsTrim (jsJoin " " cur ++ " " ++ m) = jsJoin " " (cur ++ [m]) := by
  cases cur with
  | nil =>
    show jsTrim ("" ++ " " ++ m) = m
    rw [jsTrim_space_left, hm.edged.trim]
  | cons x t =>
    rw [← jsJoin_snoc _ _ (by simp)]
    apply Edged.trim
    apply jsJoin_edged _ (by simp)
    intro y hy
    rcases List.mem_append.1 hy with hy | hy
    · exact hc y hy
    · rw [List.mem_singleton.1 hy]; exact hm

theorem jsTrim_join (cur : List String) (hc : ∀ x ∈ cur, Clean x) :
    jsTrim (jsJoin " " cur) = jsJoin " " cur := by
  cases cur with
  | nil => rfl
  | cons x t => exact (jsJoin_edged _ (by simp) hc).trim

theorem jsLength_join_pos (cur : List String) (hc : ∀ x ∈ cur, Clean x) :
    0 < jsLength (jsJoin " " cur) ↔ cur ≠ [] := by
  cases cur with
  | nil => simp [jsJoin, jsLength_empty]
  | cons x t => simpa using (jsJoin_edged _ (by simp) hc).length_pos

/-- The packing loop on clean mentions produces the space-joined groups of
`packFrom`. -/
theorem packFlush_foldl (ms : List String) :
    ∀ (cur : List String) (acc : List String), (∀ m ∈ cur, Clean m) → (∀ m ∈ ms, Clean m) →
      packFlush (ms.foldl packStep (jsJoin " " cur, acc)) =
        acc ++ (packFrom cur ms).map (jsJoin " ") := by
  induction ms with
  | nil =>
    intro cur acc hc _
    simp only [List.foldl_nil, packFlush, packFrom, jsTrim_join cur hc]
    by_cases h : cur = []
    · subst h
      simp [jsJoin, jsLength_empty]
    · have := (jsLength_join_pos cur hc).2 h
      simp [h, this]
  | cons m ms ih =>
    intro cur acc hc hm
    have hm1 : Clean m := hm m (List.mem_cons_self _ _)
    have hms : ∀ x ∈ ms, Clean x := fun x hx => hm x (List.mem_cons_of_mem _ hx)
    simp only [List.foldl_cons, packStep, packFrom, jsTrim_join_snoc cur m hc hm1,
      jsTrim_join cur hc]
    by_cases hgt : jsLength (jsJoin " " (cur ++ [m])) > safeLimit
    · simp only [hgt, ↓reduceIte]
      have h1 := ih [m] (if jsLength (jsJoin " " cur) > 0 then acc ++ [jsJoin " " cur] else acc)
        (by simpa using hm1) hms
      simp only [jsJoin] at h1
      rw [h1]
      by_cases h : cur = []
      · subst h
        simp [jsJoin, jsLength_empty]
      · have := (jsLength_join_pos cur hc).2 h
        simp [h, this]
    · simp only [hgt, ↓reduceIte]
      apply ih
      · intro y hy
        rcases List.mem_append.1 hy with hy | hy
        · exact hc y hy
        · rw [List.mem_singleton.1 hy]; exact hm1
      · exact hms

theorem packMentions_eq (ms : List String) (h : ∀ m ∈ ms, Clean m) :
    packMentions ms = (packFrom [] ms).map (jsJoin " ") := by
  have := packFlush_foldl ms [] [] (by simp) h
  simpa [packMentions, jsJoin] using this

theorem cost_cons (x : String) (g : List String) :
    jsLength (jsJoin " " (x :: g)) =
      jsLength x + (if g = [] then 0 else 1 + jsLength (jsJoin " " g)) := by
  cases g with
  | nil => simp [jsJoin]
  | cons y r =>
    simp only [jsJoin, jsLength_append, jsLength_space]
    simp
    omega

theorem cost_append_le_left (g h : List String) :
    jsLength (jsJoin " " g) ≤ jsLength (jsJoin " " (g ++ h)) := by
  induction g with
  | nil => simp [jsJoin, jsLength_empty]
  | cons x t ih =>
    rw [List.cons_append, cost_cons, cost_cons]
    by_cases ht : t = []
    · simp [ht]
    · have : t ++ h ≠ [] := by simp [ht]
      simp only [ht, this, ↓reduceIte]
      omega

theorem cost_append_le_right (g h : List String) :
    jsLength (jsJoin " " h) ≤ jsLength (jsJoin " " (g ++ h)) := by
  induction g with
  | nil => simp
  | cons x t ih =>
    rw [List.cons_append, cost_cons]
    by_cases ht : t ++ h = []
    · have : h = [] := (List.append_eq_nil.1 ht).2
      simp [this, jsJoin, jsLength_empty]
    · simp only [ht, ↓reduceIte]
      omega

theorem packFrom_absorb (g : List String) :
    ∀ (cur ms : List String), jsLength (jsJoin " " (cur ++ g)) ≤ safeLimit →
      packFrom cur (g ++ ms) = packFrom (cur ++ g) ms := by
  induction g with
  | nil => intro cur ms _; simp
  | cons m g ih =>
    intro cur ms h
    have h1 : jsLength (jsJoin " " (cur ++ [m])) ≤ safeLimit := by
      have := cost_append_le_left (cur ++ [m]) g
      rw [List.append_assoc, List.singleton_append] at this
      omega
    rw [List.cons_append, packFrom, if_neg (by omega), ih (cur ++ [m]) ms (by simpa using h)]
    simp

theorem packFrom_group (g : List String) :
    ∀ (cur ms : List String), jsLength (jsJoin " " cur) ≤ safeLimit →
      jsLength (jsJoin " " g) ≤ safeLimit →
      ∃ cur2, jsLength (jsJoin " " cur2) ≤ safeLimit ∧
        (packFrom cur (g ++ ms)).length ≤ 1 + (packFrom cur2 ms).length := by
  induction g with
  | nil => intro cur ms hc _; exact ⟨cur, hc, by simp⟩
  | cons m g ih =>
    intro cur ms hc hg
    rw [List.cons_append, packFrom]
    by_cases hgt : jsLength (jsJoin " " (cur ++ [m])) > safeLimit
    · rw [if_pos hgt]
      refine ⟨m :: g, hg, ?_⟩
      rw [packFrom_absorb g [m] ms (by simpa using hg)]
      simp only [List.length_append, List.singleton_append]
      split <;> simp
    · rw [if_neg hgt]
      exact ih (cur ++ [m]) ms (by omega) ((cost_append_le_right [m] g).trans hg)

theorem packFrom_le (groups : List (List String)) :
    ∀ (cur : List String), jsLength (jsJoin " " cur) ≤ safeLimit →
      (∀ g ∈ groups, jsLength (jsJoin " " g) ≤ safeLimit) →
      (packFrom cur groups.flatten).length ≤ groups.length + 1 := by
  induction groups with
  | nil =>
    intro cur _ _
    simp only [List.flatten_nil, packFrom]
    split <;> simp
  | cons g rest ih =>
    intro cur hc hg
    obtain ⟨cur2, h2, hle⟩ := packFrom_group g cur rest.flatten hc (hg g (List.mem_cons_self _ _))
    have := ih cur2 h2 (fun x hx => hg x (List.mem_cons_of_mem _ hx))
    rw [List.flatten_cons, List.length_cons]
    omega

theorem packFrom_minimal (groups : List (List String))
    (hg : ∀ g ∈ groups, jsLength (jsJoin " " g) ≤ safeLimit) :
    (packFrom [] groups.flatten).length ≤ groups.length := by
  cases groups with
  | nil => simp [packFrom]
  | cons g rest =>
    rw [List.flatten_cons, packFrom_absorb g [] rest.flatten (by simpa using hg g (List.mem_cons_self _ _))]
    exact packFrom_le rest _ (by simpa using hg g (List.mem_cons_self _ _))
      (fun x hx => hg x (List.mem_cons_of_mem _ hx))

theorem packFrom_join (ms : List String) :
    ∀ (cur : List String), (packFrom cur ms).flatten = cur ++ ms := by
  induction ms with
  | nil =>
    intro cur
    simp only [packFrom]
    split <;> simp_all
  | cons m ms ih =>
    intro cur
    simp only [packFrom]
    split
    · rw [List.flatten_append, ih]
      split <;> simp_all
    · rw [ih]; simp

theorem packFrom_valid (ms : List String) :
    ∀ (cur : List String), jsLength (jsJoin " " cur) ≤ safeLimit →
      (∀ m ∈ ms, jsLength m ≤ safeLimit) →
      ∀ g ∈ packFrom cur ms, g ≠ [] ∧ jsLength (jsJoin " " g) ≤ safeLimit := by
  induction ms with
  | nil =>
    intro cur hc _ g hg
    simp only [packFrom] at hg
    split at hg
    · simp at hg
    · rename_i hne
      rw [List.mem_singleton.1 hg]
      exact ⟨hne, hc⟩
  | cons m ms ih =>
    intro cur hc hm g hg
    have hms : ∀ x ∈ ms, jsLength x ≤ safeLimit := fun x hx => hm x (List.mem_cons_of_mem _ hx)
    simp only [packFrom] at hg
    split at hg
    · rcases List.mem_append.1 hg with h | h
      · split at h
        · simp at h
        · rename_i hne
          rw [List.mem_singleton.1 h]
          exact ⟨hne, hc⟩
      · exact ih [m] (by simpa [jsJoin] using hm m (List.mem_cons_self _ _)) hms g h
    · rename_i hle
      exact ih (cur ++ [m]) (Nat.le_of_not_gt hle) hms g hg

/-- Claim C13: for every list of mentions, each non-empty, without whitespace
and of at most 1900 characters, the messages of the greedy packing loop are the
space-joined groups of a splitting of the list into consecutive non-empty groups
whose joined text is at most 1900 characters long, and no splitting of the list
into consecutive groups of joined text at most 1900 characters long has fewer
groups than the loop produces messages: the number of messages is the minimum. -/
theorem packMentions_minimal (mentions : List String)
    (h : ∀ m ∈ mentions, Clean m ∧ jsLength m ≤ 1900) :
    (∃ groups : List (List String), groups.flatten = mentions ∧
      (∀ g ∈ groups, g ≠ [] ∧ jsLength (jsJoin " " g) ≤ 1900) ∧
      packMentions mentions = groups.map (jsJoin " ") ∧
      groups.length = (packMentions mentions).length) ∧
    (∀ groups : List (List String), groups.flatten = mentions →
      (∀ g ∈ groups, jsLength (jsJoin " " g) ≤ 1900) →
      (packMentions mentions).length ≤ groups.length) := by
  have heq := packMentions_eq mentions (fun m hm => (h m hm).1)
  constructor
  · refine ⟨packFrom [] mentions, ?_, ?_, heq, ?_⟩
    · simpa using packFrom_join mentions []
    · exact packFrom_valid mentions [] (by decide) (fun m hm => (h m hm).2)
    · rw [heq, List.length_map]
  · intro groups hj hg
    rw [heq, List.length_map, ← hj]
    exact packFrom_minimal groups hg

/-- Witness of C13: two mentions. -/
theorem packMentions_minimal_witness :
    (∀ m ∈ ["<@1>", "<@2>"], Clean m ∧ jsLength m ≤ 1900) ∧
      ∀ groups : List (List String), groups.flatten = ["<@1>", "<@2>"] →
        (∀ g ∈ groups, jsLength (jsJoin " " g) ≤ 1900) →
        (packMentions ["<@1>", "<@2>"]).length ≤ groups.length :=
  ⟨by decide, (packMentions_minimal ["<@1>", "<@2>"] (by decide)).2⟩


/-! ## The interactive setup -/

theorem total_pure {α : Type} (a : α) : Act.Total (Pure.pure a : Act α) :=
  fun _ _ => ⟨a, rfl⟩

theorem total_emit (e : Event) : Act.Total (Act.emit e) := fun _ _ => ⟨(), rfl⟩

theorem total_tryCatch {α : Type} {x : Act α} {h : JsError → Act α}
    (hh : ∀ e, Act.Total (h e)) : Act.Total (Act.tryCatch x h) := by
  intro env w
  unfold Act.tryCatch
  rcases hr : x env w with ⟨r, w1⟩
  cases r with
  | error e => exact hh e env w1
  | ok a => exact ⟨a, rfl⟩

theorem total_catchNull {α : Type} (x : Act α) : Act.Total (Act.catchNull x) := by
  intro env w
  unfold Act.catchNull
  rcases hr : x env w with ⟨r, w1⟩
  cases r with
  | error e => exact ⟨none, rfl⟩
  | ok a => exact ⟨some a, rfl⟩

theorem cfg_emit (e : Event) (he : e.isSendComponents = false) :
    Act.Keeps cfgFrame (Act.emit e) :=
  fun _ _ => ⟨⟨[e], rfl, by simpa using he⟩, fun c h => ⟨c, h, rfl, rfl, rfl⟩⟩

theorem cfg_call (e : Event) (he : e.isSendComponents = false) :
    Act.Keeps cfgFrame (Act.call e) := by
  intro env w
  unfold Act.call
  cases env.outcome w.trace.length e <;>
    exact ⟨⟨[e], rfl, by simpa using he⟩, fun c h => ⟨c, h, rfl, rfl, rfl⟩⟩

theorem cfg_update_sus (f : World → Option String) :
    Act.Keeps cfgFrame (Act.update (fun w => { w with SUS_ROLE_ID := f w })) :=
  fun _ _ => ⟨⟨[], by simp [Act.update], by simp⟩, fun c h => ⟨c, h, rfl, rfl, rfl⟩⟩

theorem cfg_setConfig_sus (x : Option String) :
    Act.Keeps cfgFrame (setConfig (fun c => { c with susRoleId := x })) := by
  intro env w
  unfold setConfig
  show cfgFrame.rel w (Act.andThen _ _ env w).2
  unfold Act.andThen Act.world
  dsimp only
  cases hc : w.config with
  | none => exact cfgFrame.refl w
  | some c =>
    refine ⟨⟨[], by simp [Act.update], by simp⟩, fun c1 h => ?_⟩
    rw [hc] at h
    cases h
    exact ⟨_, rfl, rfl, rfl, rfl⟩

theorem cfg_reply (content : String) : Act.Keeps cfgFrame (reply content) := cfg_emit _ (by exact rfl)

theorem cfg_withRetries {α : Type} {fn : Act α} (hfn : Act.Keeps cfgFrame fn)
    (attempts base : Nat) : Act.Keeps cfgFrame (withRetries fn attempts base) :=
  keeps_withRetries hfn attempts base (fun _ => cfg_emit _ (by exact rfl)) (fun _ => cfg_emit _ (by exact rfl))

theorem cfg_saveConfig (c : Option Config) : Act.Keeps cfgFrame (saveConfig c) :=
  keeps_tryCatch (cfg_call _ (by exact rfl)) (fun _ => cfg_emit _ (by exact rfl))

theorem cfg_channelsFetch (id : String) : Act.Keeps cfgFrame (channelsFetch id) :=
  keeps_bind (cfg_call _ (by exact rfl)) (fun _ => keeps_bind keeps_env (fun _ => keeps_pure _))

theorem cfg_rolesFetch (id : String) : Act.Keeps cfgFrame (rolesFetch id) :=
  keeps_bind (cfg_call _ (by exact rfl)) (fun _ => keeps_bind keeps_env (fun _ => keeps_pure _))

theorem cfg_rolesCreate : Act.Keeps cfgFrame rolesCreate :=
  keeps_bind keeps_env (fun _ => keeps_bind (cfg_call _ (by exact rfl)) (fun _ => keeps_pure _))

theorem cfg_messagesFetch (ch : Channel) (before : Option String) :
    Act.Keeps cfgFrame (messagesFetch ch before) :=
  keeps_bind (cfg_call _ (by exact rfl)) (fun _ => keeps_bind keeps_env (fun _ => keeps_pure _))

theorem cfg_overwritesLoop (role : Role) :
    ∀ chs, Act.Keeps cfgFrame (overwritesLoop role chs)
  | [] => keeps_pure _
  | ch :: rest => by
    unfold overwritesLoop
    refine keeps_bind keeps_env (fun env => keeps_bind (keeps_tryCatch ?_ (fun _ => keeps_pure _))
      (fun _ => cfg_overwritesLoop role rest))
    split
    · exact keeps_pure _
    · split
      · exact keeps_bind (keeps_catchNull (cfg_call _ (by exact rfl))) (fun _ => keeps_pure _)
      · exact keeps_bind (keeps_catchNull (cfg_call _ (by exact rfl))) (fun _ => keeps_pure _)

theorem cfg_ensureSusRoleAndOverwrites : Act.Keeps cfgFrame ensureSusRoleAndOverwrites := by
  unfold ensureSusRoleAndOverwrites
  refine keeps_tryCatch ?_ (fun _ => cfg_emit _ (by exact rfl))
  refine keeps_bind keeps_env (fun env => keeps_bind keeps_world (fun w => ?_))
  refine keeps_bind ?_ (fun susRoleId => keeps_bind ?_ (fun fetched => ?_))
  · split
    · exact keeps_throw _
    · exact keeps_pure _
  · split
    · exact keeps_pure _
    · split
      · exact keeps_pure _
      · exact keeps_bind (keeps_catchNull (cfg_rolesFetch _)) (fun _ => keeps_pure _)
  · dsimp only
    refine keeps_bind ?_ (fun role => ?_)
    · split
      · exact keeps_pure _
      · exact keeps_catchNull cfg_rolesCreate
    · split
      · exact keeps_pure _
      · refine keeps_bind (cfg_update_sus _) (fun _ => keeps_bind keeps_world (fun w1 => ?_))
        split
        · exact keeps_throw _
        · split
          · exact keeps_bind (cfg_setConfig_sus _) (fun _ => keeps_bind keeps_world
              (fun _ => keeps_bind (cfg_saveConfig _) (fun _ => cfg_overwritesLoop _ _)))
          · exact cfg_overwritesLoop _ _

theorem cfg_deleteLoop : ∀ ms, Act.Keeps cfgFrame (deleteLoop ms)
  | [] => keeps_pure _
  | m :: rest => by
    unfold deleteLoop
    refine keeps_bind keeps_env (fun env => ?_)
    split
    · exact keeps_bind (keeps_tryCatch (cfg_withRetries (cfg_call _ (by exact rfl)) _ _) (fun _ => keeps_pure _))
        (fun _ => keeps_bind (cfg_emit _ (by exact rfl)) (fun _ => cfg_deleteLoop rest))
    · exact cfg_deleteLoop rest

theorem cfg_deletePasses (ch : Channel) :
    ∀ n lastId, Act.Keeps cfgFrame (deletePasses ch n lastId)
  | 0, _ => keeps_pure _
  | n + 1, lastId => by
    unfold deletePasses
    dsimp only
    refine keeps_bind (keeps_catchNull (cfg_withRetries (cfg_messagesFetch _ _) _ _))
      (fun messages => ?_)
    split
    · exact keeps_pure _
    · split
      · exact keeps_pure _
      · refine keeps_bind (cfg_deleteLoop _) (fun _ => ?_)
        split
        · exact keeps_pure _
        · exact cfg_deletePasses ch n _

theorem cfg_deleteAllBotMessagesInVerifyChannel :
    Act.Keeps cfgFrame deleteAllBotMessagesInVerifyChannel := by
  unfold deleteAllBotMessagesInVerifyChannel
  refine keeps_tryCatch ?_ (fun _ => cfg_emit _ (by exact rfl))
  refine keeps_bind keeps_env (fun env => keeps_bind
    (cfg_withRetries (cfg_channelsFetch _) _ _) (fun ch => ?_))
  split
  · exact keeps_pure _
  · split
    · exact keeps_pure _
    · exact cfg_deletePasses _ _ _

theorem total_ensureSusRoleAndOverwrites : Act.Total ensureSusRoleAndOverwrites :=
  total_tryCatch (fun _ => total_emit _)

theorem total_deleteAllBotMessagesInVerifyChannel :
    Act.Total deleteAllBotMessagesInVerifyChannel :=
  total_tryCatch (fun _ => total_emit _)

theorem total_saveConfig (c : Option Config) : Act.Total (saveConfig c) :=
  total_tryCatch (fun _ => total_emit _)

/-- Claim C18: for every setup session in which no method has been selected
(`selected` is null or empty), pressing Confirm changes nothing: the handler makes
two ephemeral replies to the interaction and nothing else, so no message is
deleted or posted; `config` with its `verificationMethods`, `verifyMessageId` and
`adminPromptMessageId` is unchanged; and the session is returned as it was,
`collector.stop` not being called. -/
theorem setup_confirm_without_selection (env : Env) (w : World) (s : SetupSession)
    (h : s.selected = none ∨ s.selected = some []) :
    setupCollect s (.button "setup_confirm") env w =
      (.ok s, (w.push (.safeInteractionReply "Applying settings..." false)).push
        (.safeInteractionReply "Please choose at least one method before confirming." false)) ∧
    (setupCollect s (.button "setup_confirm") env w).2.config = w.config ∧
    newEvents w (setupCollect s (.button "setup_confirm") env w).2 =
      [.safeInteractionReply "Applying settings..." false,
        .safeInteractionReply "Please choose at least one method before confirming." false] := by
  have key : setupCollect s (.button "setup_confirm") env w =
      (.ok s, (w.push (.safeInteractionReply "Applying settings..." false)).push
        (.safeInteractionReply "Please choose at least one method before confirming." false)) := by
    rcases h with h | h <;>
      simp [setupCollect, setupConfirm, h, reply, Act.tryCatch, Act.emit, World.push,
        Bind.bind, Act.andThen, Pure.pure, Act.ret]
  refine ⟨key, ?_, ?_⟩
  · rw [key]; rfl
  · rw [key]
    simp [newEvents, World.push]

/-- Witness of C18: a session with nothing selected. -/
theorem setup_confirm_without_selection_witness :
    newEvents (sampleWorld ["button"] [] [] 30)
      (setupCollect { selected := none, sentId := "p", ended := false }
        (.button "setup_confirm") sampleEnv (sampleWorld ["button"] [] [] 30)).2 =
      [.safeInteractionReply "Applying settings..." false,
        .safeInteractionReply "Please choose at least one method before confirming." false] :=
  (setup_confirm_without_selection sampleEnv (sampleWorld ["button"] [] [] 30)
    { selected := none, sentId := "p", ended := false } (Or.inl rfl)).2.2


theorem sendVerifyPrompt_run (env : Env) (w : World) (ch : Channel) (c : Config)
    (S : List String) (hc : w.config = some c) (hv : c.verificationMethods = some S) :
    sendVerifyPrompt ch env w =
      match env.outcome w.trace.length (.sendComponents ch.id (persistentVerifyText S)) with
      | none => (.ok (env.sentId w.trace.length),
          w.push (.sendComponents ch.id (persistentVerifyText S)))
      | some err => (.error err, w.push (.sendComponents ch.id (persistentVerifyText S))) := by
  simp only [sendVerifyPrompt, buildPersistentVerifyText, channelSendComponents, Bind.bind,
    Act.andThen, Act.world, Act.env, hc, hv, Pure.pure, Act.ret, Act.call, World.push]
  cases env.outcome w.trace.length (.sendComponents ch.id (persistentVerifyText S)) <;> rfl

theorem sendVerifyPrompt_retries (env : Env) (ch : Channel) (S : List String) (base : Nat) :
    ∀ (n i : Nat) (last : JsError) (w : World) (c : Config), w.config = some c →
      c.verificationMethods = some S →
      ∃ evs, (withRetriesFrom (sendVerifyPrompt ch) base n i last env w).2.trace
          = w.trace ++ evs ∧
        (withRetriesFrom (sendVerifyPrompt ch) base n i last env w).2.config = w.config ∧
        (∀ id, (withRetriesFrom (sendVerifyPrompt ch) base n i last env w).1 = .ok id →
          ∃ k, w.trace.length ≤ k ∧
            (w.trace ++ evs)[k]? = some (.sendComponents ch.id (persistentVerifyText S)) ∧
            env.outcome k (.sendComponents ch.id (persistentVerifyText S)) = none ∧
            id = env.sentId k) ∧
        (∀ err, (withRetriesFrom (sendVerifyPrompt ch) base n i last env w).1 = .error err →
          ∀ k e, w.trace.length ≤ k → (w.trace ++ evs)[k]? = some e →
            e.isSendComponents = true → env.outcome k e ≠ none)
  | 0, _, last, w, c, _, _ => by
    refine ⟨[], by simp [withRetriesFrom, Act.throw], by simp [withRetriesFrom, Act.throw], ?_, ?_⟩
    · intro id h
      simp [withRetriesFrom, Act.throw] at h
    · intro err _ k e hk hget
      rw [List.append_nil, List.getElem?_eq_none (by omega)] at hget
      cases hget
  | n + 1, i, last, w, c, hc, hv => by
    have hrun := sendVerifyPrompt_run env w ch c S hc hv
    cases hout : env.outcome w.trace.length (.sendComponents ch.id (persistentVerifyText S)) with
    | none =>
      rw [hout] at hrun
      rw [withRetriesFrom_ok base n i last hrun]
      refine ⟨[.sendComponents ch.id (persistentVerifyText S)], rfl, rfl, ?_, ?_⟩
      · intro id h
        refine ⟨w.trace.length, le_refl _, by simp, hout, ?_⟩
        cases h
        rfl
      · intro err h
        cases h
    | some err =>
      rw [hout] at hrun
      by_cases he : isTimeout err = true
      · rw [withRetriesFrom_transient base n i last hrun he]
        obtain ⟨evs, htr, hcf, hok, herr⟩ := sendVerifyPrompt_retries env ch S base n (i + 1) err
          (backoff (w.push (.sendComponents ch.id (persistentVerifyText S))) base i) c
          (by simpa [backoff, World.push] using hc) hv
        have hlen : (backoff (w.push (.sendComponents ch.id (persistentVerifyText S))) base i).trace
            = w.trace ++ [.sendComponents ch.id (persistentVerifyText S),
              .consoleWarn ("Transient error (attempt " ++ toString (i + 1)
                ++ "). Retrying in " ++ toString (retryDelay base i) ++ "ms..."),
              .sleep (retryDelay base i)] := by
          simp [backoff, World.push]
        rw [hlen] at htr hok herr
        have hl3 : (w.trace ++ [Event.sendComponents ch.id (persistentVerifyText S),
              Event.consoleWarn ("Transient error (attempt " ++ toString (i + 1)
                ++ "). Retrying in " ++ toString (retryDelay base i) ++ "ms..."),
              Event.sleep (retryDelay base i)]).length = w.trace.length + 3 := by
          simp
        refine ⟨[.sendComponents ch.id (persistentVerifyText S),
              .consoleWarn ("Transient error (attempt " ++ toString (i + 1)
                ++ "). Retrying in " ++ toString (retryDelay base i) ++ "ms..."),
              .sleep (retryDelay base i)] ++ evs, ?_, ?_, ?_, ?_⟩
        · rw [htr, List.append_assoc]
        · rw [hcf]; rfl
        · intro id h
          obtain ⟨k, hk, hget, ho, hid⟩ := hok id h
          refine ⟨k, ?_, ?_, ho, hid⟩
          · rw [hl3] at hk
            omega
          · rw [← List.append_assoc]; exact hget
        · intro e2 h k e hk hget hsend
          rw [← List.append_assoc] at hget
          by_cases hk2 : w.trace.length + 3 ≤ k
          · exact herr e2 h k e (by rw [hl3]; omega) hget hsend
          · rw [List.getElem?_append_left (by rw [hl3]; omega)] at hget
            rw [List.getElem?_append_right hk] at hget
            have h3 : k - w.trace.length = 0 ∨ k - w.trace.length = 1 ∨
                k - w.trace.length = 2 := by omega
            rcases h3 with h3 | h3 | h3
            · rw [h3] at hget
              simp only [List.getElem?_cons_zero, Option.some.injEq] at hget
              subst hget
              have : k = w.trace.length := by omega
              rw [this, hout]
              simp
            · rw [h3] at hget
              simp only [List.getElem?_cons_succ, List.getElem?_cons_zero,
                Option.some.injEq] at hget
              subst hget
              cases hsend
            · rw [h3] at hget
              simp only [List.getElem?_cons_succ, List.getElem?_cons_zero,
                Option.some.injEq] at hget
              subst hget
              cases hsend
      · rw [withRetriesFrom_fatal base n i last hrun (by simpa using he)]
        refine ⟨[.sendComponents ch.id (persistentVerifyText S)], rfl, rfl, ?_, ?_⟩
        · intro id h
          cases h
        · intro e2 _ k e hk hget _
          by_cases hk2 : k = w.trace.length
          · rw [hk2, List.getElem?_append_right (le_refl _)] at hget
            simp only [Nat.sub_self, List.getElem?_cons_zero, Option.some.injEq] at hget
            subst hget
            rw [hk2, hout]
            simp
          · have hl1 : (w.trace ++ [Event.sendComponents ch.id (persistentVerifyText S)]).length
                = w.trace.length + 1 := by simp
            rw [List.getElem?_eq_none (by rw [hl1]; omega)] at hget
            cases hget

theorem noPromptPosted_self (env : Env) (tr : List Event) : NoPromptPosted env tr.length tr := by
  intro k e hk hget
  rw [List.getElem?_eq_none hk] at hget
  cases hget

theorem noPromptPosted_append (env : Env) (l : Nat) (tr evs : List Event)
    (h1 : NoPromptPosted env l tr) (h2 : NoPromptPosted env tr.length (tr ++ evs)) :
    NoPromptPosted env l (tr ++ evs) := by
  intro k e hk hget hs
  by_cases hlt : k < tr.length
  · rw [List.getElem?_append_left hlt] at hget
    exact h1 k e hk hget hs
  · exact h2 k e (by omega) hget hs

theorem noPromptPosted_quiet (env : Env) (l : Nat) (tr evs : List Event)
    (h1 : NoPromptPosted env l tr) (h2 : ∀ e ∈ evs, e.isSendComponents = false) :
    NoPromptPosted env l (tr ++ evs) := by
  apply noPromptPosted_append env l tr evs h1
  intro k e hk hget hs
  rw [List.getElem?_append_right hk] at hget
  have := h2 e (List.mem_iff_getElem?.2 ⟨_, hget⟩)
  rw [this] at hs
  cases hs

theorem setConfig_run (env : Env) (w : World) (c : Config) (f : Config → Config)
    (hc : w.config = some c) :
    setConfig f env w = (.ok (), { w with config := some (f c) }) := by
  simp [setConfig, Bind.bind, Act.andThen, Act.world, hc, Act.update]

theorem total_unit {x : Act Unit} (hx : Act.Total x) (env : Env) (w : World) :
    x env w = (.ok (), (x env w).2) := by
  obtain ⟨a, ha⟩ := hx env w
  rcases h : x env w with ⟨r, w1⟩
  rw [h] at ha
  dsimp only at ha
  rw [ha]

theorem saveConfig_run (env : Env) (w : World) (c : Option Config) :
    ∃ mid, saveConfig c env w = (.ok (), { w with trace := w.trace ++ .writeJson c :: mid }) ∧
      (mid = [] ∨ mid = [.consoleError "Failed to save config.json"]) := by
  unfold saveConfig Act.tryCatch Act.call
  cases env.outcome w.trace.length (.writeJson c) with
  | none => exact ⟨[], rfl, Or.inl rfl⟩
  | some err =>
    refine ⟨[.consoleError "Failed to save config.json"], ?_, Or.inr rfl⟩
    simp [Act.emit]

theorem setConfig_step (env : Env) (w : World) (c : Config) (f : Config → Config)
    (hc : w.config = some c) :
    ∃ w1, setConfig f env w = (.ok (), w1) ∧ w1.config = some (f c) ∧ w1.trace = w.trace :=
  ⟨_, setConfig_run env w c f hc, rfl, rfl⟩

theorem cfg_step {α : Type} {x : Act α} (hx : Act.Keeps cfgFrame x) (ht : Act.Total x)
    (env : Env) (w : World) :
    ∃ a w1, x env w = (.ok a, w1) ∧ cfgFrame.rel w w1 := by
  obtain ⟨a, ha⟩ := ht env w
  have hk := hx env w
  rcases h : x env w with ⟨r, w1⟩
  rw [h] at ha hk
  dsimp only at ha
  exact ⟨a, w1, by rw [ha], hk⟩

theorem postVerifyPrompt_run (env : Env) (w : World) (c : Config) (S : List String)
    (hc : w.config = some c) (hv : c.verificationMethods = some S) :
    ∃ w1 evs c1, postVerifyPrompt env w = (.ok (), w1) ∧ w1.trace = w.trace ++ evs ∧
      w1.config = some c1 ∧ c1.verificationMethods = some S ∧
      c1.adminPromptMessageId = c.adminPromptMessageId ∧
      ((c1.verifyMessageId = c.verifyMessageId ∧ NoPromptPosted env w.trace.length w1.trace) ∨
        ∃ k chId, w.trace.length ≤ k ∧
          w1.trace[k]? = some (.sendComponents chId (persistentVerifyText S)) ∧
          env.outcome k (.sendComponents chId (persistentVerifyText S)) = none ∧
          c1.verifyMessageId = some (env.sentId k)) := by
  unfold postVerifyPrompt
  simp only [Bind.bind, Act.andThen, Act.env]
  obtain ⟨vc, w6, e6, ⟨evs6, ht6, hq6⟩, hk6⟩ := cfg_step
    (keeps_catchNull (cfg_withRetries (cfg_channelsFetch env.VERIFY_CHANNEL_ID) 3 1000))
    (total_catchNull _) env w
  rw [e6]
  dsimp only
  obtain ⟨c6, hc6, hv6, hm6, ha6⟩ := hk6 _ hc
  have hno6 : NoPromptPosted env w.trace.length w6.trace := by
    rw [ht6]
    exact noPromptPosted_quiet env _ _ _ (noPromptPosted_self env w.trace) hq6
  cases hj : vc.join with
  | none =>
    exact ⟨w6, evs6, c6, rfl, ht6, hc6, hv6.trans hv, ha6, Or.inl ⟨hm6, hno6⟩⟩
  | some ch =>
    dsimp only
    by_cases htb : ch.textBased = true
    · simp only [htb, Bool.not_true, Bool.false_eq_true, ↓reduceIte, Act.catchNull, withRetries,
        Act.andThen]
      obtain ⟨evs, htr, hcf, hok, herr⟩ := sendVerifyPrompt_retries env ch S 1000 3 0 .falsy w6 c6
        hc6 (hv6.trans hv)
      rcases hrun : withRetriesFrom (sendVerifyPrompt ch) 1000 3 0 .falsy env w6 with ⟨r, w7⟩
      rw [hrun] at htr hcf hok herr
      dsimp only at htr hcf hok herr
      cases r with
      | error err =>
        refine ⟨w7, evs6 ++ evs, c6, rfl, by rw [htr, ht6, List.append_assoc],
          hcf.trans hc6, hv6.trans hv, ha6, Or.inl ⟨hm6, ?_⟩⟩
        rw [htr]
        exact noPromptPosted_append env _ _ _ hno6 (herr err rfl)
      | ok id =>
        obtain ⟨k, hk, hget, hout, hid⟩ := hok id rfl
        obtain ⟨w8, e8, hc8, ht8⟩ := setConfig_step env w7 c6
          (fun c => { c with verifyMessageId := some id }) (hcf.trans hc6)
        dsimp only
        rw [e8]
        refine ⟨w8, evs6 ++ evs, _, rfl, by rw [ht8, htr, ht6, List.append_assoc],
          hc8, hv6.trans hv, ha6, Or.inr ⟨k, ch.id, ?_, ?_, hout, ?_⟩⟩
        · rw [ht6, List.length_append] at hk
          omega
        · rw [ht8, htr]
          exact hget
        · rw [hid]
    · simp only [htb, Bool.not_false, ↓reduceIte]
      exact ⟨w6, evs6, c6, rfl, ht6, hc6, hv6.trans hv, ha6, Or.inl ⟨hm6, hno6⟩⟩

theorem applySetup_run (env : Env) (w : World) (s : SetupSession) (S : List String)
    (c0 : Config) (hc : w.config = some c0) :
    ∃ c w1 pre mid, applySetup s S env w = (.ok { s with ended := true }, w1) ∧
      w1.config = some c ∧ c.verificationMethods = some S ∧ c.adminPromptMessageId = none ∧
      w1.trace = w.trace ++ pre ++ .writeJson (some c) :: mid ++
        [.messageDelete s.sentId,
          .safeInteractionReply "Verification configured and previous bot messages removed. New persistent verify message created." false,
          .collectorStop "done"] ∧
      (mid = [] ∨ mid = [.consoleError "Failed to save config.json"]) ∧
      ((c.verifyMessageId = none ∧ NoPromptPosted env w.trace.length w1.trace) ∨
        ∃ k chId, w.trace.length ≤ k ∧
          w1.trace[k]? = some (.sendComponents chId (persistentVerifyText S)) ∧
          env.outcome k (.sendComponents chId (persistentVerifyText S)) = none ∧
          c.verifyMessageId = some (env.sentId k)) := by
  unfold applySetup
  simp only [Bind.bind, Act.andThen]
  obtain ⟨w1, e1, hc1, ht1⟩ := setConfig_step env w c0
    (fun c => { c with verificationMethods := some S }) hc
  rw [e1]
  dsimp only
  obtain ⟨_, w2, e2, ⟨evs2, ht2, hq2⟩, hk2⟩ := cfg_step cfg_deleteAllBotMessagesInVerifyChannel
    total_deleteAllBotMessagesInVerifyChannel env w1
  rw [e2]
  dsimp only
  obtain ⟨c2, hc2, hv2, -, -⟩ := hk2 _ hc1
  obtain ⟨w3, e3, hc3, ht3⟩ := setConfig_step env w2 c2
    (fun c => { c with verifyMessageId := none }) hc2
  rw [e3]
  dsimp only
  obtain ⟨w4, e4, hc4, ht4⟩ := setConfig_step env w3 _
    (fun c => { c with adminPromptMessageId := none }) hc3
  rw [e4]
  dsimp only
  obtain ⟨_, w5, e5, ⟨evs5, ht5, hq5⟩, hk5⟩ := cfg_step cfg_ensureSusRoleAndOverwrites
    total_ensureSusRoleAndOverwrites env w4
  rw [e5]
  dsimp only
  obtain ⟨c5, hc5, hv5, hm5, ha5⟩ := hk5 _ hc4
  obtain ⟨w6, evs6, c6, e6, ht6, hc6, hv6, ha6, hid6⟩ := postVerifyPrompt_run env w5 c5 S hc5
    (hv5.trans hv2)
  rw [e6]
  dsimp only
  obtain ⟨mid, e7, hmid⟩ := saveConfig_run env w6 w6.config
  simp only [Act.world, e7, Act.tryCatch, Act.catchNull, Act.andThen, Act.call, reply, Act.emit,
    Pure.pure, Act.ret]
  have htr6 : w6.trace = w.trace ++ (evs2 ++ evs5 ++ evs6) := by
    rw [ht6, ht5, ht4, ht3, ht2, ht1]
    simp
  have hquiet : ∀ e ∈ evs2 ++ evs5, e.isSendComponents = false := by
    intro e he
    rcases List.mem_append.1 he with h | h
    · exact hq2 e h
    · exact hq5 e h
  have htr5 : w5.trace = w.trace ++ (evs2 ++ evs5) := by
    rw [ht5, ht4, ht3, ht2, ht1]
    simp
  refine ⟨c6, { w6 with trace := w6.trace ++ .writeJson w6.config :: mid ++
      [.messageDelete s.sentId] ++ [.safeInteractionReply "Verification configured and previous bot messages removed. New persistent verify message created." false] ++
      [.collectorStop "done"] }, evs2 ++ evs5 ++ evs6, mid, ?_, hc6, hv6, ?_, ?_, hmid, ?_⟩
  · cases env.outcome (w6.trace ++ .writeJson w6.config :: mid).length
      (.messageDelete s.sentId) <;> rfl
  · rw [ha6, ha5]
  · simp [htr6, hc6]
  · have hfin : w6.trace ++ Event.writeJson w6.config :: mid ++ [Event.messageDelete s.sentId] ++
        [Event.safeInteractionReply "Verification configured and previous bot messages removed. New persistent verify message created." false] ++
        [Event.collectorStop "done"] = w6.trace ++ (Event.writeJson w6.config :: (mid ++
          [Event.messageDelete s.sentId, Event.safeInteractionReply "Verification configured and previous bot messages removed. New persistent verify message created." false,
            Event.collectorStop "done"])) := by
      simp
    have htail : ∀ e ∈ Event.writeJson w6.config :: (mid ++
          [Event.messageDelete s.sentId, Event.safeInteractionReply "Verification configured and previous bot messages removed. New persistent verify message created." false,
            Event.collectorStop "done"]), e.isSendComponents = false := by
      intro e he
      rcases List.mem_cons.1 he with h | h
      · rw [h]; rfl
      · rcases List.mem_append.1 h with h | h
        · rcases hmid with hmid | hmid
          · rw [hmid] at h
            cases h
          · rw [hmid, List.mem_singleton] at h
            rw [h]; rfl
        · simp only [List.mem_cons, List.mem_singleton, List.not_mem_nil, or_false] at h
          rcases h with h | h | h <;> rw [h] <;> rfl
    dsimp only
    rw [hfin]
    rcases hid6 with ⟨hm6, hno⟩ | ⟨k, chId, hk, hget, hout, hid⟩
    · left
      refine ⟨by rw [hm6, hm5], ?_⟩
      refine noPromptPosted_quiet env _ _ _ ?_ htail
      rw [ht6] at hno ⊢
      refine noPromptPosted_append env _ _ _ ?_ hno
      rw [htr5]
      exact noPromptPosted_quiet env _ _ _ (noPromptPosted_self env w.trace) hquiet
    · right
      refine ⟨k, chId, ?_, ?_, hout, hid⟩
      · rw [htr5, List.length_append] at hk
        omega
      · have hlt : k < w6.trace.length := by
          by_contra hge
          rw [List.getElem?_eq_none (by omega)] at hget
          cases hget
        rw [List.getElem?_append_left hlt]
        exact hget

/-- Claim C19: for every setup session confirmed with a non-empty selection `S`
while `config` is loaded, the handler returns with the session ended, and the
configuration `c` it leaves in `config` is the one its last `saveConfig` writes:
the trace ends with `writeJson c`, at most the report of a failed write, the
deletion of the setup message, the reply and `collector.stop`.  That `c` has
`verificationMethods = S` and `adminPromptMessageId` null, and its
`verifyMessageId` is either null, no `send` of the prompt having been accepted
in this run, or the id of a prompt with the text for `S` whose `send` the
platform accepted in this run; the id recorded before is not kept. -/
theorem setup_confirm_saves_selection (env : Env) (w : World) (s : SetupSession)
    (S : List String) (c0 : Config) (hS : s.selected = some S) (hne : S ≠ [])
    (hc : w.config = some c0) :
    ∃ c w1 pre mid,
      setupCollect s (.button "setup_confirm") env w = (.ok { s with ended := true }, w1) ∧
      w1.config = some c ∧ c.verificationMethods = some S ∧ c.adminPromptMessageId = none ∧
      w1.trace = w.trace ++ pre ++ .writeJson (some c) :: mid ++
        [.messageDelete s.sentId,
          .safeInteractionReply "Verification configured and previous bot messages removed. New persistent verify message created." false,
          .collectorStop "done"] ∧
      (mid = [] ∨ mid = [.consoleError "Failed to save config.json"]) ∧
      ((c.verifyMessageId = none ∧ NoPromptPosted env w.trace.length w1.trace) ∨
        ∃ k chId, w.trace.length ≤ k ∧
          w1.trace[k]? = some (.sendComponents chId (persistentVerifyText S)) ∧
          env.outcome k (.sendComponents chId (persistentVerifyText S)) = none ∧
          c.verifyMessageId = some (env.sentId k)) := by
  obtain ⟨c, w1, pre, mid, hrun, hcfg, hv, ha, htr, hmid, hid⟩ := applySetup_run env
    (w.push (.safeInteractionReply "Applying settings..." false)) s S c0 hc
  have hlen : S.length ≠ 0 := fun h => hne (List.length_eq_zero.1 h)
  refine ⟨c, w1, .safeInteractionReply "Applying settings..." false :: pre, mid, ?_, hcfg, hv, ha,
    ?_, hmid, ?_⟩
  · simp only [setupCollect, setupConfirm, hS, reply, Act.tryCatch, Bind.bind, Act.andThen,
      Act.emit, beq_self_eq_true, ↓reduceIte, beq_iff_eq, hlen]
    have h2 : ({ w with trace := w.trace ++ [Event.safeInteractionReply "Applying settings..." false] } : World)
        = w.push (.safeInteractionReply "Applying settings..." false) := rfl
    rw [h2, hrun]
    simp [hS]
  · rw [htr]
    simp [World.push]
  · rcases hid with ⟨hm, hno⟩ | ⟨k, chId, hk, hget, hout, hidk⟩
    · left
      refine ⟨hm, ?_⟩
      intro k e hk hget hs
      by_cases hk2 : k = w.trace.length
      · have hpre : w1.trace = (w.trace ++ [Event.safeInteractionReply "Applying settings..." false])
            ++ (pre ++ .writeJson (some c) :: mid ++
              [.messageDelete s.sentId,
                .safeInteractionReply "Verification configured and previous bot messages removed. New persistent verify message created." false,
                .collectorStop "done"]) := by
          rw [htr]
          simp [World.push]
        rw [hpre, List.getElem?_append_left (by rw [hk2]; simp),
          List.getElem?_append_right (by omega), hk2] at hget
        simp only [Nat.sub_self, List.getElem?_cons_zero, Option.some.injEq] at hget
        rw [← hget] at hs
        cases hs
      · exact hno k e (by simp [World.push]; omega) hget hs
    · right
      exact ⟨k, chId, by simp [World.push] at hk; omega, hget, hout, hidk⟩

/-- Witness of C19: a session in which `word` has been selected. -/
theorem setup_confirm_saves_selection_witness :
    ∃ c w1 pre mid,
      setupCollect { selected := some ["word"], sentId := "p", ended := false }
        (.button "setup_confirm") sampleEnv (sampleWorld ["button"] [] [] 30)
        = (.ok { selected := some ["word"], sentId := "p", ended := true }, w1) ∧
      w1.config = some c ∧ c.verificationMethods = some ["word"] ∧
      c.adminPromptMessageId = none ∧
      w1.trace = (sampleWorld ["button"] [] [] 30).trace ++ pre ++ .writeJson (some c) :: mid ++
        [.messageDelete "p",
          .safeInteractionReply "Verification configured and previous bot messages removed. New persistent verify message created." false,
          .collectorStop "done"] ∧
      (mid = [] ∨ mid = [.consoleError "Failed to save config.json"]) ∧
      ((c.verifyMessageId = none ∧
          NoPromptPosted sampleEnv (sampleWorld ["button"] [] [] 30).trace.length w1.trace) ∨
        ∃ k chId, (sampleWorld ["button"] [] [] 30).trace.length ≤ k ∧
          w1.trace[k]? = some (.sendComponents chId (persistentVerifyText ["word"])) ∧
          sampleEnv.outcome k (.sendComponents chId (persistentVerifyText ["word"])) = none ∧
          c.verifyMessageId = some (sampleEnv.sentId k)) :=
  setup_confirm_saves_selection sampleEnv (sampleWorld ["button"] [] [] 30)
    { selected := some ["word"], sentId := "p", ended := false } ["word"] _ rfl (by decide) rfl


/-! ## The admin check -/

theorem isAdmin_iff (ids roles : List String) (h : ids ≠ []) :
    isAdmin ids roles = true ↔ ∃ r ∈ roles, r ∈ ids := by
  have hl : ¬ ids.length = 0 := fun h0 => h (List.length_eq_zero.1 h0)
  simp [isAdmin, hl]

theorem call_world (e : Event) (env : Env) (w : World) : (Act.call e env w).2 = w.push e := by
  unfold Act.call
  cases env.outcome w.trace.length e <;> rfl

/-- Claim C27: when `ADMIN_ROLE_IDS` is empty, `isAdmin` is false for every
invoker whatever roles they hold, and then the setup button, each of the chat
input commands and each of the prefix commands only answers with its refusal,
whatever follows the check; when `ADMIN_ROLE_IDS` is not empty, `isAdmin`
holds if and only if the invoker has a role whose id is in `ADMIN_ROLE_IDS`, and
an invoker for whom it holds passes each check. -/
theorem admin_check_refuses_when_unconfigured (env : Env) (w : World) (invokerId : String)
    (body : Act Unit) :
    (∀ roles, isAdmin [] roles = false) ∧
    (∀ ids roles, ids ≠ [] → (isAdmin ids roles = true ↔ ∃ r ∈ roles, r ∈ ids)) ∧
    (env.ADMIN_ROLE_IDS = [] →
      init_setup invokerId body env w = (.ok (), w.push
        (.safeInteractionReply "You are not allowed to configure verification." false)) ∧
      (∀ name ∈ ["setlog", "scan", "autoscan", "verifyuser", "setupverify"],
        ∃ text, chatInputCommand name invokerId body env w =
          (.ok (), w.push (.safeInteractionReply text false))) ∧
      (∀ cmd ∈ ["setlog", "unsus", "verifyuser", "scan", "setupverify", "autoscan"],
        (prefixCommand cmd invokerId body env w).2 =
          w.push (.messageReply "Only configured admin roles may run this command."))) ∧
    (isAdmin env.ADMIN_ROLE_IDS (w.roles invokerId) = true →
      init_setup invokerId body env w = body env w ∧
      (∀ name ∈ ["setlog", "scan", "autoscan", "verifyuser", "setupverify"],
        chatInputCommand name invokerId body env w = body env w) ∧
      (∀ cmd ∈ ["setlog", "unsus", "verifyuser", "scan", "setupverify", "autoscan"],
        prefixCommand cmd invokerId body env w = body env w)) := by
  refine ⟨fun roles => rfl, isAdmin_iff, ?_, ?_⟩
  · intro h
    have hA : isAdmin env.ADMIN_ROLE_IDS (w.roles invokerId) = false := by rw [h]; rfl
    refine ⟨?_, ?_, ?_⟩
    · simp [init_setup, Bind.bind, Act.andThen, Act.env, Act.world, hA, reply, Act.emit,
        World.push]
    · intro name hn
      simp only [List.mem_cons, List.mem_singleton, List.not_mem_nil, or_false] at hn
      rcases hn with rfl | rfl | rfl | rfl | rfl <;>
        exact ⟨_, by simp [chatInputCommand, Bind.bind, Act.andThen, Act.env, Act.world, hA,
          reply, Act.emit, World.push]; rfl⟩
    · intro cmd hc
      simp only [List.mem_cons, List.mem_singleton, List.not_mem_nil, or_false] at hc
      rcases hc with rfl | rfl | rfl | rfl | rfl | rfl <;>
        simp [prefixCommand, Bind.bind, Act.andThen, Act.env, Act.world, hA, call_world]
  · intro hA
    refine ⟨?_, ?_, ?_⟩
    · simp [init_setup, Bind.bind, Act.andThen, Act.env, Act.world, hA]
    · intro name hn
      simp only [List.mem_cons, List.mem_singleton, List.not_mem_nil, or_false] at hn
      rcases hn with rfl | rfl | rfl | rfl | rfl <;>
        simp [chatInputCommand, Bind.bind, Act.andThen, Act.env, Act.world, hA]
    · intro cmd hc
      simp only [List.mem_cons, List.mem_singleton, List.not_mem_nil, or_false] at hc
      rcases hc with rfl | rfl | rfl | rfl | rfl | rfl <;>
        simp [prefixCommand, Bind.bind, Act.andThen, Act.env, Act.world, hA]

/-- Witness of C27: with no admin role configured, a holder of the role `admin`
is refused at the setup button. -/
theorem admin_check_refuses_when_unconfigured_witness :
    init_setup "u" (reply "admin only") { sampleEnv with ADMIN_ROLE_IDS := [] }
        (sampleWorld ["button"] ["admin"] [] 30) =
      (.ok (), (sampleWorld ["button"] ["admin"] [] 30).push
        (.safeInteractionReply "You are not allowed to configure verification." false)) :=
  ((admin_check_refuses_when_unconfigured { sampleEnv with ADMIN_ROLE_IDS := [] }
    (sampleWorld ["button"] ["admin"] [] 30) "u" (reply "admin only")).2.2.1 rfl).1


/-! ## Packing keeps the mentions -/

theorem splitLoop_clean (x : List Char) (hx : ∀ c ∈ x, isJsWhiteSpace c = false) :
    ∀ (rest acc : List Char), splitLoop (x ++ rest) acc = splitLoop rest (x.reverse ++ acc) := by
  induction x with
  | nil => intro rest acc; rfl
  | cons c x ih =>
    intro rest acc
    have hc : c ≠ ' ' := by
      intro h
      have := hx c (List.mem_cons_self _ _)
      rw [h] at this
      exact absurd this (by decide)
    rw [List.cons_append, splitLoop, if_neg hc,
      ih (fun d hd => hx d (List.mem_cons_of_mem _ hd))]
    simp

theorem splitOnSpaces_join (g : List String) (hg : g ≠ []) (h : ∀ m ∈ g, Clean m) :
    splitOnSpaces (jsJoin " " g) = g := by
  induction g with
  | nil => exact absurd rfl hg
  | cons x t ih =>
    have hx := (h x (List.mem_cons_self _ _)).2
    cases t with
    | nil =>
      have := splitLoop_clean x.data hx [] []
      simp only [List.append_nil] at this
      simp [jsJoin, splitOnSpaces, this, splitLoop]
    | cons y r =>
      have ih2 := ih (by simp) (fun m hm => h m (List.mem_cons_of_mem _ hm))
      have hd : (jsJoin " " (x :: y :: r)).data = x.data ++ (' ' :: (jsJoin " " (y :: r)).data) := by
        simp [jsJoin, String.data_append]
      unfold splitOnSpaces at ih2 ⊢
      rw [hd, splitLoop_clean x.data hx, splitLoop, if_pos rfl, ih2]
      simp

theorem packFrom_ne_nil (ms : List String) :
    ∀ (cur : List String), ∀ g ∈ packFrom cur ms, g ≠ [] := by
  induction ms with
  | nil =>
    intro cur g hg
    simp only [packFrom] at hg
    split at hg
    · simp at hg
    · rename_i hne
      rw [List.mem_singleton.1 hg]
      exact hne
  | cons m ms ih =>
    intro cur g hg
    simp only [packFrom] at hg
    split at hg
    · rcases List.mem_append.1 hg with h | h
      · split at h
        · simp at h
        · rename_i hne
          rw [List.mem_singleton.1 h]
          exact hne
      · exact ih [m] g h
    · exact ih (cur ++ [m]) g hg

/-- Claim C24: for every list of mentions, each non-empty and without
whitespace, the packing loop of the notifier loses, duplicates and reorders
nothing: splitting each of the produced messages on spaces and concatenating the
pieces in the order of the messages gives the list of mentions again. -/
theorem packMentions_keeps_mentions (mentions : List String)
    (h : ∀ m ∈ mentions, Clean m) :
    ((packMentions mentions).map splitOnSpaces).flatten = mentions := by
  rw [packMentions_eq mentions h, List.map_map]
  have hj := packFrom_join mentions []
  have hmap : (packFrom [] mentions).map (splitOnSpaces ∘ jsJoin " ") = packFrom [] mentions := by
    conv_rhs => rw [← List.map_id (packFrom [] mentions)]
    apply List.map_congr_left
    intro g hg
    apply splitOnSpaces_join g (packFrom_ne_nil mentions [] g hg)
    intro m hm
    apply h m
    have : m ∈ (packFrom [] mentions).flatten := List.mem_flatten.2 ⟨g, hg, hm⟩
    rw [hj] at this
    simpa using this
  rw [hmap, hj]
  rfl

/-- Witness of C24: two mentions. -/
theorem packMentions_keeps_mentions_witness :
    (∀ m ∈ ["<@1>", "<@2>"], Clean m) ∧
      ((packMentions ["<@1>", "<@2>"]).map splitOnSpaces).flatten = ["<@1>", "<@2>"] :=
  ⟨by decide, packMentions_keeps_mentions ["<@1>", "<@2>"] (by decide)⟩


/-! ## A failed removal -/

theorem rolesRemove_retry_keeps (member : Member) (r reason : String) (attempts base : Nat) :
    Act.Keeps (ext (fun e => e.isRolesRemove = true ∨ e.isRetryNoise = true) false)
      (withRetries (rolesRemove member r reason) attempts base) := by
  refine keeps_withRetries ?_ _ _ (fun _ => ext_emit (Or.inr rfl)) (fun _ => ext_emit (Or.inr rfl))
  unfold rolesRemove
  exact ext_call (Or.inl rfl)

/-- Claim C25: for every correct, unexpired `verify_modal` submission by a member
who is found and holds the marker role: if the queued role removal throws, the
challenge store afterwards is the store before, so the challenge is still there
unchanged; the handler ends with the report of the error and the error reply; and
no other reply is made, so the success reply is not. -/
theorem verify_modal_failed_removal_keeps_challenge (env : Env) (w : World)
    (interaction : Interaction) (input : String) (now : Nat) (ch : Challenge)
    (member : Member) (r : String) (err : JsError)
    (hch : storeGet w.challengeStore (challengeKey interaction) = some ch)
    (hexp : ¬ now > ch.expiresAt) (hans : jsTrim input = ch.answer)
    (hg : ∀ n, env.outcome n (.guildsFetch interaction.guildId) = none)
    (hmf : ∀ n, env.outcome n (.membersFetch interaction.userId) = none)
    (hm : w.guildMembers.find? (fun m => m.id == interaction.userId) = some member)
    (hr : w.SUS_ROLE_ID = some r) (ht : r ≠ "") (hyes : r ∈ w.roles member.id)
    (hfail : (withRetries (rolesRemove member r "Verified via challenge") 3 1000 env
      { w with trace := w.trace ++ [.guildsFetch interaction.guildId,
        .membersFetch interaction.userId, .deferReply, .queueAdd] }).1 = .error err) :
    (verify_modal interaction input now env w).2.challengeStore = w.challengeStore ∧
    storeGet (verify_modal interaction input now env w).2.challengeStore
      (challengeKey interaction) = some ch ∧
    (∃ evs, newEvents w (verify_modal interaction input now env w).2 = evs ++
      [.consoleError "verify_modal handling error",
        .safeInteractionReply "An error occurred while processing your answer. Try again."
          false]) ∧
    ∀ c b, Event.safeInteractionReply c b ∈ newEvents w (verify_modal interaction input now env w).2 →
      c = "An error occurred while processing your answer. Try again." := by
  rw [verifyModal_marked env w interaction input now ch member r hch hexp hans hg hmf hm hr ht hyes]
  have hk := rolesRemove_retry_keeps member r "Verified via challenge" 3 1000 env
    { w with trace := w.trace ++ [.guildsFetch interaction.guildId,
        .membersFetch interaction.userId, .deferReply, .queueAdd] }
  unfold verify_modal_tail queueAdd
  simp only [Act.tryCatch, Act.bind_run, Act.andThen, Act.emit_run, reply, List.append_assoc,
    List.cons_append, List.nil_append]
  rcases hq : withRetries (rolesRemove member r "Verified via challenge") 3 1000 env
    { w with trace := w.trace ++ [.guildsFetch interaction.guildId,
        .membersFetch interaction.userId, .deferReply, .queueAdd] } with ⟨res, w5⟩
  rw [hq] at hfail hk
  dsimp only at hfail
  subst hfail
  obtain ⟨⟨evs, htr, hP⟩, -, -, hst, -, -⟩ := hk
  dsimp only at htr hst
  have hstore : w5.challengeStore = w.challengeStore := hst
  refine ⟨hstore, by rw [hstore]; exact hch, ?_, ?_⟩
  · refine ⟨[.guildsFetch interaction.guildId, .membersFetch interaction.userId, .deferReply,
      .queueAdd] ++ evs, ?_⟩
    simp [newEvents, htr]
  · intro c b hin
    simp only [newEvents, htr, List.append_assoc, List.drop_left] at hin
    simp only [List.mem_append, List.mem_cons, List.mem_singleton, List.not_mem_nil, or_false,
      Event.safeInteractionReply.injEq] at hin
    rcases hin with hin | hin | hin
    · rcases hin with h | h | h | h <;> cases h
    · rcases hP _ hin with h | h <;> cases h
    · rcases hin with h | h
      · cases h
      · exact h.1

/-- Witness of C25: the platform rejects every role removal for missing
permissions. -/
theorem verify_modal_failed_removal_keeps_challenge_witness :
    (verify_modal ⟨"g", "u"⟩ " abcdef " 5000 removeRejectingEnv
        (sampleWorld ["word"] ["r"] [("g-u", sampleChallenge)] 30)).2.challengeStore
      = (sampleWorld ["word"] ["r"] [("g-u", sampleChallenge)] 30).challengeStore :=
  (verify_modal_failed_removal_keeps_challenge removeRejectingEnv
    (sampleWorld ["word"] ["r"] [("g-u", sampleChallenge)] 30) ⟨"g", "u"⟩ " abcdef " 5000
    sampleChallenge alice "r" (.object (some "50013") none) (by decide) (by decide) (by decide)
    (fun _ => rfl) (fun _ => rfl) (by decide) rfl (by decide) (by decide) rfl).1


/-! ## The paths of the verify button -/

theorem makeChallenge_type (ms : List String) (rand : Nat → Draw) (now : Nat)
    (hrand : (rand 0).inUnit) (hch : "word" ∈ ms ∨ "math" ∈ ms) :
    ((makeChallenge (ms.filter (fun m => m == "word" || m == "math")) rand now).type = "word" ∨
      (makeChallenge (ms.filter (fun m => m == "word" || m == "math")) rand now).type = "math") ∧
    (makeChallenge (ms.filter (fun m => m == "word" || m == "math")) rand now).type ∈ ms := by
  have hpos : 0 < (ms.filter (fun m => m == "word" || m == "math")).length := by
    rcases hch with h | h
    · exact List.length_pos_of_mem (List.mem_filter.2 ⟨h, by simp⟩)
    · exact List.length_pos_of_mem (List.mem_filter.2 ⟨h, by simp⟩)
  have hlt := floorMul_lt (rand 0) _ hrand hpos
  obtain ⟨x, hget, hxmem⟩ : ∃ x, (ms.filter (fun m => m == "word" || m == "math")).get?
      (floorMul (rand 0) (ms.filter (fun m => m == "word" || m == "math")).length) = some x ∧
      x ∈ ms.filter (fun m => m == "word" || m == "math") :=
    ⟨_, List.get?_eq_get hlt, List.get_mem _ _ hlt⟩
  rw [List.mem_filter] at hxmem
  unfold makeChallenge
  simp only [hget]
  by_cases hw : x = "word"
  · subst hw
    simp only [beq_self_eq_true, ↓reduceIte, wordChallenge, true_or, true_and]
    exact hxmem.1
  · have hmath : x = "math" := by
      have := hxmem.2
      simp only [Bool.or_eq_true, beq_iff_eq] at this
      rcases this with h | h
      · exact absurd h hw
      · exact h
    subst hmath
    have hne : (some "math" == some "word") = false := by decide
    simp only [hne, Bool.false_eq_true, ↓reduceIte, mathChallenge, or_true, true_and]
    exact hxmem.1

theorem verifyButton_instant_test (ms : List String) :
    (!(ms.contains "word" || ms.contains "math") && ms.length == 1 &&
      ms.get? 0 == some "button") = true ↔ ms = ["button"] := by
  match ms with
  | [] => simp
  | [a] =>
    simp only [List.length_singleton, beq_self_eq_true, Bool.and_true, List.get?_cons_zero,
      Bool.and_eq_true, Bool.not_eq_true', Bool.or_eq_false_iff, beq_iff_eq,
      Option.some.injEq, List.cons.injEq, and_true]
    constructor
    · intro h; exact h.2
    · intro h; subst h; decide
  | a :: b :: l => simp

theorem verifyButton_none_path (env : Env) (w : World) (interaction : Interaction)
    (rand : Nat → Draw) (now : Nat) (cfg : Config) (ms : List String)
    (hcfg : w.config = some cfg) (hms : cfg.verificationMethods = some ms)
    (hno : ¬ ("word" ∈ ms ∨ "math" ∈ ms)) (hnb : ms ≠ ["button"]) :
    verify_button interaction rand now env w = (.ok (), { w with
      trace := w.trace ++ [.deferReply, .safeInteractionReply
        "No verification methods are enabled; contact an admin." false] }) := by
  have h1 : (!(ms.contains "word" || ms.contains "math") && ms.length == 1 &&
      ms.get? 0 == some "button") = false := by
    rw [Bool.eq_false_iff]
    exact fun h => hnb ((verifyButton_instant_test ms).1 h)
  have h2 : (ms.filter (fun m => m == "word" || m == "math")).length = 0 := by
    rw [List.length_eq_zero, List.filter_eq_nil_iff]
    intro a ha
    simp only [Bool.or_eq_true, beq_iff_eq, not_or]
    push_neg at hno
    exact ⟨fun h => hno.1 (h ▸ ha), fun h => hno.2 (h ▸ ha)⟩
  unfold verify_button
  simp only [Act.tryCatch, Act.bind_run, Act.andThen, Act.emit_run, Act.world_run, hcfg, hms]
  simp only [h1, Bool.false_eq_true, ↓reduceIte, beq_iff_eq, h2, reply,
    Act.emit_run, List.append_assoc, List.singleton_append]

theorem ext_weaken {P : Event → Prop} {α : Type} {x : Act α}
    (h : Act.Keeps (ext P true) x) : Act.Keeps (ext P false) x := by
  intro env w
  obtain ⟨h1, h2, h3, h4, h5, -⟩ := h env w
  exact ⟨h1, h2, h3, h4, h5, fun k => by cases k⟩

theorem membersFetch_keeps (userId : String) :
    Act.Keeps (ext (fun _ => True) false) (membersFetch userId) := by
  unfold membersFetch
  refine keeps_bind (ext_call trivial) (fun _ => keeps_bind keeps_world (fun w => ?_))
  split
  · exact keeps_pure _
  · exact keeps_throw _

theorem instantBranch_keeps (userId : String) :
    Act.Keeps (ext (fun _ => True) false) (do
      let member ← Act.catchNull (membersFetch userId)
      match member with
      | none => reply "Could not fetch your member record."
      | some member =>
        let w ← Act.world
        match w.SUS_ROLE_ID with
        | none => reply "You are not marked for verification."
        | some roleId =>
          if !truthy w.SUS_ROLE_ID || !(w.roles member.id).contains roleId then
            reply "You are not marked for verification."
          else
            queueAdd (withRetries
              (rolesRemove member roleId "Verified via instant button") 3 1000)
            logToChannel ("âœ…\n" ++ formatUserBlock member (getMemberPlatforms member)
              ++ "\nAction: verified via button") none
            reply "You have been verified. âœ…") := by
  refine keeps_bind (keeps_catchNull (membersFetch_keeps _)) (fun member => ?_)
  split
  · exact ext_emit trivial
  · refine keeps_bind keeps_world (fun w => ?_)
    split
    · exact ext_emit trivial
    · split
      · exact ext_emit trivial
      · refine keeps_bind (keeps_bind (ext_emit trivial) (fun _ => ?_)) (fun _ =>
          keeps_bind (ext_weaken (logToChannel_keeps (fun _ _ => trivial) _ _))
            (fun _ => ext_emit trivial))
        refine keeps_withRetries ?_ _ _ (fun _ => ext_emit trivial) (fun _ => ext_emit trivial)
        unfold rolesRemove
        exact ext_call trivial

theorem verifyButton_instant_store (env : Env) (w : World) (interaction : Interaction)
    (rand : Nat → Draw) (now : Nat) (cfg : Config)
    (hcfg : w.config = some cfg) (hms : cfg.verificationMethods = some ["button"]) :
    (verify_button interaction rand now env w).2.challengeStore = w.challengeStore := by
  have hc : (!(["button"].contains "word" || ["button"].contains "math") &&
      ["button"].length == 1 && ["button"].get? 0 == some "button") = true := by decide
  unfold verify_button
  simp only [Act.tryCatch, Act.bind_run, Act.andThen, Act.emit_run, Act.world_run, hcfg, hms]
  simp only [hc, ↓reduceIte]
  have hk := keeps_tryCatch (F := ext (fun _ => True) false)
    (instantBranch_keeps interaction.userId)
    (h := fun _ => do
      Act.emit (.consoleError "interactionCreate handler top-level error")
      reply "Temporary error occurred handling this interaction. Please try again.")
    (fun _ => keeps_bind (ext_emit trivial) (fun _ => ext_emit trivial)) env
    { w with config := some cfg, trace := w.trace ++ [.deferReply] }
  exact hk.2.2.2.1

theorem verifyButton_instant_removal (env : Env) (w : World) (interaction : Interaction)
    (rand : Nat → Draw) (now : Nat) (cfg : Config) (member : Member) (r : String)
    (hcfg : w.config = some cfg) (hms : cfg.verificationMethods = some ["button"])
    (hmf : ∀ n, env.outcome n (.membersFetch interaction.userId) = none)
    (hm : w.guildMembers.find? (fun m => m.id == interaction.userId) = some member)
    (hr : w.SUS_ROLE_ID = some r) (ht : r ≠ "") (hyes : r ∈ w.roles member.id) :
    w.trace ++ [Event.deferReply, Event.membersFetch interaction.userId, Event.queueAdd,
        Event.rolesRemove member.id r "Verified via instant button"]
      <+: (verify_button interaction rand now env w).2.trace := by
  have hc : (!(["button"].contains "word" || ["button"].contains "math") &&
      ["button"].length == 1 && ["button"].get? 0 == some "button") = true := by decide
  obtain ⟨evs, hevs⟩ := rolesRemove_retry_first env
    { w with config := some cfg, SUS_ROLE_ID := some r, trace := w.trace ++ [.deferReply,
      .membersFetch interaction.userId, .queueAdd] } member r "Verified via instant button"
  unfold verify_button
  simp only [Act.tryCatch, Act.bind_run, Act.andThen, Act.emit_run, Act.world_run, hcfg, hms]
  simp only [hc, ↓reduceIte]
  simp only [Act.catchNull, membersFetch, Act.call, hmf, Act.bind_run, Act.andThen, Act.world_run,
    hm, hr, truthy, ht, hyes, queueAdd, Act.emit_run, reply, Pure.pure, Act.ret,
    List.append_assoc, List.singleton_append, List.cons_append, List.nil_append]
  have hcond : (!(r != "") || !(w.roles member.id).contains r) = false := by
    simp [ht, hyes]
  simp only [hcond, Bool.false_eq_true, ↓reduceIte, Act.bind_run, Act.andThen, Act.emit_run,
    List.append_assoc, List.singleton_append, List.cons_append, List.nil_append]
  rcases hq : withRetries (rolesRemove member r "Verified via instant button") 3 1000 env
    { w with config := some cfg, SUS_ROLE_ID := some r, trace := w.trace ++ [.deferReply,
      .membersFetch interaction.userId, .queueAdd] } with ⟨res, w5⟩
  rw [hq] at hevs
  dsimp only at hevs
  have h5 : w.trace ++ [Event.deferReply, Event.membersFetch interaction.userId, Event.queueAdd,
      Event.rolesRemove member.id r "Verified via instant button"] <+: w5.trace :=
    ⟨evs, by rw [hevs]; simp⟩
  cases res with
  | error e =>
    dsimp only
    exact h5.trans (List.prefix_append _ _)
  | ok u =>
    dsimp only
    obtain ⟨⟨e2, he2, -⟩, -⟩ := logToChannel_keeps (P := fun _ => True) (fun _ _ => trivial)
      ("âœ…\n" ++ formatUserBlock member (getMemberPlatforms member)
        ++ "\nAction: verified via button") none env w5
    rcases hl : logToChannel ("âœ…\n" ++ formatUserBlock member (getMemberPlatforms member)
        ++ "\nAction: verified via button") none env w5 with ⟨res2, w6⟩
    rw [hl] at he2
    dsimp only at he2
    have h6 : w5.trace <+: w6.trace := ⟨e2, he2.symm⟩
    cases res2 with
    | error e =>
      dsimp only
      exact (h5.trans h6).trans (List.prefix_append _ _)
    | ok u2 =>
      dsimp only
      exact (h5.trans h6).trans (List.prefix_append _ _)

/-- Claim C26: for every configured `verificationMethods` list and a draw in
[0,1), a click on the verify button takes the instant path if and only if the
list is exactly `["button"]`: for a member who is found and holds the marker role
the click requests a role removal if and only if the list is `["button"]`, and
then without a challenge, the challenge store staying as it was; for every other
list no role removal is requested and no role changes.  Whenever `word` or
`math` is in the list, also together with `button`, the click stores a challenge
whose kind is `word` or `math` and is in the list, and requests no role
removal. -/
theorem verify_button_instant_iff_only_button (env : Env) (w : World)
    (interaction : Interaction) (rand : Nat → Draw) (now : Nat) (cfg : Config)
    (ms : List String) (hcfg : w.config = some cfg) (hms : cfg.verificationMethods = some ms)
    (hrand : (rand 0).inUnit) :
    (∀ member r, (∀ n, env.outcome n (.membersFetch interaction.userId) = none) →
      w.guildMembers.find? (fun m => m.id == interaction.userId) = some member →
      w.SUS_ROLE_ID = some r → r ≠ "" → r ∈ w.roles member.id →
      ((∃ e ∈ newEvents w (verify_button interaction rand now env w).2, e.isRolesRemove = true)
        ↔ ms = ["button"])) ∧
    (ms = ["button"] →
      (verify_button interaction rand now env w).2.challengeStore = w.challengeStore) ∧
    (ms ≠ ["button"] →
      (∀ e ∈ newEvents w (verify_button interaction rand now env w).2, e.isRolesRemove = false) ∧
      (verify_button interaction rand now env w).2.roles = w.roles) ∧
    (("word" ∈ ms ∨ "math" ∈ ms) →
      ∃ c, storeGet (verify_button interaction rand now env w).2.challengeStore
          (challengeKey interaction) = some c ∧
        (c.type = "word" ∨ c.type = "math") ∧ c.type ∈ ms ∧
        (∀ e ∈ newEvents w (verify_button interaction rand now env w).2,
          e.isRolesRemove = false) ∧
        (verify_button interaction rand now env w).2.roles = w.roles) := by
  have hother : ms ≠ ["button"] →
      (∀ e ∈ newEvents w (verify_button interaction rand now env w).2, e.isRolesRemove = false) ∧
      (verify_button interaction rand now env w).2.roles = w.roles := by
    intro hnb
    by_cases hch : "word" ∈ ms ∨ "math" ∈ ms
    · rw [verifyButton_challenge_path env w interaction rand now cfg ms hcfg hms hch]
      refine ⟨?_, rfl⟩
      intro e he
      simp only [newEvents, List.drop_left, List.mem_cons, List.mem_singleton,
        List.not_mem_nil, or_false] at he
      rcases he with he | he <;> rw [he] <;> rfl
    · rw [verifyButton_none_path env w interaction rand now cfg ms hcfg hms hch hnb]
      refine ⟨?_, rfl⟩
      intro e he
      simp only [newEvents, List.drop_left, List.mem_cons, List.mem_singleton,
        List.not_mem_nil, or_false] at he
      rcases he with he | he <;> rw [he] <;> rfl
  refine ⟨?_, ?_, hother, ?_⟩
  · intro member r hmf hm hr ht hyes
    constructor
    · rintro ⟨e, he, hrem⟩
      by_contra hnb
      rw [(hother hnb).1 e he] at hrem
      cases hrem
    · intro hb
      subst hb
      obtain ⟨t, ht2⟩ := verifyButton_instant_removal env w interaction rand now cfg member r
        hcfg hms hmf hm hr ht hyes
      refine ⟨.rolesRemove member.id r "Verified via instant button", ?_, rfl⟩
      rw [newEvents, ← ht2]
      simp
  · intro hb
    subst hb
    exact verifyButton_instant_store env w interaction rand now cfg hcfg hms
  · intro hch
    have hnb : ms ≠ ["button"] := by
      intro hb
      subst hb
      rcases hch with h | h <;> simp at h
    have ho := hother hnb
    have hty := makeChallenge_type ms rand now hrand hch
    rw [verifyButton_challenge_path env w interaction rand now cfg ms hcfg hms hch] at ho ⊢
    exact ⟨_, storeGet_storeSet _ _ _, hty.1, hty.2, ho.1, ho.2⟩

/-- Witness of C26: with `button` and `word` enabled, the click of a member who
holds the marker role stores a word challenge. -/
theorem verify_button_instant_iff_only_button_witness :
    ∃ c, storeGet (verify_button ⟨"g", "u"⟩ halfDraws 0 sampleEnv
          (sampleWorld ["button", "word"] ["r"] [] 30)).2.challengeStore
          (challengeKey ⟨"g", "u"⟩) = some c ∧
        (c.type = "word" ∨ c.type = "math") ∧ c.type ∈ ["button", "word"] ∧
        (∀ e ∈ newEvents (sampleWorld ["button", "word"] ["r"] [] 30)
          (verify_button ⟨"g", "u"⟩ halfDraws 0 sampleEnv
            (sampleWorld ["button", "word"] ["r"] [] 30)).2, e.isRolesRemove = false) ∧
        (verify_button ⟨"g", "u"⟩ halfDraws 0 sampleEnv
            (sampleWorld ["button", "word"] ["r"] [] 30)).2.roles
          = (sampleWorld ["button", "word"] ["r"] [] 30).roles :=
  (verify_button_instant_iff_only_button sampleEnv (sampleWorld ["button", "word"] ["r"] [] 30)
    ⟨"g", "u"⟩ halfDraws 0 _ ["button", "word"] rfl rfl (by decide)).2.2.2 (by decide)


/-! ## Overlapping submissions -/

/-- Running a handler from its invocation through both of its runs is the
handler `verify_modal`. -/
theorem verify_modal_run_twice (interaction : Interaction) (input : String) (now : Nat)
    (env : Env) (w : World) :
    ((do
      let s ← verify_modal_run interaction input now .start
      let _ ← verify_modal_run interaction input now s
      pure ()) : Act Unit) env w = verify_modal interaction input now env w := by
  unfold verify_modal
  simp only [verify_modal_run, verify_modal_head, Act.tryCatch, Bind.bind, Act.andThen, Act.world,
    reply, Act.emit, Act.update, Pure.pure, Act.ret, Act.catchNull]
  cases hs : storeGet w.challengeStore (challengeKey interaction) with
  | none => rfl
  | some ch =>
    dsimp only
    by_cases hexp : now > ch.expiresAt
    · simp only [hexp, ↓reduceIte, Act.andThen, Act.update, Act.emit, Act.ret, verify_modal_run,
        Pure.pure]
    · simp only [hexp, ↓reduceIte]
      by_cases hans : (jsTrim input == ch.answer) = true
      · simp only [hans, ↓reduceIte, Act.andThen, Act.catchNull]
        rcases hg : Act.call (.guildsFetch interaction.guildId) env w with ⟨rg, wg⟩
        cases rg with
        | error e =>
          simp only [Act.andThen, Act.update, Act.emit, Act.ret, verify_modal_run, Pure.pure]
        | ok u =>
          simp only [Act.andThen, Act.catchNull]
          rcases hm : membersFetch interaction.userId env wg with ⟨rm, wm⟩
          cases rm with
          | error e =>
            simp only [Act.andThen, Act.update, Act.emit, Act.ret, verify_modal_run, Pure.pure]
          | ok member =>
            simp only [Act.andThen, Act.world]
            cases hr : wm.SUS_ROLE_ID with
            | none =>
              simp only [Act.andThen, Act.update, Act.emit, Act.ret, verify_modal_run, Pure.pure]
            | some r =>
              dsimp only
              by_cases hc : (!truthy (some r) || !(wm.roles member.id).contains r) = true
              · simp only [hc, ↓reduceIte, Act.andThen, Act.update, Act.emit, Act.ret,
                  verify_modal_run, Pure.pure]
              · rw [Bool.not_eq_true] at hc
                simp only [hc, Bool.false_eq_true, ↓reduceIte, Act.andThen, Act.update, Act.emit,
                  Act.ret, verify_modal_run, Pure.pure, Act.tryCatch, Bind.bind, reply]
                rcases ht : verify_modal_tail interaction member r env
                  { wm with trace := wm.trace ++ [.deferReply] } with ⟨rt, wt⟩
                cases rt <;> rfl
      · rw [Bool.not_eq_true] at hans
        simp only [hans, Bool.false_eq_true, ↓reduceIte, Act.andThen, Act.update, Act.emit,
          Act.ret, verify_modal_run, Pure.pure]

theorem modalHead_marked (env : Env) (w : World) (interaction : Interaction)
    (input : String) (now : Nat) (ch : Challenge) (member : Member) (r : String)
    (hch : storeGet w.challengeStore (challengeKey interaction) = some ch)
    (hexp : ¬ now > ch.expiresAt) (hans : jsTrim input = ch.answer)
    (hg : ∀ n, env.outcome n (.guildsFetch interaction.guildId) = none)
    (hmf : ∀ n, env.outcome n (.membersFetch interaction.userId) = none)
    (hm : w.guildMembers.find? (fun m => m.id == interaction.userId) = some member)
    (hr : w.SUS_ROLE_ID = some r) (ht : r ≠ "") (hyes : r ∈ w.roles member.id) :
    verify_modal_run interaction input now .start env w
      = (.ok (.deferred member r), { w with trace := w.trace ++
          [.guildsFetch interaction.guildId, .membersFetch interaction.userId, .deferReply] }) := by
  simp [verify_modal_run, verify_modal_head, Act.tryCatch, Act.andThen, Act.catchNull, Act.call,
    membersFetch, hch, hexp, hans, hg, hmf, hm, hr, ht, hyes, truthy]

theorem modalHead_absent (env : Env) (w : World) (interaction : Interaction)
    (input : String) (now : Nat)
    (hch : storeGet w.challengeStore (challengeKey interaction) = none) :
    verify_modal_run interaction input now .start env w
      = (.ok .returned, w.push (.safeInteractionReply
          "No active challenge found or it expired. Click Verify again to start a new challenge."
          false)) := by
  simp [verify_modal_run, verify_modal_head, Act.tryCatch, Act.andThen, hch, reply, World.push]

theorem modalTail_accepted (env : Env) (w : World) (interaction : Interaction)
    (input : String) (now : Nat) (member : Member) (r : String)
    (hacc : ∀ n, env.outcome n (.rolesRemove member.id r "Verified via challenge") = none) :
    ∃ logs, (∀ e ∈ logs, e.isNotice = true) ∧
      verify_modal_run interaction input now (.deferred member r) env w
        = (.ok .returned, { w with
            challengeStore := storeDelete w.challengeStore (challengeKey interaction)
            trace := w.trace ++ [.queueAdd, .rolesRemove member.id r "Verified via challenge"]
              ++ logs ++ [.safeInteractionReply "âœ… Correct â€” you are verified and can now access the server." false] }) := by
  have hrm := rolesRemove_accepted env (w.push .queueAdd) member r "Verified via challenge"
    (hacc _)
  simp only [verify_modal_run]
  unfold verify_modal_tail queueAdd
  simp only [Act.tryCatch, Act.bind_run, Act.andThen, Act.emit_run, reply]
  simp only [World.push] at hrm
  rw [hrm]
  dsimp only
  have hok := logToChannel_ok env { w with
      trace := w.trace ++ [.queueAdd] ++ [.rolesRemove member.id r "Verified via challenge"] }
    ("âœ…\n" ++ formatUserBlock member (getMemberPlatforms member)
        ++ "\nAction: verified via challenge") none
  have hk := logToChannel_keeps (P := fun e => e.isNotice = true) (fun _ h => h)
    ("âœ…\n" ++ formatUserBlock member (getMemberPlatforms member)
        ++ "\nAction: verified via challenge") none env { w with
      trace := w.trace ++ [.queueAdd] ++ [.rolesRemove member.id r "Verified via challenge"] }
  rcases hl : logToChannel ("âœ…\n" ++ formatUserBlock member (getMemberPlatforms member)
        ++ "\nAction: verified via challenge") none env { w with
      trace := w.trace ++ [.queueAdd] ++ [.rolesRemove member.id r "Verified via challenge"] } with ⟨res2, w6⟩
  rw [hl] at hok hk
  dsimp only at hok
  subst hok
  obtain ⟨⟨logs, htr, hP⟩, h1, h2, h3, h4, h5⟩ := hk
  dsimp only at htr h1 h2 h3 h4 h5
  refine ⟨logs, hP, ?_⟩
  rcases w6 with ⟨c6, s6, st6, ro6, g6, tr6⟩
  dsimp only at htr h1 h2 h3 h4 h5 ⊢
  subst htr h1 h2 h3 h4
  rw [h5 rfl]
  simp

theorem overlap_interleaved_trace (env : Env) (w : World) (interaction : Interaction)
    (input : String) (now1 now2 : Nat) (ch : Challenge) (member : Member) (r : String)
    (hch : storeGet w.challengeStore (challengeKey interaction) = some ch)
    (hexp1 : ¬ now1 > ch.expiresAt) (hexp2 : ¬ now2 > ch.expiresAt)
    (hans : jsTrim input = ch.answer)
    (hg : ∀ n, env.outcome n (.guildsFetch interaction.guildId) = none)
    (hmf : ∀ n, env.outcome n (.membersFetch interaction.userId) = none)
    (hm : w.guildMembers.find? (fun m => m.id == interaction.userId) = some member)
    (hr : w.SUS_ROLE_ID = some r) (ht : r ≠ "") (hyes : r ∈ w.roles member.id)
    (hacc : ∀ n, env.outcome n (.rolesRemove member.id r "Verified via challenge") = none) :
    ∃ logs1 logs2, (∀ e ∈ logs1, e.isNotice = true) ∧ (∀ e ∈ logs2, e.isNotice = true) ∧
      (overlap interaction input now1 now2 [false, true, false, true] (.start, .start) env w).2.trace
        = w.trace ++ ([.guildsFetch interaction.guildId, .membersFetch interaction.userId,
            .deferReply, .guildsFetch interaction.guildId, .membersFetch interaction.userId,
            .deferReply, .queueAdd, .rolesRemove member.id r "Verified via challenge"]
          ++ logs1 ++ [.safeInteractionReply "âœ… Correct â€” you are verified and can now access the server." false, .queueAdd,
            .rolesRemove member.id r "Verified via challenge"]
          ++ logs2 ++ [.safeInteractionReply "âœ… Correct â€” you are verified and can now access the server." false]) := by
  have h1 := modalHead_marked env w interaction input now1 ch member r hch hexp1 hans hg hmf hm
    hr ht hyes
  have h2 := modalHead_marked env { w with trace := w.trace ++
      [.guildsFetch interaction.guildId, .membersFetch interaction.userId, .deferReply] }
    interaction input now2 ch member r hch hexp2 hans hg hmf hm hr ht hyes
  simp only [overlap, Bind.bind, Act.andThen, h1, h2]
  obtain ⟨logs1, hl1, h3⟩ := modalTail_accepted env { w with trace := w.trace ++
      [.guildsFetch interaction.guildId, .membersFetch interaction.userId, .deferReply] ++
      [.guildsFetch interaction.guildId, .membersFetch interaction.userId, .deferReply] }
    interaction input now1 member r hacc
  rw [h3]
  dsimp only
  obtain ⟨logs2, hl2, h4⟩ := modalTail_accepted env { w with
      challengeStore := storeDelete w.challengeStore (challengeKey interaction)
      trace := w.trace ++
        [.guildsFetch interaction.guildId, .membersFetch interaction.userId, .deferReply] ++
        [.guildsFetch interaction.guildId, .membersFetch interaction.userId, .deferReply] ++
        [.queueAdd, .rolesRemove member.id r "Verified via challenge"]
        ++ logs1 ++ [.safeInteractionReply "âœ… Correct â€” you are verified and can now access the server." false] }
    interaction input now2 member r hacc
  rw [h4]
  refine ⟨logs1, logs2, hl1, hl2, ?_⟩
  simp [Pure.pure, Act.ret]

theorem overlap_sequential_trace (env : Env) (w : World) (interaction : Interaction)
    (input : String) (now1 now2 : Nat) (ch : Challenge) (member : Member) (r : String)
    (hch : storeGet w.challengeStore (challengeKey interaction) = some ch)
    (hexp1 : ¬ now1 > ch.expiresAt) (hans : jsTrim input = ch.answer)
    (hg : ∀ n, env.outcome n (.guildsFetch interaction.guildId) = none)
    (hmf : ∀ n, env.outcome n (.membersFetch interaction.userId) = none)
    (hm : w.guildMembers.find? (fun m => m.id == interaction.userId) = some member)
    (hr : w.SUS_ROLE_ID = some r) (ht : r ≠ "") (hyes : r ∈ w.roles member.id)
    (hacc : ∀ n, env.outcome n (.rolesRemove member.id r "Verified via challenge") = none) :
    ∃ logs1, (∀ e ∈ logs1, e.isNotice = true) ∧
      (overlap interaction input now1 now2 [false, false, true, true] (.start, .start) env w).2.trace
        = w.trace ++ ([.guildsFetch interaction.guildId, .membersFetch interaction.userId,
            .deferReply, .queueAdd, .rolesRemove member.id r "Verified via challenge"]
          ++ logs1 ++ [.safeInteractionReply "âœ… Correct â€” you are verified and can now access the server." false,
            .safeInteractionReply
              "No active challenge found or it expired. Click Verify again to start a new challenge."
              false]) := by
  have h1 := modalHead_marked env w interaction input now1 ch member r hch hexp1 hans hg hmf hm
    hr ht hyes
  simp only [overlap, Bind.bind, Act.andThen, h1]
  obtain ⟨logs1, hl1, h3⟩ := modalTail_accepted env { w with trace := w.trace ++
      [.guildsFetch interaction.guildId, .membersFetch interaction.userId, .deferReply] }
    interaction input now1 member r hacc
  rw [h3]
  dsimp only
  rw [modalHead_absent env _ interaction input now2 (storeGet_storeDelete _ _)]
  refine ⟨logs1, hl1, ?_⟩
  simp [Pure.pure, Act.ret, World.push, verify_modal_run]

theorem countP_remove_notice (logs : List Event) (h : ∀ e ∈ logs, e.isNotice = true) :
    logs.countP Event.isRolesRemove = 0 := by
  rw [List.countP_eq_zero]
  intro e he
  have := h e he
  cases e <;> simp_all [Event.isNotice, Event.isRolesRemove]

/-- Claim C21, counterexample: two `verify_modal` handlers are invoked with the
correct answer for the live challenge of a member who holds the marker role, and
the second runs to its `deferReply` while the first is suspended at its own.
Both find the challenge live, so the marker role removal is requested twice, and
the reply that no active challenge was found is not made. -/
theorem verify_modal_overlap_removes_twice :
    (newEvents (sampleWorld ["word"] ["r"] [("g-u", sampleChallenge)] 30)
        (overlap ⟨"g", "u"⟩ "abcdef" 1000 1000 [false, true, false, true] (.start, .start)
          sampleEnv (sampleWorld ["word"] ["r"] [("g-u", sampleChallenge)] 30)).2).countP
      Event.isRolesRemove = 2 ∧
    Event.safeInteractionReply
        "No active challenge found or it expired. Click Verify again to start a new challenge."
        false ∉
      newEvents (sampleWorld ["word"] ["r"] [("g-u", sampleChallenge)] 30)
        (overlap ⟨"g", "u"⟩ "abcdef" 1000 1000 [false, true, false, true] (.start, .start)
          sampleEnv (sampleWorld ["word"] ["r"] [("g-u", sampleChallenge)] 30)).2 := by
  obtain ⟨logs1, logs2, h1, h2, htr⟩ := overlap_interleaved_trace sampleEnv
    (sampleWorld ["word"] ["r"] [("g-u", sampleChallenge)] 30) ⟨"g", "u"⟩ "abcdef" 1000 1000
    sampleChallenge alice "r" (by decide) (by decide) (by decide) (by decide) (fun _ => rfl)
    (fun _ => rfl) (by decide) rfl (by decide) (by decide) (fun _ => rfl)
  rw [newEvents, htr, List.drop_left]
  constructor
  · simp only [List.countP_append, countP_remove_notice logs1 h1, countP_remove_notice logs2 h2]
    rfl
  · have hn1 : Event.safeInteractionReply
        "No active challenge found or it expired. Click Verify again to start a new challenge."
        false ∉ logs1 := fun hin => absurd (h1 _ hin) (by decide)
    have hn2 : Event.safeInteractionReply
        "No active challenge found or it expired. Click Verify again to start a new challenge."
        false ∉ logs2 := fun hin => absurd (h2 _ hin) (by decide)
    simp only [List.mem_append, hn1, hn2, or_false, false_or, not_or]
    refine ⟨⟨?_, ?_⟩, ?_⟩ <;> decide

theorem verifyModal_accepted_run (env : Env) (w : World) (interaction : Interaction)
    (input : String) (now : Nat) (ch : Challenge) (member : Member) (r : String)
    (hch : storeGet w.challengeStore (challengeKey interaction) = some ch)
    (hexp : ¬ now > ch.expiresAt) (hans : jsTrim input = ch.answer)
    (hg : ∀ n, env.outcome n (.guildsFetch interaction.guildId) = none)
    (hmf : ∀ n, env.outcome n (.membersFetch interaction.userId) = none)
    (hm : w.guildMembers.find? (fun m => m.id == interaction.userId) = some member)
    (hr : w.SUS_ROLE_ID = some r) (ht : r ≠ "") (hyes : r ∈ w.roles member.id)
    (hacc : ∀ n, env.outcome n (.rolesRemove member.id r "Verified via challenge") = none) :
    ∃ logs, (∀ e ∈ logs, e.isNotice = true) ∧
      verify_modal interaction input now env w = (.ok (), { w with
        challengeStore := storeDelete w.challengeStore (challengeKey interaction)
        trace := w.trace ++ [.guildsFetch interaction.guildId,
          .membersFetch interaction.userId, .deferReply] ++
          [.queueAdd, .rolesRemove member.id r "Verified via challenge"]
          ++ logs ++ [.safeInteractionReply "âœ… Correct â€” you are verified and can now access the server." false] }) := by
  have h1 := modalHead_marked env w interaction input now ch member r hch hexp hans hg hmf hm
    hr ht hyes
  obtain ⟨logs, hl, h3⟩ := modalTail_accepted env { w with trace := w.trace ++
      [.guildsFetch interaction.guildId, .membersFetch interaction.userId, .deferReply] }
    interaction input now member r hacc
  refine ⟨logs, hl, ?_⟩
  rw [← verify_modal_run_twice]
  simp only [Bind.bind, Act.andThen, h1, h3]
  rfl

/-- Claim C21, amended: a `verify_modal` submission with the correct answer for
a live challenge of a member who is found and holds the marker role, handled when
the platform accepts the removal, and then handled a second time after the first
handler has returned: the marker role removal is requested exactly once, the
second handler ends with the reply that no active challenge was found, and the
challenge is gone. -/
theorem verify_modal_twice_in_turn (env : Env) (w : World) (interaction : Interaction)
    (input : String) (now1 now2 : Nat) (ch : Challenge) (member : Member) (r : String)
    (hch : storeGet w.challengeStore (challengeKey interaction) = some ch)
    (hexp : ¬ now1 > ch.expiresAt) (hans : jsTrim input = ch.answer)
    (hg : ∀ n, env.outcome n (.guildsFetch interaction.guildId) = none)
    (hmf : ∀ n, env.outcome n (.membersFetch interaction.userId) = none)
    (hm : w.guildMembers.find? (fun m => m.id == interaction.userId) = some member)
    (hr : w.SUS_ROLE_ID = some r) (ht : r ≠ "") (hyes : r ∈ w.roles member.id)
    (hacc : ∀ n, env.outcome n (.rolesRemove member.id r "Verified via challenge") = none) :
    (newEvents w ((verify_modal interaction input now1 >>= fun _ =>
        verify_modal interaction input now2) env w).2).countP Event.isRolesRemove = 1 ∧
    (∃ evs, newEvents w ((verify_modal interaction input now1 >>= fun _ =>
        verify_modal interaction input now2) env w).2 = evs ++ [.safeInteractionReply
          "No active challenge found or it expired. Click Verify again to start a new challenge."
          false]) ∧
    storeGet ((verify_modal interaction input now1 >>= fun _ =>
        verify_modal interaction input now2) env w).2.challengeStore
      (challengeKey interaction) = none := by
  obtain ⟨logs, hl, h1⟩ := verifyModal_accepted_run env w interaction input now1 ch member r hch
    hexp hans hg hmf hm hr ht hyes hacc
  have h2 : ∀ w2 : World, storeGet w2.challengeStore (challengeKey interaction) = none →
      verify_modal interaction input now2 env w2 = (.ok (), w2.push (.safeInteractionReply
        "No active challenge found or it expired. Click Verify again to start a new challenge."
        false)) := by
    intro w2 h
    rw [← verify_modal_run_twice]
    simp only [Bind.bind, Act.andThen, modalHead_absent env w2 interaction input now2 h]
    rfl
  simp only [Bind.bind, Act.andThen, h1]
  rw [h2 _ (storeGet_storeDelete _ _)]
  refine ⟨?_, ?_, storeGet_storeDelete _ _⟩
  · simp only [newEvents, World.push, List.append_assoc, List.drop_left, List.countP_append,
      countP_remove_notice logs hl]
    rfl
  · exact ⟨[.guildsFetch interaction.guildId, .membersFetch interaction.userId, .deferReply,
      .queueAdd, .rolesRemove member.id r "Verified via challenge"] ++ logs ++
      [.safeInteractionReply "âœ… Correct â€” you are verified and can now access the server." false], by simp [newEvents, World.push]⟩

/-- Witness of C21: the second submission comes after the first has been
handled. -/
theorem verify_modal_twice_in_turn_witness :
    (newEvents (sampleWorld ["word"] ["r"] [("g-u", sampleChallenge)] 30)
        ((verify_modal ⟨"g", "u"⟩ "abcdef" 1000 >>= fun _ =>
          verify_modal ⟨"g", "u"⟩ "abcdef" 1000) sampleEnv
          (sampleWorld ["word"] ["r"] [("g-u", sampleChallenge)] 30)).2).countP
      Event.isRolesRemove = 1 :=
  (verify_modal_twice_in_turn sampleEnv
    (sampleWorld ["word"] ["r"] [("g-u", sampleChallenge)] 30) ⟨"g", "u"⟩ "abcdef" 1000 1000
    sampleChallenge alice "r" (by decide) (by decide) (by decide) (fun _ => rfl)
    (fun _ => rfl) (by decide) rfl (by decide) (by decide) (fun _ => rfl)).1


/-! ## The action queue -/

theorem ordered_create : ActionQueue.create.Ordered := ⟨rfl, by decide, rfl⟩

theorem ordered_add (q : ActionQueue) (task : Job) (h : q.Ordered) : (q.add task).Ordered := by
  obtain ⟨h1, h2, h3⟩ := h
  refine ⟨h1, h2, ?_⟩
  simp only [ActionQueue.add, List.map_append, List.map_cons, List.map_nil]
  rw [← List.append_assoc, h3, List.range_succ]

theorem ordered_dispatch (q : ActionQueue) (h : q.Ordered) : q.dispatch.Ordered := by
  obtain ⟨h1, h2, h3⟩ := h
  unfold ActionQueue.dispatch
  split
  · exact ⟨h1, h2, h3⟩
  · rename_i t rest hw
    split
    · rename_i hg
      simp only [Bool.and_eq_true, decide_eq_true_eq] at hg
      refine ⟨h1, ?_, ?_⟩
      · simp only [List.length_append, List.length_singleton]
        rw [h1] at hg
        omega
      · rw [hw] at h3
        simpa using h3
    · exact ⟨h1, h2, h3⟩

theorem ordered_settle (q : ActionQueue) (id : Nat) (ok : Bool) (h : q.Ordered) :
    (q.settle id ok).Ordered := by
  obtain ⟨h1, h2, h3⟩ := h
  exact ⟨h1, (List.length_filter_le _ _).trans h2, h3⟩

theorem ordered_setJob (q : ActionQueue) (id : Nat) (job : Job) (h : q.Ordered) :
    (q.setJob id job).Ordered := by
  obtain ⟨h1, h2, h3⟩ := h
  exact ⟨h1, by simpa [ActionQueue.setJob] using h2, h3⟩

theorem ordered_resume (env : Env) (m : Machine) (id : Nat) (h : m.queue.Ordered) :
    (m.resume env id).queue.Ordered := by
  unfold Machine.resume
  split
  · exact h
  · split
    · exact ordered_settle _ _ _ h
    · split
      · exact ordered_setJob _ _ _ h
      · exact ordered_settle _ _ _ h
    · exact ordered_setJob _ _ _ (ordered_add _ _ h)
    · split
      · exact h
      · exact ordered_setJob _ _ _ h
      · exact ordered_settle _ _ _ h

theorem ordered_move (env : Env) (m : Machine) (mv : Move) (h : m.queue.Ordered) :
    (m.move env mv).queue.Ordered := by
  cases mv with
  | submit task => exact ordered_add _ _ h
  | dispatch => exact ordered_dispatch _ h
  | resume id => exact ordered_resume env m id h
  | interval => exact h

theorem ordered_run (env : Env) (moves : List Move) :
    ∀ m : Machine, m.queue.Ordered → (m.run env moves).queue.Ordered := by
  induction moves with
  | nil => intro m h; exact h
  | cons mv rest ih =>
    intro m h
    exact ih _ (ordered_move env m mv h)

/-- Claim C22: for the queue as index.js creates it, whatever tasks are
submitted, by handlers or by tasks, and however the process goes on: at most one
task is in flight at any time, and the tasks are started in the order of their
submission, the tasks started so far being the first of the submitted ones. -/
theorem queue_one_in_flight_fifo (env : Env) (w : World) (moves : List Move) :
    (Machine.run env ⟨w, ActionQueue.create⟩ moves).queue.running.length ≤ 1 ∧
    (Machine.run env ⟨w, ActionQueue.create⟩ moves).queue.started ++
        (Machine.run env ⟨w, ActionQueue.create⟩ moves).queue.waiting.map Prod.fst
      = List.range (Machine.run env ⟨w, ActionQueue.create⟩ moves).queue.nextId ∧
    (Machine.run env ⟨w, ActionQueue.create⟩ moves).queue.started
      = List.range (Machine.run env ⟨w, ActionQueue.create⟩ moves).queue.started.length := by
  obtain ⟨-, h2, h3⟩ := ordered_run env moves ⟨w, ActionQueue.create⟩ ordered_create
  refine ⟨h2, h3, ?_⟩
  have hp : (Machine.run env ⟨w, ActionQueue.create⟩ moves).queue.started
      <+: List.range (Machine.run env ⟨w, ActionQueue.create⟩ moves).queue.nextId :=
    ⟨_, h3⟩
  have ht := List.prefix_iff_eq_take.1 hp
  rw [List.take_range] at ht
  have hle := hp.length_le
  rw [List.length_range] at hle
  rw [Nat.min_eq_left hle] at ht
  exact ht

/-! ## The bulk apply -/

theorem stuck_confirm (w : World) (uid : String) (member : Member) (r : String)
    (hr : w.SUS_ROLE_ID = some r) :
    Stuck w uid member r (applySusConfirm [uid] ⟨w, ActionQueue.create⟩) := by
  refine ⟨hr, rfl, rfl, ⟨[_], rfl, ?_⟩, rfl, rfl, Or.inl ⟨rfl, rfl, [], rfl⟩⟩
  intro e he
  rw [List.mem_singleton.1 he]
  rfl

theorem stuck_resume (env : Env) (w : World) (uid : String) (member : Member) (r : String)
    (hfind : w.guildMembers.find? (fun m => m.id == uid) = some member)
    (hmf : ∀ n, env.outcome n (.membersFetch uid) = none)
    (ht : r ≠ "") (hno : r ∉ w.roles member.id) (m : Machine) (id : Nat)
    (h : Stuck w uid member r m) : Stuck w uid member r (m.resume env id) := by
  obtain ⟨h1, h2, h3, ⟨evs, h4, h5⟩, h6, h7, h8⟩ := h
  rcases h8 with ⟨hrun, hst, rest, hw⟩ | ⟨j, hj, hrun, hst⟩
  · have : m.resume env id = m := by
      simp [Machine.resume, hrun]
    rw [this]
    exact ⟨h1, h2, h3, ⟨evs, h4, h5⟩, h6, h7, Or.inl ⟨hrun, hst, rest, hw⟩⟩
  · by_cases hid : id = 0
    · subst hid
      cases hj with
      | fetch =>
        have hrun2 : m.resume env 0 = ⟨m.world.push (.membersFetch uid),
            m.queue.setJob 0 (addSusJob member "Marked via scan applySus"
              (.seg processDelay fun _ => .done))⟩ := by
          simp [Machine.resume, hrun, bulkJob, Act.catchNull, membersFetch, Bind.bind,
            Act.andThen, Act.call, hmf, Act.world, h3, hfind, Pure.pure, Act.ret, World.push]
        rw [hrun2]
        refine ⟨h1, h2, h3, ⟨evs ++ [.membersFetch uid], by simp [World.push, h4], ?_⟩, h6, h7,
          Or.inr ⟨_, .check, by simp [ActionQueue.setJob, hrun], hst⟩⟩
        intro e he
        rcases List.mem_append.1 he with he | he
        · exact h5 e he
        · rw [List.mem_singleton.1 he]; rfl
      | check =>
        have hc : r ∉ m.world.roles member.id := by
          rw [h2]; exact hno
        have hrun2 : m.resume env 0 = ⟨m.world, m.queue.setJob 0
            (.enqueue (.seg (addSusTask member r "Marked via scan applySus") fun _ => .done)
              (.seg processDelay fun _ => .done))⟩ := by
          simp [Machine.resume, hrun, addSusJob, Act.world, h1, truthy, ht, hc]
        rw [hrun2]
        exact ⟨h1, h2, h3, ⟨evs, h4, h5⟩, h6, h7,
          Or.inr ⟨_, .submit, by simp [ActionQueue.setJob, hrun], hst⟩⟩
      | submit =>
        have hrun2 : m.resume env 0 = ⟨m.world, (m.queue.add
            (.seg (addSusTask member r "Marked via scan applySus") fun _ => .done)).setJob 0
              (.waitFor m.queue.nextId (.seg processDelay fun _ => .done))⟩ := by
          simp [Machine.resume, hrun]
        rw [hrun2]
        exact ⟨h1, h2, h3, ⟨evs, h4, h5⟩, h6, h7,
          Or.inr ⟨_, .wait m.queue.nextId, by simp [ActionQueue.setJob, ActionQueue.add, hrun], hst⟩⟩
      | wait k =>
        have hrun2 : m.resume env 0 = m := by
          simp [Machine.resume, hrun, h6]
        rw [hrun2]
        exact ⟨h1, h2, h3, ⟨evs, h4, h5⟩, h6, h7, Or.inr ⟨_, .wait k, hrun, hst⟩⟩
    · have : m.resume env id = m := by
        have h0 : (0 == id) = false := by
          rw [beq_eq_false_iff_ne]
          exact fun h => hid h.symm
        simp [Machine.resume, hrun, h0]
      rw [this]
      exact ⟨h1, h2, h3, ⟨evs, h4, h5⟩, h6, h7, Or.inr ⟨j, hj, hrun, hst⟩⟩

theorem stuck_move (env : Env) (w : World) (uid : String) (member : Member) (r : String)
    (hfind : w.guildMembers.find? (fun m => m.id == uid) = some member)
    (hmf : ∀ n, env.outcome n (.membersFetch uid) = none)
    (ht : r ≠ "") (hno : r ∉ w.roles member.id) (m : Machine) (mv : Move)
    (h : Stuck w uid member r m) : Stuck w uid member r (m.move env mv) := by
  cases mv with
  | resume id => exact stuck_resume env w uid member r hfind hmf ht hno m id h
  | interval =>
    obtain ⟨h1, h2, h3, h4, h6, h7, h8⟩ := h
    exact ⟨h1, h2, h3, h4, h6, h7, h8⟩
  | submit task =>
    obtain ⟨h1, h2, h3, h4, h6, h7, h8⟩ := h
    refine ⟨h1, h2, h3, h4, h6, h7, ?_⟩
    rcases h8 with ⟨hrun, hst, rest, hw⟩ | ⟨j, hj, hrun, hst⟩
    · exact Or.inl ⟨hrun, hst, rest ++ [(m.queue.nextId, task)], by
        simp [Machine.move, ActionQueue.add, hw]⟩
    · exact Or.inr ⟨j, hj, hrun, hst⟩
  | dispatch =>
    obtain ⟨h1, h2, h3, h4, h6, h7, h8⟩ := h
    rcases h8 with ⟨hrun, hst, rest, hw⟩ | ⟨j, hj, hrun, hst⟩
    · by_cases hi : m.queue.intervalCount < m.queue.intervalCap
      · refine ⟨h1, h2, h3, h4, ?_, ?_, Or.inr ⟨_, .fetch, ?_, ?_⟩⟩ <;>
          simp [Machine.move, ActionQueue.dispatch, hw, hi, h6, h7, hrun, hst]
      · have : m.move env .dispatch = m := by
          simp [Machine.move, ActionQueue.dispatch, hw, hi]
        rw [this]
        exact ⟨h1, h2, h3, h4, h6, h7, Or.inl ⟨hrun, hst, rest, hw⟩⟩
    · have : m.move env .dispatch = m := by
        simp only [Machine.move, ActionQueue.dispatch]
        split
        · rfl
        · simp [hrun, h7]
      rw [this]
      exact ⟨h1, h2, h3, h4, h6, h7, Or.inr ⟨j, hj, hrun, hst⟩⟩

theorem stuck_run (env : Env) (w : World) (uid : String) (member : Member) (r : String)
    (hfind : w.guildMembers.find? (fun m => m.id == uid) = some member)
    (hmf : ∀ n, env.outcome n (.membersFetch uid) = none)
    (ht : r ≠ "") (hno : r ∉ w.roles member.id) (moves : List Move) :
    ∀ m : Machine, Stuck w uid member r m → Stuck w uid member r (m.run env moves) := by
  induction moves with
  | nil => intro m h; exact h
  | cons mv rest ih =>
    intro m h
    exact ih _ (stuck_move env w uid member r hfind hmf ht hno m mv h)

/-- Claim C23, at the failing input: the bulk apply is confirmed for the one
matched suspect `u`, who is a member and does not hold the marker role.  Whatever
the process does from then on, and whatever further tasks are submitted, no
`member.roles.add` is ever called, no task of the queue ever settles, and no task
other than the bulk task is ever started: the bulk task occupies the only slot
of the queue while it waits for the role-add task it has submitted behind itself.
After the dispatch and three resumptions of the bulk task, the bulk task (number
0) is in flight and the role-add task (number 1) is waiting. -/
theorem bulk_apply_role_add_never_runs (moves : List Move) :
    (∀ e ∈ (Machine.run sampleEnv (applySusConfirm ["u"]
        ⟨sampleWorld ["button"] [] [] 30, ActionQueue.create⟩) moves).world.trace,
      e.isRolesAdd = false) ∧
    (Machine.run sampleEnv (applySusConfirm ["u"]
        ⟨sampleWorld ["button"] [] [] 30, ActionQueue.create⟩) moves).queue.settled = [] ∧
    ((Machine.run sampleEnv (applySusConfirm ["u"]
        ⟨sampleWorld ["button"] [] [] 30, ActionQueue.create⟩) moves).queue.started = [] ∨
      (Machine.run sampleEnv (applySusConfirm ["u"]
        ⟨sampleWorld ["button"] [] [] 30, ActionQueue.create⟩) moves).queue.started = [0]) ∧
    (Machine.run sampleEnv (applySusConfirm ["u"]
        ⟨sampleWorld ["button"] [] [] 30, ActionQueue.create⟩)
        [.dispatch, .resume 0, .resume 0, .resume 0]).queue.running.map Prod.fst = [0] ∧
    (Machine.run sampleEnv (applySusConfirm ["u"]
        ⟨sampleWorld ["button"] [] [] 30, ActionQueue.create⟩)
        [.dispatch, .resume 0, .resume 0, .resume 0]).queue.waiting.map Prod.fst = [1] := by
  obtain ⟨-, -, -, ⟨evs, h4, h5⟩, h6, -, h8⟩ := stuck_run sampleEnv
    (sampleWorld ["button"] [] [] 30) "u" alice "r" (by decide) (fun _ => rfl) (by decide)
    (by decide) moves _ (stuck_confirm (sampleWorld ["button"] [] [] 30) "u" alice "r" rfl)
  refine ⟨?_, h6, ?_, ?_, ?_⟩
  · intro e he
    rw [h4] at he
    exact h5 e (by simpa [sampleWorld] using he)
  · rcases h8 with ⟨-, hst, -⟩ | ⟨_, -, -, hst⟩
    · exact Or.inl hst
    · exact Or.inr hst
  · rfl
  · rfl

/-! ## Reachable challenge stores -/

theorem storeSet_keys (s : List (String × Challenge)) (k : String) (v : Challenge)
    (h : (s.map Prod.fst).Nodup) : ((storeSet s k v).map Prod.fst).Nodup := by
  unfold storeSet
  split
  · have : (s.map (fun e => if e.1 == k then (k, v) else e)).map Prod.fst = s.map Prod.fst := by
      rw [List.map_map]
      apply List.map_congr_left
      intro e _
      by_cases hk : e.1 = k
      · simp [hk]
      · simp [hk]
    rw [this]
    exact h
  · rename_i hany
    rw [List.map_append, List.nodup_append]
    refine ⟨h, by simp, ?_⟩
    intro a ha hb
    simp only [List.map_cons, List.map_nil, List.mem_singleton] at hb
    subst hb
    apply hany
    obtain ⟨e, he, hek⟩ := List.mem_map.1 ha
    exact List.any_eq_true.2 ⟨e, he, by simp [hek]⟩

theorem reachable_keys {s : List (String × Challenge)} (h : Reachable s) :
    (s.map Prod.fst).Nodup := by
  induction h with
  | empty => simp
  | set s k v now _ _ ih => exact storeSet_keys s k v ih
  | delete s k _ ih =>
    unfold storeDelete
    exact ih.sublist ((List.filter_sublist s).map Prod.fst)

theorem reachable_expiry {s : List (String × Challenge)} (h : Reachable s) :
    ∀ e ∈ s, e.2.expiresAt ≠ 0 := by
  induction h with
  | empty => simp
  | set s k v now _ hv ih =>
    intro e he
    unfold storeSet at he
    split at he
    · obtain ⟨e0, he0, rfl⟩ := List.mem_map.1 he
      split
      · show v.expiresAt ≠ 0
        omega
      · exact ih e0 he0
    · rcases List.mem_append.1 he with h1 | h1
      · exact ih e h1
      · simp only [List.mem_singleton] at h1
        subst h1
        show v.expiresAt ≠ 0
        omega
  | delete s k _ ih =>
    intro e he
    exact ih e (List.mem_of_mem_filter he)

theorem reachable_sweepLoop (now : Nat) :
    ∀ (entries store : List (String × Challenge)), Reachable store →
      Reachable (sweepLoop now entries store)
  | [], _, h => h
  | (k, v) :: rest, store, h => by
    unfold sweepLoop
    split
    · exact reachable_sweepLoop now rest _ (Reachable.delete _ _ h)
    · exact reachable_sweepLoop now rest _ h

theorem storeFrame_of_ext {P : Event → Prop} {keep : Bool} {α : Type} {x : Act α}
    (h : Act.Keeps (ext P keep) x) : Act.Keeps storeFrame x := by
  intro env w hr
  obtain ⟨-, -, -, hst, -⟩ := h env w
  rw [hst]
  exact hr

theorem storeFrame_emit (e : Event) : Act.Keeps storeFrame (Act.emit e) :=
  storeFrame_of_ext (ext_emit trivial : Act.Keeps (ext (fun _ => True) false) (Act.emit e))

theorem storeFrame_call (e : Event) : Act.Keeps storeFrame (Act.call e) :=
  storeFrame_of_ext (ext_call trivial : Act.Keeps (ext (fun _ => True) false) (Act.call e))

theorem storeFrame_delete (k : String) :
    Act.Keeps storeFrame
      (Act.update (fun w => { w with challengeStore := storeDelete w.challengeStore k })) :=
  fun _ _ hr => Reachable.delete _ _ hr

/-- The sweep takes a reachable store to a reachable store. -/
theorem sweep_reachable (now : Nat) : Act.Keeps storeFrame (sweep now) :=
  fun _ w hr => reachable_sweepLoop now w.challengeStore w.challengeStore hr

/-- The handler `verify_button` takes a reachable store to a reachable store. -/
theorem verify_button_reachable (interaction : Interaction) (rand : Nat → Draw) (now : Nat) :
    Act.Keeps storeFrame (verify_button interaction rand now) := by
  unfold verify_button
  refine keeps_tryCatch ?_ (fun _ => keeps_bind (storeFrame_emit _) (fun _ => storeFrame_emit _))
  refine keeps_bind (storeFrame_emit _) (fun _ => keeps_bind keeps_world (fun w => ?_))
  split
  · exact keeps_throw _
  · dsimp only
    split
    · exact storeFrame_of_ext (instantBranch_keeps interaction.userId)
    · split
      · exact storeFrame_emit _
      · refine keeps_bind ?_ (fun _ => storeFrame_emit _)
        intro env w hr
        exact Reachable.set _ _ _ now hr (makeChallenge_expiresAt _ _ _)

/-- The handler `verify_modal` takes a reachable store to a reachable store. -/
theorem verify_modal_reachable (interaction : Interaction) (input : String) (now : Nat) :
    Act.Keeps storeFrame (verify_modal interaction input now) := by
  unfold verify_modal
  refine keeps_tryCatch ?_ (fun _ => keeps_bind (storeFrame_emit _) (fun _ => storeFrame_emit _))
  dsimp only
  refine keeps_bind keeps_world (fun w => ?_)
  split
  · exact storeFrame_emit _
  · split
    · exact keeps_bind (storeFrame_delete _) (fun _ => storeFrame_emit _)
    · split
      · refine keeps_bind (keeps_catchNull (storeFrame_call _)) (fun guild => ?_)
        split
        · exact storeFrame_emit _
        · refine keeps_bind (keeps_catchNull (storeFrame_of_ext (membersFetch_keeps _)))
            (fun member => ?_)
          split
          · exact storeFrame_emit _
          · refine keeps_bind keeps_world (fun w => ?_)
            split
            · exact keeps_bind (storeFrame_delete _) (fun _ => storeFrame_emit _)
            · split
              · exact keeps_bind (storeFrame_delete _) (fun _ => storeFrame_emit _)
              · refine keeps_bind (storeFrame_emit _) (fun _ => ?_)
                unfold verify_modal_tail queueAdd
                refine keeps_bind (keeps_bind (storeFrame_emit _) (fun _ => ?_)) (fun _ =>
                  keeps_bind
                    (storeFrame_of_ext (logToChannel_keeps (P := fun _ => True)
                      (fun _ _ => trivial) _ _))
                    (fun _ => keeps_bind (storeFrame_delete _) (fun _ => storeFrame_emit _)))
                refine keeps_withRetries ?_ _ _ (fun _ => storeFrame_emit _)
                  (fun _ => storeFrame_emit _)
                unfold rolesRemove
                exact storeFrame_call _
      · exact storeFrame_emit _

/-- Claim C20: for every content of `challengeStore` the program can reach and
every time `now`, one run of the background sweep removes every entry with
`now > expiresAt` and leaves every other entry as it is and in place; it makes
no call. -/
theorem sweep_removes_every_expired (now : Nat) (env : Env) (w : World)
    (h : Reachable w.challengeStore) :
    (sweep now env w).2.challengeStore
        = w.challengeStore.filter (fun e => !decide (now > e.2.expiresAt))
      ∧ (∀ e, e ∈ (sweep now env w).2.challengeStore
          ↔ e ∈ w.challengeStore ∧ ¬ now > e.2.expiresAt)
      ∧ (sweep now env w).2.trace = w.trace := by
  have h3 := (sweep_filter now env w (reachable_keys h)).2.2 (reachable_expiry h)
  refine ⟨h3, fun e => ?_, rfl⟩
  rw [h3, List.mem_filter]
  simp

/-- Witness of C20: a challenge issued at time 0 and one issued at time 7, swept
at time 300005. -/
theorem sweep_removes_every_expired_witness :
    Reachable [("g-u", { sampleChallenge with expiresAt := 300000 }),
      ("g-x", { sampleChallenge with expiresAt := 300007 })] ∧
    (sweep 300005 sampleEnv (sampleWorld ["word"] ["r"]
        [("g-u", { sampleChallenge with expiresAt := 300000 }),
         ("g-x", { sampleChallenge with expiresAt := 300007 })] 30)).2.challengeStore
      = [("g-x", { sampleChallenge with expiresAt := 300007 })] :=
  ⟨Reachable.set _ "g-x" _ 7 (Reachable.set [] "g-u" _ 0 Reachable.empty rfl) rfl,
   (sweep_removes_every_expired 300005 sampleEnv (sampleWorld ["word"] ["r"]
      [("g-u", { sampleChallenge with expiresAt := 300000 }),
       ("g-x", { sampleChallenge with expiresAt := 300007 })] 30)
      (Reachable.set _ "g-x" _ 7 (Reachable.set [] "g-u" _ 0 Reachable.empty rfl) rfl)).1.trans
     (by decide)⟩

end WebClientDetector
